import Mathlib

/-!
Stonefish sonar views: beam split, scan index and ping-pong parity.

A shallow embedding of the numeric and state-machine parts of
`OpenGLSonar.cpp`, `OpenGLFLS.cpp`, `OpenGLMSIS.cpp` and `OpenGLSSS.cpp`, of the update
flag and the constructor of `OpenGLFisheyeCamera.cpp`, and of the delivery of new data in
`FisheyeCamera.cpp`.

Conventions of the embedding:

* `GLfloat` values are rationals. `roundGLfloat` rounds a rational to binary32 (to
  nearest, halfway cases to even, with subnormal numbers and overflow), and the
  definitions `OpenGLFLS.ctorGLfloat` and `OpenGLFisheyeCameraLens.ctor` round the result
  of every float operation with it, as the code does (each operation is evaluated in
  binary32, without fused operations). The other definitions compute their float
  expressions exactly, with `0.1f`, `20.f`, ... the decimal numbers written in the
  source; they carry the statements on unsigned arithmetic, flags and call sequences.
* `GLuint` values are naturals below `2 ^ 32`; unsigned arithmetic is written
  with an explicit `% 2 ^ 32`.
* `GLint` values are integers; signed arithmetic wraps in two's complement.
* A conversion from `GLfloat` to `GLuint` truncates towards zero and has no
  defined result when the truncated value is outside `[0, 2 ^ 32)`; functions
  that perform one return an `Option`, with `none` for the undefined case and
  for a float result that is not a finite number (a division by zero).
* A matrix computed by the library `glm` is given by the call that computes it and its
  arguments (`LookAt`, `Projection`), and the vertex data of the display fan by the values
  it is computed from (`FanData`).
* The pointer `sonar_` is a flag; what the methods read from the sensor, and whether
  `glMapBuffer` succeeds, are arguments of the methods.
* The C library functions `sinf`, `cosf` and `tanf` are arguments of the definitions that
  call them; the enumeration `ColorMap`, declared outside these files, is a type argument.
* `size_t` and `GLsizeiptr` are 64 bits wide.
-/

namespace sf

/-! ## Machine arithmetic -/

/-- Number of values of a `GLuint`. -/
def GLuintSize : ℕ := 4294967296

/-- Unsigned 32-bit subtraction `a - b`. -/
def subGLuint (a b : ℕ) : ℕ := (a + (GLuintSize - b % GLuintSize)) % GLuintSize

/-- Unsigned 32-bit multiplication `a * b`. -/
def mulGLuint (a b : ℕ) : ℕ := (a * b) % GLuintSize

/-- The C function `ceilf`, on exact values. -/
def ceilf (x : ℚ) : ℚ := ((⌈x⌉ : ℤ) : ℚ)

/-- The C function `roundf`: nearest integer, halfway cases away from zero. -/
def roundf (x : ℚ) : ℚ :=
  if 0 ≤ x then ((⌊x + 1 / 2⌋ : ℤ) : ℚ) else ((⌈x - 1 / 2⌉ : ℤ) : ℚ)

/-- Truncation towards zero, the integer part kept by a float to integer cast. -/
def truncf (x : ℚ) : ℤ := if 0 ≤ x then ⌊x⌋ else ⌈x⌉

/-- The cast `(GLuint)x` of a float: defined when the truncated value fits. -/
def castGLuint (x : ℚ) : Option ℕ :=
  if 0 ≤ truncf x ∧ truncf x < (GLuintSize : ℤ) then some (truncf x).toNat else none

/-- The cast `(GLint)n` of a `GLuint`. -/
def toGLint (n : ℕ) : ℤ :=
  if n % GLuintSize < 2147483648 then ((n % GLuintSize : ℕ) : ℤ)
  else ((n % GLuintSize : ℕ) : ℤ) - 4294967296

/-- Signed 32-bit addition with two's complement wrap-around. -/
def addGLint (a b : ℤ) : ℤ := (a + b + 2147483648) % 4294967296 - 2147483648

/-- The cast `(GLuint)z` of a `GLint`. -/
def toGLuint (z : ℤ) : ℕ := (z % 4294967296).toNat

/-- The function `glm::radians`: degrees times the literal used by GLM. -/
def radians (deg : ℚ) : ℚ := deg * (1745329251994329576923690768489 / 100000000000000000000000000000000)

/-! ## Binary32 arithmetic of `GLfloat` -/

/-- Nearest integer, halfway cases to the even neighbour: the rounding of the significand
in an IEEE 754 operation. -/
def roundHalfEven (y : ℚ) : ℤ :=
  if y - ⌊y⌋ < 1 / 2 then ⌊y⌋
  else if 1 / 2 < y - ⌊y⌋ then ⌊y⌋ + 1
  else if ⌊y⌋ % 2 = 0 then ⌊y⌋ else ⌊y⌋ + 1

/-- The exponent `e` of the binary32 grid at `x`, found by bisection over the `2 ^ k`
exponents from `lo` on: the binary32 numbers from `2 ^ (e + 23)` up to `2 ^ (e + 24)` are
the multiples of `2 ^ e`, and below `2 ^ -125` (the lowest binade and the subnormal
numbers) the grid is `2 ^ -149`. -/
def ulpExpFrom (x : ℚ) : ℕ → ℤ → ℤ
  | 0, lo => lo
  | k + 1, lo =>
      if (2 : ℚ) ^ (lo + 2 ^ k + 23) ≤ |x| then ulpExpFrom x k (lo + 2 ^ k) else ulpExpFrom x k lo

/-- The exponent of the binary32 grid at `x`; it is at most `104 = 127 - 23` for a number
below `2 ^ 128`. -/
def ulpExp (x : ℚ) : ℤ := ulpExpFrom x 8 (-149)

/-- The multiple of the binary32 grid at `x` that is nearest to `x`, halfway cases to the
even significand. -/
def nearestGLfloat (x : ℚ) : ℚ :=
  (roundHalfEven (x / (2 : ℚ) ^ ulpExp x) : ℚ) * (2 : ℚ) ^ ulpExp x

/-- The result of a binary32 operation whose exact result is `x`: rounded to nearest,
`none` when the rounded value is `2 ^ 128` or more in magnitude (an infinity). -/
def roundGLfloat (x : ℚ) : Option ℚ :=
  if |nearestGLfloat x| < (2 : ℚ) ^ (128 : ℕ) then some (nearestGLfloat x) else none

/-- The binary32 sum `a + b`. -/
def addGLfloat (a b : ℚ) : Option ℚ := roundGLfloat (a + b)

/-- The binary32 product `a * b`. -/
def mulGLfloat (a b : ℚ) : Option ℚ := roundGLfloat (a * b)

/-- The binary32 quotient `a / b`; not a finite number when `b` is zero. -/
def divGLfloat (a b : ℚ) : Option ℚ := if b = 0 then none else roundGLfloat (a / b)

/-- The exponent of the binary64 grid at `x`, found by bisection over the `2 ^ k`
exponents from `lo` on. -/
def ulpExpDoubleFrom (x : ℚ) : ℕ → ℤ → ℤ
  | 0, lo => lo
  | k + 1, lo =>
      if (2 : ℚ) ^ (lo + 2 ^ k + 52) ≤ |x| then ulpExpDoubleFrom x k (lo + 2 ^ k)
      else ulpExpDoubleFrom x k lo

/-- The binary64 number nearest to `x`: the value of a literal of type `double`. -/
def nearestDouble (x : ℚ) : ℚ :=
  (roundHalfEven (x / (2 : ℚ) ^ ulpExpDoubleFrom x 11 (-1074)) : ℚ)
    * (2 : ℚ) ^ ulpExpDoubleFrom x 11 (-1074)

/-- The `double` literal `0.01745329251994329576923690768489` of `glm::radians`; its value
is `5030569068109113 / 2 ^ 58`. -/
def radiansFactor : ℚ := 5030569068109113 / 288230376151711744

/-- The function `glm::radians` on a `GLfloat`:
`degrees * static_cast<float>(0.01745329251994329576923690768489)`. -/
def radiansGLfloat (deg : ℚ) : Option ℚ := mulGLfloat deg (nearestGLfloat radiansFactor)

/-! ## Forward-looking sonar (`OpenGLFLS.cpp`) -/

/-- Macro `FLS_MAX_SINGLE_FOV`, in degrees. -/
def FLS_MAX_SINGLE_FOV : ℚ := 20

/-- Macro `FLS_VRES_FACTOR`. -/
def FLS_VRES_FACTOR : ℚ := 1 / 10

/-- One camera view of the forward-looking sonar: its number of beams and the
angle of its rotation about the vertical axis (`glm::rotate(angle, (0,1,0))`). -/
structure SonarView where
  nBeams : ℕ
  view : ℚ
  deriving DecidableEq, Repr

/-- The members of `OpenGLFLS` set by the beam and view computations of the constructor. -/
structure OpenGLFLS where
  nBeams_ : ℕ
  nBins_ : ℕ
  nBeamSamples_ : ℕ
  fov_ : ℚ × ℚ
  nViewBeams_ : ℕ
  views_ : List SonarView
  deriving DecidableEq, Repr

/-- The loop `for(GLuint i=0; i<nViews-1; ++i) views_.push_back(sv)` followed by the
push of the last view; `nViews-1` is an unsigned subtraction. -/
def pushViews (nViews beams1 beams2 : ℕ) : List SonarView :=
  List.replicate (subGLuint nViews 1) ⟨beams1, 0⟩ ++ [⟨beams2, 0⟩]

/-- The expression `(GLfloat)nViewBeams_/(GLfloat)nBeams_ * fov_.x`, computed exactly
(`viewFovOfGLfloat` is the expression in binary32). -/
def viewFovCorrOf (nViewBeams nBeams : ℕ) (fovx : ℚ) : ℚ :=
  (nViewBeams : ℚ) / (nBeams : ℚ) * fovx

/-- The expression `(GLfloat)views_[i].nBeams/(GLfloat)nBeams_ * fov_.x`, computed
exactly (`viewFovOfGLfloat` is the expression in binary32). -/
def viewFovOf (v : SonarView) (nBeams : ℕ) (fovx : ℚ) : ℚ :=
  (v.nBeams : ℚ) / (nBeams : ℚ) * fovx

/-- The loop that sets `views_[i].view`, with `viewFovAcc` as accumulator. -/
def setupViews (nBeams : ℕ) (fovx viewFovCorr : ℚ) : ℚ → List SonarView → List SonarView
  | _, [] => []
  | viewFovAcc, v :: vs =>
      { v with view := -fovx / 2 + viewFovAcc + viewFovCorr / 2 }
        :: setupViews nBeams fovx viewFovCorr (viewFovAcc + viewFovOf v nBeams fovx) vs

/-- The constructor `OpenGLFLS::OpenGLFLS`, lines 48-107, with exact float operations:
sonar specs, number of camera views, beams per view and view rotations. The viewport
width (a `sinf`), the projection matrix and the allocation of GPU resources are left
out. `OpenGLFLS.ctorGLfloat` below is the same constructor with binary32 rounding; the two
give the same beam split for fewer than `2 ^ 23` beams and a field of view from
`2 ^ -126` to `2 ^ 24` degrees (`fls_ctorGLfloat_agrees`). -/
def OpenGLFLS.ctor (horizontalFOVDeg verticalFOVDeg : ℚ) (numOfBeams numOfBins : ℕ) :
    Option OpenGLFLS := do
  let nBeams_ := numOfBeams
  let nBins_ := numOfBins
  let nBeamSamples_ ← (castGLuint (ceilf (verticalFOVDeg * (numOfBins : ℚ) * FLS_VRES_FACTOR))).map
    (fun n => min n 2048)
  let fov_ : ℚ × ℚ := (radians horizontalFOVDeg, radians verticalFOVDeg)
  let nViews ← castGLuint (ceilf (horizontalFOVDeg / FLS_MAX_SINGLE_FOV))
  -- the quotients by `(GLfloat)nViews` and by `(GLfloat)nBeams_` below are not finite
  -- numbers when the divisor is zero
  if nViews = 0 ∨ nBeams_ = 0 then none else
  let beams1 ← castGLuint (roundf ((nBeams_ : ℚ) / (nViews : ℚ)))
  let beams2 := subGLuint nBeams_ (mulGLuint beams1 (subGLuint nViews 1))
  let nViewBeams_ := max beams1 beams2
  let views_ := pushViews nViews beams1 beams2
  let viewFovCorr := viewFovCorrOf nViewBeams_ nBeams_ fov_.1
  let views_ := setupViews nBeams_ fov_.1 viewFovCorr 0 views_
  pure { nBeams_, nBins_, nBeamSamples_, fov_, nViewBeams_, views_ }

/-- The local `viewFovCorr` of the constructor and of `UpdateTransform`, computed
exactly. -/
def OpenGLFLS.viewFovCorr (s : OpenGLFLS) : ℚ := viewFovCorrOf s.nViewBeams_ s.nBeams_ s.fov_.1

/-- The local `viewFov` of the view loop, for one view, computed exactly. -/
def OpenGLFLS.viewFov (s : OpenGLFLS) (v : SonarView) : ℚ := viewFovOf v s.nBeams_ s.fov_.1

/-- The expression `(GLfloat)k/(GLfloat)nBeams_ * fov_.x` of lines 95 and 104 in binary32:
two casts, a division and a multiplication, each rounded. -/
def viewFovOfGLfloat (k nBeams : ℕ) (fovx : ℚ) : Option ℚ := do
  let q ← divGLfloat (nearestGLfloat k) (nearestGLfloat nBeams)
  mulGLfloat q fovx

/-- The loop that sets `views_[i].view` in binary32, with `viewFovAcc` as accumulator:
`-fov_.x/2.f + viewFovAcc + viewFovCorr/2.f` and `viewFovAcc += viewFov`. -/
def setupViewsGLfloat (nBeams : ℕ) (fovx viewFovCorr : ℚ) :
    ℚ → List SonarView → Option (List SonarView)
  | _, [] => some []
  | viewFovAcc, v :: vs => do
      let a ← divGLfloat (-fovx) 2
      let b ← addGLfloat a viewFovAcc
      let c ← divGLfloat viewFovCorr 2
      let view ← addGLfloat b c
      let viewFov ← viewFovOfGLfloat v.nBeams nBeams fovx
      let viewFovAcc ← addGLfloat viewFovAcc viewFov
      let vs ← setupViewsGLfloat nBeams fovx viewFovCorr viewFovAcc vs
      pure ({ v with view := view } :: vs)

/-- The constructor `OpenGLFLS::OpenGLFLS`, lines 48-107, with the binary32 arithmetic of
its `GLfloat` expressions: every cast to `GLfloat`, product, quotient and sum is rounded
to binary32, and the arguments `horizontalFOVDeg` and `verticalFOVDeg` are meant to be
binary32 numbers. The viewport width (a `sinf`), the projection matrix and the allocation
of GPU resources are left out. -/
def OpenGLFLS.ctorGLfloat (horizontalFOVDeg verticalFOVDeg : ℚ) (numOfBeams numOfBins : ℕ) :
    Option OpenGLFLS := do
  let nBeams_ := numOfBeams
  let nBins_ := numOfBins
  let t ← mulGLfloat verticalFOVDeg (nearestGLfloat numOfBins)
  let t ← mulGLfloat t (nearestGLfloat FLS_VRES_FACTOR)
  let nBeamSamples_ ← (castGLuint (ceilf t)).map (fun n => min n 2048)
  let fovx ← radiansGLfloat horizontalFOVDeg
  let fovy ← radiansGLfloat verticalFOVDeg
  let q ← divGLfloat horizontalFOVDeg FLS_MAX_SINGLE_FOV
  let nViews ← castGLuint (ceilf q)
  let q ← divGLfloat (nearestGLfloat nBeams_) (nearestGLfloat nViews)
  let beams1 ← castGLuint (roundf q)
  let beams2 := subGLuint nBeams_ (mulGLuint beams1 (subGLuint nViews 1))
  let nViewBeams_ := max beams1 beams2
  let views_ := pushViews nViews beams1 beams2
  let viewFovCorr ← viewFovOfGLfloat nViewBeams_ nBeams_ fovx
  let views_ ← setupViewsGLfloat nBeams_ fovx viewFovCorr 0 views_
  pure { nBeams_, nBins_, nBeamSamples_, fov_ := (fovx, fovy), nViewBeams_, views_ }

/-- The local `viewFovCorr` of the constructor, in binary32. -/
def OpenGLFLS.viewFovCorrGLfloat (s : OpenGLFLS) : Option ℚ :=
  viewFovOfGLfloat s.nViewBeams_ s.nBeams_ s.fov_.1

/-- The local `viewFov` of the view loop for one view, in binary32. -/
def OpenGLFLS.viewFovGLfloat (s : OpenGLFLS) (v : SonarView) : Option ℚ :=
  viewFovOfGLfloat v.nBeams s.nBeams_ s.fov_.1

/-! ## Mechanical scanning imaging sonar (`OpenGLMSIS.cpp`) -/

/-- Macro `MSIS_RES_FACTOR`. -/
def MSIS_RES_FACTOR : ℚ := 1 / 10

/-- The values `OpenGLMSIS::UpdateTransform` reads from the attached `MSIS` sensor. -/
structure MSISReadings where
  rangeMin : ℚ
  rangeMax : ℚ
  gain : ℚ
  rotL1 : ℚ
  rotL2 : ℚ
  currentRotationStep : ℤ
  deriving DecidableEq, Repr

/-- The members of `OpenGLMSIS` (and of its base `OpenGLSonar`) used by the scan logic;
`sonar_` records whether a sensor is attached. -/
structure OpenGLMSIS where
  sonar_ : Bool
  nSteps_ : ℕ
  nBins_ : ℕ
  currentStep_ : ℤ
  rotationLimits_ : ℚ × ℚ
  nBeamSamples_ : ℕ × ℕ
  noise_ : ℚ × ℚ
  fov_ : ℚ × ℚ
  range_ : ℚ × ℚ
  gain_ : ℚ
  settingsUpdated_ : Bool
  deriving DecidableEq, Repr

/-- The constructor `OpenGLMSIS::OpenGLMSIS`, lines 47-61 (with the member
initialisation of the base constructor `OpenGLSonar::OpenGLSonar`). -/
def OpenGLMSIS.ctor (horizontalBeamWidthDeg verticalBeamWidthDeg : ℚ)
    (numOfSteps numOfBins : ℕ) (range : ℚ × ℚ) : Option OpenGLMSIS := do
  let x ← (castGLuint (ceilf (horizontalBeamWidthDeg * (numOfBins : ℚ) * MSIS_RES_FACTOR))).map
    (fun n => min n 2048)
  let y ← (castGLuint (ceilf (verticalBeamWidthDeg * (numOfBins : ℚ) * MSIS_RES_FACTOR))).map
    (fun n => min n 2048)
  pure { sonar_ := false
         nSteps_ := numOfSteps
         nBins_ := numOfBins
         currentStep_ := 0
         rotationLimits_ := (-180, 180)
         nBeamSamples_ := (x, y)
         noise_ := (0, 0)
         fov_ := (radians horizontalBeamWidthDeg, radians verticalBeamWidthDeg)
         range_ := range
         gain_ := 1
         settingsUpdated_ := true }

/-- The method `OpenGLMSIS::setSonar`: attaches the sensor. -/
def OpenGLMSIS.setSonar (s : OpenGLMSIS) : OpenGLMSIS := { s with sonar_ := true }

/-- The method `OpenGLMSIS::UpdateTransform`, on the members above: nothing without a
sensor; otherwise rotation limits, range and gain are compared with the sensor
readings and the current step is taken from the sensor (lines 214-245 and 300-303). -/
def OpenGLMSIS.UpdateTransform (s : OpenGLMSIS) (r : MSISReadings) : OpenGLMSIS :=
  if s.sonar_ = false then s else
  let s := if s.rotationLimits_.1 ≠ r.rotL1 ∨ s.rotationLimits_.2 ≠ r.rotL2
    then { s with rotationLimits_ := (r.rotL1, r.rotL2), settingsUpdated_ := true } else s
  let s := if r.rangeMin ≠ s.range_.1
    then { s with range_ := (r.rangeMin, s.range_.2), settingsUpdated_ := true } else s
  let s := if r.rangeMax ≠ s.range_.2
    then { s with range_ := (s.range_.1, r.rangeMax), settingsUpdated_ := true } else s
  let s := if r.gain ≠ s.gain_
    then { s with gain_ := r.gain, settingsUpdated_ := true } else s
  { s with currentStep_ := r.currentRotationStep }

/-- What one `OpenGLMSIS::ComputeOutput` call hands to the update kernel, and whether it
made the upload of zeros of line 394,
`glTexSubImage2D(GL_TEXTURE_2D, 0, 0, 0, nSteps_, nBins_, GL_RED, GL_UNSIGNED_BYTE, zeros)`,
to the accumulation image `outputTex_[1]`. -/
structure MSISUpdate where
  clearUpload : Bool
  rotationStep : ℕ
  gain : ℚ
  noiseStddev : ℚ × ℚ
  deriving DecidableEq, Repr

/-- The method `OpenGLMSIS::ComputeOutput`, lines 386-422: the settings branch and the
uniforms of the update shader, with
`rotationStep = (GLuint)(currentStep_ + (GLint)(nSteps_/2))`. -/
def OpenGLMSIS.ComputeOutput (s : OpenGLMSIS) : OpenGLMSIS × MSISUpdate :=
  let clearUpload := s.settingsUpdated_
  let s := if s.settingsUpdated_ then { s with settingsUpdated_ := false } else s
  let rotationStep := toGLuint (addGLint s.currentStep_ (toGLint (s.nSteps_ / 2)))
  (s, { clearUpload, rotationStep, gain := s.gain_, noiseStddev := s.noise_ })

/-! ## Side-scan sonar (`OpenGLSSS.cpp`) -/

/-- Macro `SSS_VRES_FACTOR`. -/
def SSS_VRES_FACTOR : ℚ := 2 / 10

/-- Macro `SSS_HRES_FACTOR`. -/
def SSS_HRES_FACTOR : ℚ := 100

/-- The enumeration `SonarOutputFormat`. -/
inductive SonarOutputFormat where
  | U8
  | U16
  | U32
  | F32
  deriving DecidableEq, Repr

/-- The textures of `OpenGLSSS`: `outputTex_ i` is the element `outputTex_[i]`. -/
inductive SSSTexture where
  | inputRangeIntensityTex_
  | outputTex_ (i : ℤ)
  | displayTex_
  deriving DecidableEq, Repr

/-- The GPU programs run by `OpenGLSSS::ComputeOutput`. -/
inductive SSSShader where
  | sonarOutputShader0
  | sonarShiftShader
  | sonarOutputShader1
  | sonarVisualizeShader
  deriving DecidableEq, Repr

/-- One GPU pass: the program, the texture it reads and the texture it writes. -/
structure SSSPass where
  shader : SSSShader
  reads : SSSTexture
  writes : SSSTexture
  deriving DecidableEq, Repr

/-- The pixel pack buffers filled by `OpenGLSSS::DrawLDR`. -/
inductive SSSBuffer where
  | outputPBO_
  | displayPBO_
  deriving DecidableEq, Repr

/-- The members of `OpenGLSSS` (and of its base `OpenGLSonar`) used by the waterfall
logic; `sonar_` records whether a sensor is attached. -/
structure OpenGLSSS where
  sonar_ : Bool
  tilt_ : ℚ
  fov_ : ℚ × ℚ
  nBeamSamples_ : ℕ × ℕ
  noise_ : ℚ × ℚ
  range_ : ℚ × ℚ
  gain_ : ℚ
  settingsUpdated_ : Bool
  newData_ : Bool
  outputFormat_ : SonarOutputFormat
  pingpong_ : ℤ
  deriving DecidableEq, Repr

/-- The constructor `OpenGLSSS::OpenGLSSS`, lines 48-58 and 119 (with the member
initialisation of the base constructor `OpenGLSonar::OpenGLSonar`). -/
def OpenGLSSS.ctor (verticalBeamWidthDeg horizontalBeamWidthDeg : ℚ) (numOfBins : ℕ)
    (verticalTiltDeg : ℚ) (range : ℚ × ℚ) (outputFormat : SonarOutputFormat) :
    Option OpenGLSSS := do
  let x ← (castGLuint (ceilf (verticalBeamWidthDeg * (numOfBins : ℚ) / 2 * SSS_VRES_FACTOR))).map
    (fun n => min n 2048)
  let y ← (castGLuint (ceilf (horizontalBeamWidthDeg * SSS_HRES_FACTOR))).map
    (fun n => min n 2048)
  pure { sonar_ := false
         tilt_ := radians verticalTiltDeg
         fov_ := (radians verticalBeamWidthDeg, radians horizontalBeamWidthDeg)
         nBeamSamples_ := (x, y)
         noise_ := (0, 0)
         range_ := range
         gain_ := 1
         settingsUpdated_ := true
         newData_ := false
         outputFormat_ := outputFormat
         pingpong_ := 0 }

/-- The method `OpenGLSSS::setSonar`: attaches the sensor. -/
def OpenGLSSS.setSonar (s : OpenGLSSS) : OpenGLSSS := { s with sonar_ := true }

/-- The method `OpenGLSSS::ComputeOutput`, lines 381-442, as the sequence of GPU passes
it issues. `img1` and `img2` are the image units `TEX_POSTPROCESS1` and
`TEX_POSTPROCESS2`: every compute shader reads the first and writes the second
(uniforms set in the constructor), and a unit keeps its texture until it is bound
again. The visualisation samples texture unit `TEX_POSTPROCESS2`. -/
def OpenGLSSS.ComputeOutput (s : OpenGLSSS) : OpenGLSSS × List SSSPass :=
  -- Compute sonar output histogram
  let img1 := SSSTexture.inputRangeIntensityTex_
  let img2 := SSSTexture.outputTex_ 0
  let histogram : SSSPass := ⟨.sonarOutputShader0, img1, img2⟩
  let s := if s.settingsUpdated_ then { s with settingsUpdated_ := false } else s
  -- Shift old sonar output
  let img1 := SSSTexture.outputTex_ (s.pingpong_ + 1)
  let img2 := SSSTexture.outputTex_ (1 - s.pingpong_ + 1)
  let shift : SSSPass := ⟨.sonarShiftShader, img1, img2⟩
  -- Postprocess sonar output
  let img1 := SSSTexture.outputTex_ 0
  let line : SSSPass := ⟨.sonarOutputShader1, img1, img2⟩
  -- Visualisation
  let tex2 := SSSTexture.outputTex_ (1 - s.pingpong_ + 1)
  let visualize : SSSPass := ⟨.sonarVisualizeShader, tex2, .displayTex_⟩
  let pingpong := s.pingpong_ + 1
  let pingpong := if pingpong > 1 then 0 else pingpong
  ({ s with pingpong_ := pingpong }, [histogram, shift, line, visualize])

/-- The method `OpenGLSSS::DrawLDR`, lines 469-497: with a sensor attached and
`updated` set, the copies of textures into pixel pack buffers that it requests. -/
def OpenGLSSS.DrawLDR (s : OpenGLSSS) (updated : Bool) :
    OpenGLSSS × List (SSSTexture × SSSBuffer) :=
  if s.sonar_ && updated then
    ({ s with newData_ := true },
      [(.outputTex_ (s.pingpong_ + 1), .outputPBO_), (.displayTex_, .displayPBO_)])
  else (s, [])

/-- One tick of the side-scan sonar as the rendering pipeline runs it: `ComputeOutput`
followed by `DrawLDR`. -/
def OpenGLSSS.tick (s : OpenGLSSS) (updated : Bool) : OpenGLSSS :=
  (s.ComputeOutput.1.DrawLDR updated).1

/-- A run of ticks, one for each `updated` flag of the list. -/
def OpenGLSSS.ticks : List Bool → OpenGLSSS → OpenGLSSS
  | [], s => s
  | u :: us, s => OpenGLSSS.ticks us (s.tick u)

/-! ## Base class of the sonar views (`OpenGLSonar.cpp`) -/

/-- A `glm::vec3`. -/
structure Vec3 where
  x : ℚ
  y : ℚ
  z : ℚ
  deriving DecidableEq, Repr

/-- The sum of two vectors, `a + b`. -/
def Vec3.add (a b : Vec3) : Vec3 := { x := a.x + b.x, y := a.y + b.y, z := a.z + b.z }

/-- A view matrix, given by the arguments `eye`, `center`, `up` of the call of the
library function `glm::lookAt` that computes it. -/
structure LookAt where
  eye : Vec3
  center : Vec3
  up : Vec3
  deriving DecidableEq, Repr

/-- The members of `OpenGLSonar` used by the staging of the transform and by the update
flag, with `enabled`, a member of its base `OpenGLView`. -/
structure OpenGLSonar where
  enabled : Bool
  needsUpdate_ : Bool
  tempEye_ : Vec3
  tempDir_ : Vec3
  tempUp_ : Vec3
  eye_ : Vec3
  dir_ : Vec3
  up_ : Vec3
  sonarTransform_ : LookAt
  deriving DecidableEq, Repr

/-- The method `OpenGLSonar::SetupSonar(_eye, _dir, _up)`. -/
def OpenGLSonar.SetupSonar (s : OpenGLSonar) (_eye _dir _up : Vec3) : OpenGLSonar :=
  { s with tempEye_ := _eye, tempDir_ := _dir, tempUp_ := _up }

/-- The method `OpenGLSonar::SetupSonar()` without arguments:
`sonarTransform_ = glm::lookAt(eye_, eye_+dir_, up_)`. -/
def OpenGLSonar.SetupSonar' (s : OpenGLSonar) : OpenGLSonar :=
  { s with sonarTransform_ := { eye := s.eye_, center := s.eye_.add s.dir_, up := s.up_ } }

/-- The method `OpenGLSonar::UpdateTransform`. -/
def OpenGLSonar.UpdateTransform (s : OpenGLSonar) : OpenGLSonar :=
  let s := { s with eye_ := s.tempEye_, dir_ := s.tempDir_, up_ := s.tempUp_ }
  s.SetupSonar'

/-- The method `OpenGLSonar::GetEyePosition`. -/
def OpenGLSonar.GetEyePosition (s : OpenGLSonar) : Vec3 := s.eye_

/-- The method `OpenGLSonar::GetLookingDirection`. -/
def OpenGLSonar.GetLookingDirection (s : OpenGLSonar) : Vec3 := s.dir_

/-- The method `OpenGLSonar::GetUpDirection`. -/
def OpenGLSonar.GetUpDirection (s : OpenGLSonar) : Vec3 := s.up_

/-- The method `OpenGLSonar::GetViewMatrix`. -/
def OpenGLSonar.GetViewMatrix (s : OpenGLSonar) : LookAt := s.sonarTransform_

/-- The method `OpenGLSonar::Update`. -/
def OpenGLSonar.Update (s : OpenGLSonar) : OpenGLSonar := { s with needsUpdate_ := true }

/-- The method `OpenGLSonar::needsUpdate`: the returned value and the state after the call. -/
def OpenGLSonar.needsUpdate (s : OpenGLSonar) : Bool × OpenGLSonar :=
  if s.needsUpdate_ then (s.enabled, { s with needsUpdate_ := false })
  else (false, s)

/-- A run of `needsUpdate` calls; before each call the `enabled` flag, which code outside
this class may change at any time, takes the next value of the list. The results of
the calls are returned in order. -/
def OpenGLSonar.polls : List Bool → OpenGLSonar → List Bool × OpenGLSonar
  | [], s => ([], s)
  | e :: es, s =>
      let r := ({ s with enabled := e } : OpenGLSonar).needsUpdate
      let rest := OpenGLSonar.polls es r.2
      (r.1 :: rest.1, rest.2)

/-- The members of the base constructor `OpenGLSonar::OpenGLSonar` that belong to the
structure above; `enabled` is the value set by the constructor of `OpenGLView`. The
committed vectors and the view matrix are indeterminate until the first
`UpdateTransform`, which every derived constructor calls. -/
def OpenGLSonar.ctor (enabled : Bool) (eyePosition direction sonarUp : Vec3) : OpenGLSonar :=
  let zero : Vec3 := { x := 0, y := 0, z := 0 }
  let s : OpenGLSonar :=
    { enabled := enabled
      needsUpdate_ := false
      tempEye_ := zero
      tempDir_ := zero
      tempUp_ := zero
      eye_ := zero
      dir_ := zero
      up_ := zero
      sonarTransform_ := { eye := zero, center := zero, up := zero } }
  s.SetupSonar eyePosition direction sonarUp

/-! ## Update flag of the fisheye camera view (`OpenGLFisheyeCamera.cpp`) -/

/-- The members of `OpenGLFisheyeCamera` used by the update flag, with `enabled`, a member
of its base `OpenGLView`. -/
structure OpenGLFisheyeCamera where
  enabled : Bool
  _needsUpdate : Bool
  deriving DecidableEq, Repr

/-- The method `OpenGLFisheyeCamera::Update`. -/
def OpenGLFisheyeCamera.Update (s : OpenGLFisheyeCamera) : OpenGLFisheyeCamera :=
  { s with _needsUpdate := true }

/-- The method `OpenGLFisheyeCamera::needsUpdate`: the returned value and the state after
the call. -/
def OpenGLFisheyeCamera.needsUpdate (s : OpenGLFisheyeCamera) : Bool × OpenGLFisheyeCamera :=
  if s._needsUpdate then (s.enabled, { s with _needsUpdate := false })
  else (false, s)

/-- A run of `needsUpdate` calls of the fisheye view, as `OpenGLSonar.polls`. -/
def OpenGLFisheyeCamera.polls : List Bool → OpenGLFisheyeCamera → List Bool × OpenGLFisheyeCamera
  | [], s => ([], s)
  | e :: es, s =>
      let r := ({ s with enabled := e } : OpenGLFisheyeCamera).needsUpdate
      let rest := OpenGLFisheyeCamera.polls es r.2
      (r.1 :: rest.1, rest.2)

/-! ## Commit and readback of the sonar views -/

/-- The values `UpdateTransform` reads from the attached sensor (`getRangeMin`,
`getRangeMax`, `getGain`) in the forward-looking and side-scan views. -/
structure SonarReadings where
  rangeMin : ℚ
  rangeMax : ℚ
  gain : ℚ
  deriving DecidableEq, Repr

/-- A projection matrix, given by the statement that computes it and the values it reads.
`perspective fovx fovy rangeMin far` is the matrix of the constructors,
`glm::perspective(fovy, tanf(fovx/2)/tanf(fovy/2), rangeMin * cos(max(fovx/2, fovy/2)), far)`;
`frustum fovx fovy near far` is the matrix whose four columns `UpdateTransform` writes
from `near`, `far`, `tanf(fovx/2)` and `tanf(fovy/2)`. -/
inductive Projection where
  | perspective (fovx fovy rangeMin far : ℚ)
  | frustum (fovx fovy near far : ℚ)
  deriving DecidableEq, Repr

/-- The vertex data of the display fan in `displayVBO_`, given by the values the loop
that fills `fanData` reads besides the fixed field of view: `fanDiv_` and
`Rmin = range_.x/range_.y`. -/
structure FanData where
  fanDiv : ℕ
  Rmin : ℚ
  deriving DecidableEq, Repr

/-- What one `UpdateTransform` call does besides changing members: how many times it
computed the projection matrix, how many times it uploaded the fan vertex data, and the
calls `NewDataReady(data, channel)` it made on the sensor, in order. -/
structure CommitEffects (β : Type) where
  projectionUpdates : ℕ
  fanUploads : ℕ
  delivered : List (β × ℕ)
  deriving DecidableEq, Repr

/-- A whole `OpenGLFLS` object: the base part, the beam specification `fls`, the settings
of the base class and the contents of the textures and pixel pack buffers that take part
in the readback; `α` is the type of image contents, `none` a buffer never written. -/
structure OpenGLFLSView (α : Type) extends OpenGLSonar where
  fls : OpenGLFLS
  sonar_ : Bool
  range_ : ℚ × ℚ
  gain_ : ℚ
  noise_ : ℚ × ℚ
  settingsUpdated_ : Bool
  newData_ : Bool
  outputFormat_ : SonarOutputFormat
  projection_ : Projection
  fanDiv_ : ℕ
  displayVBO_ : FanData
  outputTex1 : Option α
  displayTex_ : Option α
  outputPBO_ : Option α
  displayPBO_ : Option α
  deriving DecidableEq, Repr

/-- The constructor `OpenGLFLS::OpenGLFLS` on the whole object: base constructor, the
beam specification of `OpenGLFLS.ctor`, the call of `UpdateTransform` (no sensor yet),
the projection matrix (lines 96-99) and the display fan (lines 154-172). -/
def OpenGLFLSView.ctor {α : Type} (enabled : Bool) (eyePosition direction sonarUp : Vec3)
    (horizontalFOVDeg verticalFOVDeg : ℚ) (numOfBeams numOfBins : ℕ) (range : ℚ × ℚ)
    (outputFormat : SonarOutputFormat) : Option (OpenGLFLSView α) := do
  let base := OpenGLSonar.ctor enabled eyePosition direction sonarUp
  let fls ← OpenGLFLS.ctor horizontalFOVDeg verticalFOVDeg numOfBeams numOfBins
  let base := base.UpdateTransform
  let fanDiv_ ← (castGLuint (ceilf horizontalFOVDeg)).map (fun n => min n fls.nBeams_)
  pure { toOpenGLSonar := base
         fls := fls
         sonar_ := false
         range_ := range
         gain_ := 1
         noise_ := (0, 0)
         settingsUpdated_ := true
         newData_ := false
         outputFormat_ := outputFormat
         projection_ := .perspective fls.viewFovCorr fls.fov_.2 range.1 range.2
         fanDiv_ := fanDiv_
         displayVBO_ := { fanDiv := fanDiv_, Rmin := range.1 / range.2 }
         outputTex1 := none
         displayTex_ := none
         outputPBO_ := none
         displayPBO_ := none }

/-- The method `OpenGLFLS::setSonar`: attaches the sensor and allocates the two pixel
pack buffers. -/
def OpenGLFLSView.setSonar {α : Type} (v : OpenGLFLSView α) : OpenGLFLSView α :=
  { v with sonar_ := true, outputPBO_ := none, displayPBO_ := none }

/-- The method `OpenGLFLS::UpdateTransform`. `r` holds the sensor readings; `mapDisplay`
and `mapOutput` tell whether `glMapBuffer` returns a pointer for `displayPBO_` and for
`outputPBO_`. The flag `updateProjection` of the source is set by the two range
comparisons, recorded here as `changedMin` and `changedMax`. -/
def OpenGLFLSView.UpdateTransform {α : Type} (v : OpenGLFLSView α) (r : SonarReadings)
    (mapDisplay mapOutput : Bool) : OpenGLFLSView α × CommitEffects (Option α) :=
  let v := { v with toOpenGLSonar := v.toOpenGLSonar.UpdateTransform }
  if v.sonar_ = false then (v, { projectionUpdates := 0, fanUploads := 0, delivered := [] }) else
  -- Update settings if necessary
  let changedMin : Bool := decide (r.rangeMin ≠ v.range_.1)
  let v := if changedMin
    then { v with range_ := (r.rangeMin, v.range_.2), settingsUpdated_ := true } else v
  let changedMax : Bool := decide (r.rangeMax ≠ v.range_.2)
  let v := if changedMax
    then { v with range_ := (v.range_.1, r.rangeMax), settingsUpdated_ := true } else v
  let v := if r.gain ≠ v.gain_ then { v with gain_ := r.gain, settingsUpdated_ := true } else v
  let updateProjection : Bool := changedMin || changedMax
  let v := if updateProjection
    then { v with projection_ := .frustum v.fls.viewFovCorr v.fls.fov_.2 (v.range_.1 / 2) v.range_.2
                  displayVBO_ := { fanDiv := v.fanDiv_, Rmin := v.range_.1 / v.range_.2 } }
    else v
  let count := if updateProjection then 1 else 0
  -- Inform sonar to run callback
  let delivered := if v.newData_
    then (if mapDisplay then [(v.displayPBO_, 0)] else [])
      ++ (if mapOutput then [(v.outputPBO_, 1)] else [])
    else []
  let v := if v.newData_ then { v with newData_ := false } else v
  (v, { projectionUpdates := count, fanUploads := count, delivered := delivered })

/-- The method `OpenGLFLS::ComputeOutput`, as far as the settings flag and the contents
of the output and display textures go: `output` and `display` are the images that the
postprocessing and the visualisation of this call write to `outputTex_[1]` and to
`displayTex_`. -/
def OpenGLFLSView.ComputeOutput {α : Type} (v : OpenGLFLSView α) (output display : α) :
    OpenGLFLSView α :=
  let v := if v.settingsUpdated_ then { v with settingsUpdated_ := false } else v
  { v with outputTex1 := some output, displayTex_ := some display }

/-- The method `OpenGLFLS::DrawLDR`, lines 480-508: with a sensor attached and `updated`
set, the contents of `outputTex_[1]` and of `displayTex_` are copied to the pixel pack
buffers and `newData_` is set. -/
def OpenGLFLSView.DrawLDR {α : Type} (v : OpenGLFLSView α) (updated : Bool) : OpenGLFLSView α :=
  if v.sonar_ && updated then
    { v with outputPBO_ := v.outputTex1, displayPBO_ := v.displayTex_, newData_ := true }
  else v

/-- One tick of the forward-looking view as the rendering pipeline runs it:
`UpdateTransform` with both buffer mappings succeeding, `ComputeOutput` and
`DrawLDR(updated = true)`; the result holds the `NewDataReady` calls of the commit. -/
def OpenGLFLSView.tick {α : Type} (v : OpenGLFLSView α) (r : SonarReadings) (output display : α) :
    OpenGLFLSView α × List (Option α × ℕ) :=
  let c := v.UpdateTransform r true true
  (((c.1.ComputeOutput output display).DrawLDR true), c.2.delivered)

/-- A run of ticks, one for each triple of sensor readings, output image and display
image; the result lists the `NewDataReady` calls of each tick. -/
def OpenGLFLSView.run {α : Type} :
    List (SonarReadings × α × α) → OpenGLFLSView α → List (List (Option α × ℕ))
  | [], _ => []
  | f :: fs, v =>
      let t := v.tick f.1 f.2.1 f.2.2
      t.2 :: OpenGLFLSView.run fs t.1

/-- A whole `OpenGLMSIS` object: the base part, the members `msis` of the scan logic,
and the members that take part in the commit. -/
structure OpenGLMSISView extends OpenGLSonar where
  msis : OpenGLMSIS
  newData_ : Bool
  outputFormat_ : SonarOutputFormat
  projection_ : Projection
  fanDiv_ : ℕ
  displayVBO_ : FanData
  deriving DecidableEq, Repr

/-- The constructor `OpenGLMSIS::OpenGLMSIS` on the whole object: base constructor, the
members of `OpenGLMSIS.ctor`, the call of `UpdateTransform` (no sensor yet), the
projection matrix (lines 81-83) and the display fan (lines 127-145). -/
def OpenGLMSISView.ctor (enabled : Bool) (eyePosition direction sonarUp : Vec3)
    (horizontalBeamWidthDeg verticalBeamWidthDeg : ℚ) (numOfSteps numOfBins : ℕ)
    (range : ℚ × ℚ) (outputFormat : SonarOutputFormat) : Option OpenGLMSISView := do
  let base := OpenGLSonar.ctor enabled eyePosition direction sonarUp
  let msis ← OpenGLMSIS.ctor horizontalBeamWidthDeg verticalBeamWidthDeg numOfSteps numOfBins range
  let base := base.UpdateTransform
  let fanDiv_ := min 360 msis.nSteps_
  pure { toOpenGLSonar := base
         msis := msis
         newData_ := false
         outputFormat_ := outputFormat
         projection_ := .perspective msis.fov_.1 msis.fov_.2 range.1 range.2
         fanDiv_ := fanDiv_
         displayVBO_ := { fanDiv := fanDiv_, Rmin := range.1 / range.2 } }

/-- The method `OpenGLMSIS::setSonar` on the whole object. -/
def OpenGLMSISView.setSonar (v : OpenGLMSISView) : OpenGLMSISView :=
  { v with msis := v.msis.setSonar }

/-- The method `OpenGLMSIS::UpdateTransform` on the whole object: the base commit
(line 212), the settings and the rotation step of `OpenGLMSIS.UpdateTransform` (lines
214-245 and 300-303), the projection matrix and the display fan when the range changed
(lines 246-276) and the callbacks (lines 278-298). A callback is recorded with the
buffer that was mapped. -/
def OpenGLMSISView.UpdateTransform (v : OpenGLMSISView) (r : MSISReadings)
    (mapDisplay mapOutput : Bool) : OpenGLMSISView × CommitEffects SSSBuffer :=
  let v := { v with toOpenGLSonar := v.toOpenGLSonar.UpdateTransform }
  if v.msis.sonar_ = false then (v, { projectionUpdates := 0, fanUploads := 0, delivered := [] }) else
  let updateProjection : Bool := decide (r.rangeMin ≠ v.msis.range_.1 ∨ r.rangeMax ≠ v.msis.range_.2)
  let v := { v with msis := v.msis.UpdateTransform r }
  let v := if updateProjection
    then { v with projection_ := .frustum v.msis.fov_.1 v.msis.fov_.2 (v.msis.range_.1 / 2) v.msis.range_.2
                  displayVBO_ := { fanDiv := v.fanDiv_, Rmin := v.msis.range_.1 / v.msis.range_.2 } }
    else v
  let count := if updateProjection then 1 else 0
  -- Inform sonar to run callback
  let delivered := if v.newData_
    then (if mapDisplay then [(SSSBuffer.displayPBO_, 0)] else [])
      ++ (if mapOutput then [(SSSBuffer.outputPBO_, 1)] else [])
    else []
  let v := if v.newData_ then { v with newData_ := false } else v
  (v, { projectionUpdates := count, fanUploads := count, delivered := delivered })

/-- The method `OpenGLMSIS::ComputeOutput` on the whole object. -/
def OpenGLMSISView.ComputeOutput (v : OpenGLMSISView) : OpenGLMSISView × MSISUpdate :=
  ({ v with msis := v.msis.ComputeOutput.1 }, v.msis.ComputeOutput.2)

/-- Whether the image `outputTex_[1]` of the given output format takes the pixel data of
`glTexSubImage2D(..., GL_RED, GL_UNSIGNED_BYTE, zeros)`: the images of `U8`, `U16` and
`F32` have the internal formats `GL_R8`, `GL_R16` and `GL_R32F` (lines 92-108) and take
it; the image of `U32` has the integer internal format `GL_R32UI`, for which the format
`GL_RED` is the error `GL_INVALID_OPERATION` and the image is left as it was. -/
def acceptsRedUpload : SonarOutputFormat → Bool
  | .U32 => false
  | _ => true

/-- Whether a call of `OpenGLMSIS::ComputeOutput` in the state `v` sets the accumulation
image to zero: the upload of line 394 is made and the image takes it. (The rows of `zeros`
are read with the unpack alignment of the context, which is not set in these files; all
of `zeros` is read, and nothing else, when `nSteps_` is a multiple of 8.) -/
def OpenGLMSISView.clearsImage (v : OpenGLMSISView) : Bool :=
  v.ComputeOutput.2.clearUpload && acceptsRedUpload v.outputFormat_

/-- The method `OpenGLMSIS::DrawLDR`, lines 467-495: with a sensor attached and `updated`
set, the copies into the pixel pack buffers are requested and `newData_` is set. -/
def OpenGLMSISView.DrawLDR (v : OpenGLMSISView) (updated : Bool) : OpenGLMSISView :=
  if v.msis.sonar_ && updated then { v with newData_ := true } else v

/-- The method `OpenGLSSS::UpdateTransform` on the members of `OpenGLSSS` (lines 246-268
and 279-299): range and gain are compared with the sensor readings, and the pending
buffers are handed to the sensor. A changed gain is stored without setting
`settingsUpdated_` (line 267 is commented out). The result tells whether the range
changed, and lists the callbacks with the buffer that was mapped. -/
def OpenGLSSS.UpdateTransform (s : OpenGLSSS) (r : SonarReadings) (mapDisplay mapOutput : Bool) :
    OpenGLSSS × Bool × List (SSSBuffer × ℕ) :=
  if s.sonar_ = false then (s, false, []) else
  let changedMin : Bool := decide (r.rangeMin ≠ s.range_.1)
  let s := if changedMin
    then { s with range_ := (r.rangeMin, s.range_.2), settingsUpdated_ := true } else s
  let changedMax : Bool := decide (r.rangeMax ≠ s.range_.2)
  let s := if changedMax
    then { s with range_ := (s.range_.1, r.rangeMax), settingsUpdated_ := true } else s
  let s := if r.gain ≠ s.gain_ then { s with gain_ := r.gain } else s
  let updateProjection : Bool := changedMin || changedMax
  -- Inform sonar to run callback
  let delivered := if s.newData_
    then (if mapDisplay then [(SSSBuffer.displayPBO_, 0)] else [])
      ++ (if mapOutput then [(SSSBuffer.outputPBO_, 1)] else [])
    else []
  let s := if s.newData_ then { s with newData_ := false } else s
  (s, updateProjection, delivered)

/-- A whole `OpenGLSSS` object: the base part, the members `sss` of the waterfall logic
and the projection matrix. -/
structure OpenGLSSSView extends OpenGLSonar where
  sss : OpenGLSSS
  projection_ : Projection
  deriving DecidableEq, Repr

/-- The constructor `OpenGLSSS::OpenGLSSS` on the whole object: base constructor, the
members of `OpenGLSSS.ctor`, the call of `UpdateTransform` (no sensor yet) and the
projection matrix (lines 61-63). -/
def OpenGLSSSView.ctor (enabled : Bool) (centerPosition direction forward : Vec3)
    (verticalBeamWidthDeg horizontalBeamWidthDeg : ℚ) (numOfBins : ℕ) (verticalTiltDeg : ℚ)
    (range : ℚ × ℚ) (outputFormat : SonarOutputFormat) : Option OpenGLSSSView := do
  let base := OpenGLSonar.ctor enabled centerPosition direction forward
  let sss ← OpenGLSSS.ctor verticalBeamWidthDeg horizontalBeamWidthDeg numOfBins verticalTiltDeg
    range outputFormat
  let base := base.UpdateTransform
  pure { toOpenGLSonar := base
         sss := sss
         projection_ := .perspective sss.fov_.1 sss.fov_.2 range.1 range.2 }

/-- The method `OpenGLSSS::setSonar` on the whole object. -/
def OpenGLSSSView.setSonar (v : OpenGLSSSView) : OpenGLSSSView :=
  { v with sss := v.sss.setSonar }

/-- The method `OpenGLSSS::UpdateTransform` on the whole object: the base commit
(line 244), the settings and callbacks of `OpenGLSSS.UpdateTransform` and the projection
matrix when the range changed (lines 269-277). -/
def OpenGLSSSView.UpdateTransform (v : OpenGLSSSView) (r : SonarReadings)
    (mapDisplay mapOutput : Bool) : OpenGLSSSView × CommitEffects SSSBuffer :=
  let v := { v with toOpenGLSonar := v.toOpenGLSonar.UpdateTransform }
  let u := v.sss.UpdateTransform r mapDisplay mapOutput
  let v := { v with sss := u.1 }
  let v := if u.2.1
    then { v with projection_ := .frustum v.sss.fov_.1 v.sss.fov_.2 (v.sss.range_.1 / 2) v.sss.range_.2 }
    else v
  (v, { projectionUpdates := if u.2.1 then 1 else 0, fanUploads := 0, delivered := u.2.2 })

/-- The method `OpenGLSSS::ComputeOutput` on the whole object. -/
def OpenGLSSSView.ComputeOutput (v : OpenGLSSSView) : OpenGLSSSView × List SSSPass :=
  ({ v with sss := v.sss.ComputeOutput.1 }, v.sss.ComputeOutput.2)

/-! ## Viewport, colour map and pixel pack buffers of the sonar views -/

/-- The cast `(GLint)x` of a float: defined when the truncated value fits. -/
def castGLint (x : ℚ) : Option ℤ :=
  if -2147483648 ≤ truncf x ∧ truncf x < 2147483648 then some (truncf x) else none

/-- Signed 32-bit multiplication `a * b`; an overflow has no defined result. -/
def mulGLint (a b : ℤ) : Option ℤ :=
  if -2147483648 ≤ a * b ∧ a * b < 2147483648 then some (a * b) else none

/-- The members `viewportWidth` and `viewportHeight` of the base class `OpenGLView`, of
type `GLint`. -/
structure OpenGLView where
  viewportWidth : ℤ
  viewportHeight : ℤ
  deriving DecidableEq, Repr

/-- Modelled from the spec: the constructor `OpenGLView::OpenGLView(x, y, width, height)`,
whose source file is not among the sources. The display image is "sized to the on-screen
viewport": the constructor is taken to store `width` and `height` as the size of the
viewport. -/
def OpenGLView.ctor (_x _y width height : ℤ) : OpenGLView :=
  { viewportWidth := width, viewportHeight := height }

/-- The value `sizeof(GLubyte)`. -/
def sizeofGLubyte : ℕ := 1

/-- The value `sizeof(GLushort)`. -/
def sizeofGLushort : ℕ := 2

/-- The value `sizeof(GLuint)`. -/
def sizeofGLuint : ℕ := 4

/-- The value `sizeof(GLfloat)`. -/
def sizeofGLfloat : ℕ := 4

/-- The output format table of the specification: bytes per texel of each format. -/
def formatWidth : SonarOutputFormat → ℕ
  | .U8 => 1
  | .U16 => 2
  | .U32 => 4
  | .F32 => 4

/-- The part of the OpenGL state that `setSonar` changes: the buffer bound to the target
`GL_PIXEL_PACK_BUFFER` (`none` for the name 0), the size in bytes of the data store of
each of the two pixel pack buffers (`none` for a buffer without data store) and the number
of errors raised. A size is a `GLsizeiptr`, 64 bits wide as `size_t` is. -/
structure PixelPackState where
  bound : Option SSSBuffer
  outputPBO_ : Option ℤ
  displayPBO_ : Option ℤ
  errors : ℕ
  deriving DecidableEq, Repr

/-- The call `glGenBuffers(1, &b)`: a fresh buffer name, without data store. -/
def PixelPackState.glGenBuffers (g : PixelPackState) : SSSBuffer → PixelPackState
  | .outputPBO_ => { g with outputPBO_ := none }
  | .displayPBO_ => { g with displayPBO_ := none }

/-- The call `glBindBuffer(GL_PIXEL_PACK_BUFFER, b)`. -/
def PixelPackState.glBindBuffer (g : PixelPackState) (b : Option SSSBuffer) : PixelPackState :=
  { g with bound := b }

/-- The call `glBufferData(GL_PIXEL_PACK_BUFFER, size, 0, GL_STREAM_READ)`: the bound buffer
gets a new data store of `size` bytes. With a negative size (`GL_INVALID_VALUE`) or with
the name 0 bound (`GL_INVALID_OPERATION`) the call raises an error and has no other
effect. -/
def PixelPackState.glBufferData (g : PixelPackState) (size : ℤ) : PixelPackState :=
  if size < 0 then { g with errors := g.errors + 1 } else
  match g.bound with
  | none => { g with errors := g.errors + 1 }
  | some .outputPBO_ => { g with outputPBO_ := some size }
  | some .displayPBO_ => { g with displayPBO_ := some size }

/-- A call `SetUniform(name, value)` of `ComputeOutput` that passes a setting to a shader:
`noiseStddev`, `gain`, `rotationStep` and `colorMap`. The uniform `range`, the texture
units, the random `noiseSeed` and the uniforms set for each drawn object are left out.
`γ` is the enumeration `ColorMap`, whose declaration is not among the sources. -/
inductive SonarUniform (γ : Type) where
  | noiseStddev (v : ℚ × ℚ)
  | gain (v : ℚ)
  | rotationStep (v : ℕ)
  | colorMap (v : γ)
  deriving DecidableEq, Repr

/-- An `OpenGLFLS` object with the members of its base classes that `OpenGLFLSView`
leaves out: the size of the viewport, the colour map and the pixel pack buffers. -/
structure OpenGLFLSObject (α γ : Type) extends OpenGLFLSView α, OpenGLView where
  cMap_ : γ
  gl : PixelPackState
  deriving DecidableEq, Repr

/-- The constructor `OpenGLFLS::OpenGLFLS` with the base constructors
`OpenGLSonar::OpenGLSonar` (`cMap_`, `outputPBO_ = 0`, `displayPBO_ = 0`) and
`OpenGLView::OpenGLView(0, 0, 2*numOfBins, numOfBins)`, and the viewport width of lines
57-58. `GREEN_BLUE` is the enumerator `ColorMap::GREEN_BLUE` and `sinf` the C library
function. -/
def OpenGLFLSObject.ctor {α γ : Type} (GREEN_BLUE : γ) (sinf : ℚ → ℚ) (enabled : Bool)
    (eyePosition direction sonarUp : Vec3) (horizontalFOVDeg verticalFOVDeg : ℚ)
    (numOfBeams numOfBins : ℕ) (range : ℚ × ℚ) (outputFormat : SonarOutputFormat) :
    Option (OpenGLFLSObject α γ) := do
  let view := OpenGLView.ctor 0 0 (toGLint (mulGLuint 2 numOfBins)) (toGLint numOfBins)
  let hFactor := sinf (radians horizontalFOVDeg / 2)
  let viewportWidth ← castGLint (ceilf (2 * hFactor * (numOfBins : ℚ)))
  let v ← OpenGLFLSView.ctor enabled eyePosition direction sonarUp horizontalFOVDeg verticalFOVDeg
    numOfBeams numOfBins range outputFormat
  pure { toOpenGLFLSView := v
         viewportWidth := viewportWidth
         viewportHeight := view.viewportHeight
         cMap_ := GREEN_BLUE
         gl := { bound := none, outputPBO_ := none, displayPBO_ := none, errors := 0 } }

/-- The method `OpenGLFLS::setSonar`, lines 325-355. The product `nBeams_ * nBins_` is an
unsigned 32-bit product, then multiplied by a `size_t`; the product
`viewportWidth * viewportHeight * 3` is a signed 32-bit product, without defined result
when it overflows. -/
def OpenGLFLSObject.setSonar {α γ : Type} (o : OpenGLFLSObject α γ) :
    Option (OpenGLFLSObject α γ) := do
  let g := o.gl.glGenBuffers .outputPBO_
  let g := g.glBindBuffer (some .outputPBO_)
  let g := match o.outputFormat_ with
    | .U8 => g.glBufferData ((mulGLuint o.fls.nBeams_ o.fls.nBins_ * sizeofGLubyte : ℕ) : ℤ)
    | .U16 => g.glBufferData ((mulGLuint o.fls.nBeams_ o.fls.nBins_ * sizeofGLushort : ℕ) : ℤ)
    | .U32 => g.glBufferData ((mulGLuint o.fls.nBeams_ o.fls.nBins_ * sizeofGLuint : ℕ) : ℤ)
    | .F32 => g.glBufferData ((mulGLuint o.fls.nBeams_ o.fls.nBins_ * sizeofGLfloat : ℕ) : ℤ)
  let g := g.glBindBuffer none
  -- line 348, with no buffer bound
  let g := g.glBufferData ((mulGLuint o.fls.nBeams_ o.fls.nBins_ : ℕ) : ℤ)
  let g := g.glBindBuffer none
  let g := g.glGenBuffers .displayPBO_
  let g := g.glBindBuffer (some .displayPBO_)
  let size ← (mulGLint o.viewportWidth o.viewportHeight).bind (fun p => mulGLint p 3)
  let g := g.glBufferData size
  let g := g.glBindBuffer none
  pure { o with toOpenGLFLSView := o.toOpenGLFLSView.setSonar, gl := g }

/-- The method `OpenGLFLS::setNoise`. -/
def OpenGLFLSObject.setNoise {α γ : Type} (o : OpenGLFLSObject α γ) (signalStdDev : ℚ × ℚ) :
    OpenGLFLSObject α γ :=
  { o with noise_ := signalStdDev }

/-- The method `OpenGLSonar::setColorMap`, on a forward-looking view. -/
def OpenGLFLSObject.setColorMap {α γ : Type} (o : OpenGLFLSObject α γ) (cm : γ) :
    OpenGLFLSObject α γ :=
  { o with cMap_ := cm }

/-- The method `OpenGLFLS::UpdateTransform` on the whole object: it reads and writes only
members of `OpenGLFLSView`. -/
def OpenGLFLSObject.UpdateTransform {α γ : Type} (o : OpenGLFLSObject α γ) (r : SonarReadings)
    (mapDisplay mapOutput : Bool) : OpenGLFLSObject α γ × CommitEffects (Option α) :=
  ({ o with toOpenGLFLSView := (o.toOpenGLFLSView.UpdateTransform r mapDisplay mapOutput).1 },
    (o.toOpenGLFLSView.UpdateTransform r mapDisplay mapOutput).2)

/-- The method `OpenGLFLS::ComputeOutput` on the whole object, with the settings it passes
to the shaders: `noiseStddev` (line 408), `gain` when `settingsUpdated_` is set (line 412)
and `colorMap` (line 446). -/
def OpenGLFLSObject.ComputeOutput {α γ : Type} (o : OpenGLFLSObject α γ) (output display : α) :
    OpenGLFLSObject α γ × List (SonarUniform γ) :=
  ({ o with toOpenGLFLSView := o.toOpenGLFLSView.ComputeOutput output display },
    [.noiseStddev o.noise_] ++ (if o.settingsUpdated_ then [.gain o.gain_] else [])
      ++ [.colorMap o.cMap_])

/-- The method `OpenGLMSIS::setNoise`. -/
def OpenGLMSIS.setNoise (s : OpenGLMSIS) (signalStdDev : ℚ × ℚ) : OpenGLMSIS :=
  { s with noise_ := signalStdDev }

/-- An `OpenGLMSIS` object with the members of its base classes that `OpenGLMSISView`
leaves out: the size of the viewport, the colour map and the pixel pack buffers. -/
structure OpenGLMSISObject (γ : Type) extends OpenGLMSISView, OpenGLView where
  cMap_ : γ
  gl : PixelPackState
  deriving DecidableEq, Repr

/-- The constructor `OpenGLMSIS::OpenGLMSIS` with the base constructors
`OpenGLSonar::OpenGLSonar` and `OpenGLView::OpenGLView(0, 0, numOfBins, numOfBins)`. -/
def OpenGLMSISObject.ctor {γ : Type} (GREEN_BLUE : γ) (enabled : Bool)
    (eyePosition direction sonarUp : Vec3) (horizontalBeamWidthDeg verticalBeamWidthDeg : ℚ)
    (numOfSteps numOfBins : ℕ) (range : ℚ × ℚ) (outputFormat : SonarOutputFormat) :
    Option (OpenGLMSISObject γ) := do
  let view := OpenGLView.ctor 0 0 (toGLint numOfBins) (toGLint numOfBins)
  let v ← OpenGLMSISView.ctor enabled eyePosition direction sonarUp horizontalBeamWidthDeg
    verticalBeamWidthDeg numOfSteps numOfBins range outputFormat
  pure { toOpenGLMSISView := v
         toOpenGLView := view
         cMap_ := GREEN_BLUE
         gl := { bound := none, outputPBO_ := none, displayPBO_ := none, errors := 0 } }

/-- The method `OpenGLMSIS::setSonar`, lines 311-338. -/
def OpenGLMSISObject.setSonar {γ : Type} (o : OpenGLMSISObject γ) :
    Option (OpenGLMSISObject γ) := do
  let g := o.gl.glGenBuffers .outputPBO_
  let g := g.glBindBuffer (some .outputPBO_)
  let g := match o.outputFormat_ with
    | .U8 => g.glBufferData ((mulGLuint o.msis.nSteps_ o.msis.nBins_ * sizeofGLubyte : ℕ) : ℤ)
    | .U16 => g.glBufferData ((mulGLuint o.msis.nSteps_ o.msis.nBins_ * sizeofGLushort : ℕ) : ℤ)
    | .U32 => g.glBufferData ((mulGLuint o.msis.nSteps_ o.msis.nBins_ * sizeofGLuint : ℕ) : ℤ)
    | .F32 => g.glBufferData ((mulGLuint o.msis.nSteps_ o.msis.nBins_ * sizeofGLfloat : ℕ) : ℤ)
  let g := g.glBindBuffer none
  let g := g.glGenBuffers .displayPBO_
  let g := g.glBindBuffer (some .displayPBO_)
  let size ← (mulGLint o.viewportWidth o.viewportHeight).bind (fun p => mulGLint p 3)
  let g := g.glBufferData size
  let g := g.glBindBuffer none
  pure { o with toOpenGLMSISView := o.toOpenGLMSISView.setSonar, gl := g }

/-- The method `OpenGLMSIS::setNoise` on the whole object. -/
def OpenGLMSISObject.setNoise {γ : Type} (o : OpenGLMSISObject γ) (signalStdDev : ℚ × ℚ) :
    OpenGLMSISObject γ :=
  { o with msis := o.msis.setNoise signalStdDev }

/-- The method `OpenGLSonar::setColorMap`, on a mechanical view. -/
def OpenGLMSISObject.setColorMap {γ : Type} (o : OpenGLMSISObject γ) (cm : γ) :
    OpenGLMSISObject γ :=
  { o with cMap_ := cm }

/-- The method `OpenGLMSIS::UpdateTransform` on the whole object: it reads and writes only
members of `OpenGLMSISView`. -/
def OpenGLMSISObject.UpdateTransform {γ : Type} (o : OpenGLMSISObject γ) (r : MSISReadings)
    (mapDisplay mapOutput : Bool) : OpenGLMSISObject γ × CommitEffects SSSBuffer :=
  ({ o with toOpenGLMSISView := (o.toOpenGLMSISView.UpdateTransform r mapDisplay mapOutput).1 },
    (o.toOpenGLMSISView.UpdateTransform r mapDisplay mapOutput).2)

/-- The method `OpenGLMSIS::ComputeOutput` on the whole object, with the settings it
passes to the shaders: `rotationStep`, `gain`, `noiseStddev` (lines 418-422) and
`colorMap` (line 433). -/
def OpenGLMSISObject.ComputeOutput {γ : Type} (o : OpenGLMSISObject γ) :
    OpenGLMSISObject γ × List (SonarUniform γ) :=
  let u := o.msis.ComputeOutput.2
  ({ o with toOpenGLMSISView := o.toOpenGLMSISView.ComputeOutput.1 },
    [.rotationStep u.rotationStep, .gain u.gain, .noiseStddev u.noiseStddev, .colorMap o.cMap_])

/-- The method `OpenGLSSS::setNoise`. -/
def OpenGLSSS.setNoise (s : OpenGLSSS) (signalStdDev : ℚ × ℚ) : OpenGLSSS :=
  { s with noise_ := signalStdDev }

/-- An `OpenGLSSS` object with the members of its base classes that `OpenGLSSSView` leaves
out: the size of the viewport, the colour map and the pixel pack buffers. -/
structure OpenGLSSSObject (γ : Type) extends OpenGLSSSView, OpenGLView where
  cMap_ : γ
  gl : PixelPackState
  deriving DecidableEq, Repr

/-- The constructor `OpenGLSSS::OpenGLSSS` with the base constructors
`OpenGLSonar::OpenGLSonar` and `OpenGLView::OpenGLView(0, 0, numOfBins, numOfLines)`. -/
def OpenGLSSSObject.ctor {γ : Type} (GREEN_BLUE : γ) (enabled : Bool)
    (centerPosition direction forward : Vec3) (verticalBeamWidthDeg horizontalBeamWidthDeg : ℚ)
    (numOfBins numOfLines : ℕ) (verticalTiltDeg : ℚ) (range : ℚ × ℚ)
    (outputFormat : SonarOutputFormat) : Option (OpenGLSSSObject γ) := do
  let view := OpenGLView.ctor 0 0 (toGLint numOfBins) (toGLint numOfLines)
  let v ← OpenGLSSSView.ctor enabled centerPosition direction forward verticalBeamWidthDeg
    horizontalBeamWidthDeg numOfBins verticalTiltDeg range outputFormat
  pure { toOpenGLSSSView := v
         toOpenGLView := view
         cMap_ := GREEN_BLUE
         gl := { bound := none, outputPBO_ := none, displayPBO_ := none, errors := 0 } }

/-- The method `OpenGLSSS::setSonar`, lines 307-334. The product
`viewportWidth * viewportHeight` is a signed 32-bit product, then converted to `size_t`
and multiplied by the size of an element; as a `GLsizeiptr` the result is the integer
product. -/
def OpenGLSSSObject.setSonar {γ : Type} (o : OpenGLSSSObject γ) :
    Option (OpenGLSSSObject γ) := do
  let g := o.gl.glGenBuffers .outputPBO_
  let g := g.glBindBuffer (some .outputPBO_)
  let texels ← mulGLint o.viewportWidth o.viewportHeight
  let g := match o.sss.outputFormat_ with
    | .U8 => g.glBufferData (texels * (sizeofGLubyte : ℤ))
    | .U16 => g.glBufferData (texels * (sizeofGLushort : ℤ))
    | .U32 => g.glBufferData (texels * (sizeofGLuint : ℤ))
    | .F32 => g.glBufferData (texels * (sizeofGLfloat : ℤ))
  let g := g.glBindBuffer none
  let g := g.glGenBuffers .displayPBO_
  let g := g.glBindBuffer (some .displayPBO_)
  let size ← (mulGLint o.viewportWidth o.viewportHeight).bind (fun p => mulGLint p 3)
  let g := g.glBufferData size
  let g := g.glBindBuffer none
  pure { o with toOpenGLSSSView := o.toOpenGLSSSView.setSonar, gl := g }

/-- The method `OpenGLSSS::setNoise` on the whole object. -/
def OpenGLSSSObject.setNoise {γ : Type} (o : OpenGLSSSObject γ) (signalStdDev : ℚ × ℚ) :
    OpenGLSSSObject γ :=
  { o with sss := o.sss.setNoise signalStdDev }

/-- The method `OpenGLSonar::setColorMap`, on a side-scan view. -/
def OpenGLSSSObject.setColorMap {γ : Type} (o : OpenGLSSSObject γ) (cm : γ) :
    OpenGLSSSObject γ :=
  { o with cMap_ := cm }

/-- The method `OpenGLSSS::UpdateTransform` on the whole object: it reads and writes only
members of `OpenGLSSSView`. -/
def OpenGLSSSObject.UpdateTransform {γ : Type} (o : OpenGLSSSObject γ) (r : SonarReadings)
    (mapDisplay mapOutput : Bool) : OpenGLSSSObject γ × CommitEffects SSSBuffer :=
  ({ o with toOpenGLSSSView := (o.toOpenGLSSSView.UpdateTransform r mapDisplay mapOutput).1 },
    (o.toOpenGLSSSView.UpdateTransform r mapDisplay mapOutput).2)

/-- The method `OpenGLSSS::ComputeOutput` on the whole object, with the settings it passes
to the shaders: `noiseStddev`, `gain` (lines 420-421) and `colorMap` (line 431). -/
def OpenGLSSSObject.ComputeOutput {γ : Type} (o : OpenGLSSSObject γ) :
    OpenGLSSSObject γ × List (SonarUniform γ) :=
  ({ o with toOpenGLSSSView := o.toOpenGLSSSView.ComputeOutput.1 },
    [.noiseStddev o.sss.noise_, .gain o.sss.gain_, .colorMap o.cMap_])

/-! ## Clip planes and runs of commits -/

/-- The method `OpenGLSonar::GetNearClip`, on a forward-looking view. -/
def OpenGLFLSView.GetNearClip {α : Type} (v : OpenGLFLSView α) : ℚ := v.range_.1

/-- The method `OpenGLSonar::GetFarClip`, on a forward-looking view. -/
def OpenGLFLSView.GetFarClip {α : Type} (v : OpenGLFLSView α) : ℚ := v.range_.2

/-- The method `OpenGLSonar::GetNearClip`, on a mechanical view. -/
def OpenGLMSISView.GetNearClip (v : OpenGLMSISView) : ℚ := v.msis.range_.1

/-- The method `OpenGLSonar::GetFarClip`, on a mechanical view. -/
def OpenGLMSISView.GetFarClip (v : OpenGLMSISView) : ℚ := v.msis.range_.2

/-- The method `OpenGLSonar::GetNearClip`, on a side-scan view. -/
def OpenGLSSSView.GetNearClip (v : OpenGLSSSView) : ℚ := v.sss.range_.1

/-- The method `OpenGLSonar::GetFarClip`, on a side-scan view. -/
def OpenGLSSSView.GetFarClip (v : OpenGLSSSView) : ℚ := v.sss.range_.2

/-- A run of `UpdateTransform` calls of a forward-looking view, one for each element of
the list: the sensor readings of the call and the results of the two buffer mappings. -/
def OpenGLFLSView.commits {α : Type} :
    List (SonarReadings × Bool × Bool) → OpenGLFLSView α → OpenGLFLSView α
  | [], v => v
  | c :: cs, v => OpenGLFLSView.commits cs (v.UpdateTransform c.1 c.2.1 c.2.2).1

/-- A run of `UpdateTransform` calls of a mechanical view. -/
def OpenGLMSISView.commits :
    List (MSISReadings × Bool × Bool) → OpenGLMSISView → OpenGLMSISView
  | [], v => v
  | c :: cs, v => OpenGLMSISView.commits cs (v.UpdateTransform c.1 c.2.1 c.2.2).1

/-- A run of `UpdateTransform` calls of a side-scan view. -/
def OpenGLSSSView.commits :
    List (SonarReadings × Bool × Bool) → OpenGLSSSView → OpenGLSSSView
  | [], v => v
  | c :: cs, v => OpenGLSSSView.commits cs (v.UpdateTransform c.1 c.2.1 c.2.2).1

/-! ## Fisheye camera: view and sensor (`OpenGLFisheyeCamera.cpp`, `FisheyeCamera.cpp`) -/

/-- The macro `M_PI` of the C library, the `double` literal `3.14159265358979323846`; its
value is `884279719003555 / 2 ^ 48`. -/
def M_PI : ℚ := 884279719003555 / 281474976710656

/-- The function `glm::clamp(x, minVal, maxVal)`, which is `min(max(x, minVal), maxVal)`. -/
def glm_clamp (x minVal maxVal : ℚ) : ℚ := min (max x minVal) maxVal

/-- An `OpenGLFisheyeCamera` object with the members that the constructor computes from its
arguments besides the update flag: the clip planes, the field of view and the normalised
focal length. -/
structure OpenGLFisheyeCameraLens extends OpenGLFisheyeCamera where
  newData : Bool
  continuous : Bool
  near : ℚ
  far : ℚ
  fov : ℚ
  focal : ℚ
  deriving DecidableEq, Repr

/-- The constructor `OpenGLFisheyeCamera::OpenGLFisheyeCamera`, lines 50-69, in binary32;
`enabled` is the value set by the constructor of `OpenGLView`. Line 65 is
`fov = glm::clamp(horizontalFovDeg/180.f * (GLfloat)M_PI, 0.1f, (GLfloat)M_PI)` and line 66
is `focal = 1.0f / (0.5f * fov)`: the cast of `M_PI`, the literal `0.1f`, the quotient and
the products are rounded to binary32. The camera vectors, the matrices and the GPU
resources are left out. -/
def OpenGLFisheyeCameraLens.ctor (enabled : Bool) (horizontalFovDeg : ℚ)
    (continuousUpdate : Bool) : Option OpenGLFisheyeCameraLens := do
  let near : ℚ := nearestGLfloat (5 / 100)
  let far : ℚ := 200
  let q ← divGLfloat horizontalFovDeg 180
  let x ← mulGLfloat q (nearestGLfloat M_PI)
  let fov := glm_clamp x (nearestGLfloat (1 / 10)) (nearestGLfloat M_PI)
  let half ← mulGLfloat (1 / 2) fov
  let focal ← divGLfloat 1 half
  pure { enabled := enabled
         _needsUpdate := false
         newData := false
         continuous := continuousUpdate
         near := near
         far := far
         fov := fov
         focal := focal }

/-- The members of `FisheyeCamera` that a new-data handler can read through the pointer it
is given: `imageData` (`none` for `nullptr`) and `exposure`. `δ` is the type of non-null
data pointers. -/
structure FisheyeCameraData (δ : Type) where
  imageData : Option δ
  exposure : ℚ
  deriving DecidableEq, Repr

/-- The members of `FisheyeCamera` used by the delivery of new data. A handler is a function
of what it reads from the camera and of the state `σ` of the program that installed it
(a handler that calls methods changing the camera is outside this embedding);
`newDataCallback` is `none` for `nullptr`. -/
structure FisheyeCamera (δ σ : Type) extends FisheyeCameraData δ where
  newDataCallback : Option (FisheyeCameraData δ → σ → σ)

/-- The constructor `FisheyeCamera::FisheyeCamera`, lines 35-42. -/
def FisheyeCamera.ctor {δ σ : Type} : FisheyeCamera δ σ :=
  { imageData := none
    newDataCallback := none
    exposure := 15 / 100000 }

/-- The method `FisheyeCamera::InstallNewDataHandler`. -/
def FisheyeCamera.InstallNewDataHandler {δ σ : Type} (c : FisheyeCamera δ σ)
    (callback : Option (FisheyeCameraData δ → σ → σ)) : FisheyeCamera δ σ :=
  { c with newDataCallback := callback }

/-- The method `FisheyeCamera::getImageDataPointer`, on what a handler reads. -/
def FisheyeCameraData.getImageDataPointer {δ : Type} (c : FisheyeCameraData δ) (_index : ℕ) :
    Option δ :=
  c.imageData

/-- The method `FisheyeCamera::getImageDataPointer`. -/
def FisheyeCamera.getImageDataPointer {δ σ : Type} (c : FisheyeCamera δ σ) (index : ℕ) :
    Option δ :=
  c.toFisheyeCameraData.getImageDataPointer index

/-- The method `FisheyeCamera::NewDataReady`, lines 66-79, run in the program state `w`: the
camera and the program state after the call, and the calls of the handler the method
made, each with the members of the camera at the time of the call. -/
def FisheyeCamera.NewDataReady {δ σ : Type} (c : FisheyeCamera δ σ) (data : Option δ)
    (_index : ℕ) (w : σ) : FisheyeCamera δ σ × σ × List (FisheyeCameraData δ) :=
  match c.newDataCallback with
  | some callback =>
      let c := { c with imageData := data }
      let w := callback c.toFisheyeCameraData w
      let calls := [c.toFisheyeCameraData]
      let c := { c with imageData := none }
      (c, w, calls)
  | none => (c, w, [])

/-! ## Entries of the projection matrices -/

/-- A `glm::vec4`. -/
structure Vec4 (K : Type) where
  x : K
  y : K
  z : K
  w : K
  deriving DecidableEq, Repr

/-- A `glm::mat4` by columns: `c0` is the column `m[0]`. -/
structure Mat4 (K : Type) where
  c0 : Vec4 K
  c1 : Vec4 K
  c2 : Vec4 K
  c3 : Vec4 K
  deriving DecidableEq, Repr

/-- The library function `glm::perspective(fovy, aspect, zNear, zFar)` in the default
configuration of GLM (right-handed, depth from -1 to 1); `tanHalfFovy` is the value
of `tan(fovy / 2)`. -/
def glm_perspective {K : Type} [Field K] (tanHalfFovy aspect zNear zFar : K) : Mat4 K :=
  { c0 := ⟨1 / (aspect * tanHalfFovy), 0, 0, 0⟩
    c1 := ⟨0, 1 / tanHalfFovy, 0, 0⟩
    c2 := ⟨0, 0, -(zFar + zNear) / (zFar - zNear), -1⟩
    c3 := ⟨0, 0, -(2 * zFar * zNear) / (zFar - zNear), 0⟩ }

/-- The entries of a projection matrix. The values of the C library functions lie in a field
`K`: `cosf x` and `tanf x` are the values of `glm::cos` and of `tanf` at the rational `x`.
For `perspective` these are lines 96-99 of `OpenGLFLS.cpp` (81-83 of `OpenGLMSIS.cpp`, 61-63
of `OpenGLSSS.cpp`), for `frustum` lines 265-271 (248-253, 271-276). -/
def Projection.toMat4 {K : Type} [Field K] (cosf tanf : ℚ → K) : Projection → Mat4 K
  | .perspective fovx fovy rangeMin far =>
      let near : K := (rangeMin : K) * cosf (max (fovx / 2) (fovy / 2))
      glm_perspective (tanf (fovy / 2)) (tanf (fovx / 2) / tanf (fovy / 2)) near (far : K)
  | .frustum fovx fovy near far =>
      { c0 := ⟨(near : K) / ((near : K) * tanf (fovx / 2)), 0, 0, 0⟩
        c1 := ⟨0, (near : K) / ((near : K) * tanf (fovy / 2)), 0, 0⟩
        c2 := ⟨0, 0, -((far : K) + (near : K)) / ((far : K) - (near : K)), -1⟩
        c3 := ⟨0, 0, -2 * (far : K) * (near : K) / ((far : K) - (near : K)), 0⟩ }

/-! ## Lemmas on the casts -/

theorem truncf_intCast (z : ℤ) : truncf (z : ℚ) = z := by
  unfold truncf
  split <;> simp

theorem castGLuint_intCast (z : ℤ) :
    castGLuint (z : ℚ) = if 0 ≤ z ∧ z < (GLuintSize : ℤ) then some z.toNat else none := by
  unfold castGLuint
  rw [truncf_intCast]

theorem castGLuint_ceilf_eq_some (x : ℚ) (k : ℕ) :
    castGLuint (ceilf x) = some k ↔ (0 ≤ ⌈x⌉ ∧ ⌈x⌉ < (GLuintSize : ℤ)) ∧ ⌈x⌉.toNat = k := by
  unfold ceilf
  rw [castGLuint_intCast]
  split_ifs with h <;> simp [h]

theorem castGLuint_lt (x : ℚ) (k : ℕ) (h : castGLuint x = some k) : k < GLuintSize := by
  unfold castGLuint at h
  split_ifs at h with hx
  simp only [Option.some.injEq] at h
  omega

theorem fls_ctor_eq_some (h v : ℚ) (n b : ℕ) (s : OpenGLFLS) :
    OpenGLFLS.ctor h v n b = some s ↔
      ∃ samples nViews beams1,
        castGLuint (ceilf (v * (b : ℚ) * FLS_VRES_FACTOR)) = some samples ∧
        castGLuint (ceilf (h / FLS_MAX_SINGLE_FOV)) = some nViews ∧
        nViews ≠ 0 ∧ n ≠ 0 ∧
        castGLuint (roundf ((n : ℚ) / (nViews : ℚ))) = some beams1 ∧
        s = { nBeams_ := n
              nBins_ := b
              nBeamSamples_ := min samples 2048
              fov_ := (radians h, radians v)
              nViewBeams_ := max beams1 (subGLuint n (mulGLuint beams1 (subGLuint nViews 1)))
              views_ := setupViews n (radians h)
                (viewFovCorrOf (max beams1 (subGLuint n (mulGLuint beams1 (subGLuint nViews 1))))
                  n (radians h)) 0
                (pushViews nViews beams1 (subGLuint n (mulGLuint beams1 (subGLuint nViews 1)))) } := by
  unfold OpenGLFLS.ctor
  cases h1 : castGLuint (ceilf (v * (b : ℚ) * FLS_VRES_FACTOR)) with
  | none => simp
  | some samples =>
    cases h2 : castGLuint (ceilf (h / FLS_MAX_SINGLE_FOV)) with
    | none => simp
    | some nViews =>
      by_cases hz : nViews = 0 ∨ n = 0
      · simp only [Option.map_some', Option.bind_eq_bind, Option.some_bind, if_pos hz]
        constructor
        · intro hc; cases hc
        · rintro ⟨_, _, _, h3, h4, h5, h6, _⟩
          cases h4
          tauto
      · simp only [Option.map_some', Option.bind_eq_bind, Option.some_bind, if_neg hz]
        push_neg at hz
        cases h3 : castGLuint (roundf ((n : ℚ) / (nViews : ℚ))) with
        | none =>
          simp only [Option.none_bind]
          constructor
          · intro hc
            cases hc
          · rintro ⟨_, _, _, _, h4, _, _, h7, _⟩
            cases h4
            rw [h3] at h7
            cases h7
        | some beams1 =>
          simp only [Option.some_bind, Option.pure_def, Option.some.injEq]
          constructor
          · rintro rfl
            exact ⟨samples, nViews, beams1, rfl, rfl, hz.1, hz.2, h3, rfl⟩
          · rintro ⟨_, _, _, h4, h5, _, _, h7, rfl⟩
            cases h4
            cases h5
            rw [h3] at h7
            cases h7
            rfl

/-! ## Lemmas on the beam split -/

theorem subGLuint_one (k : ℕ) (h0 : k ≠ 0) (hk : k < GLuintSize) : subGLuint k 1 = k - 1 := by
  unfold subGLuint GLuintSize at *
  omega

theorem subGLuint_of_le (a c : ℕ) (ha : a < GLuintSize) (hc : c ≤ a) :
    subGLuint a c = a - c := by
  unfold subGLuint GLuintSize at *
  omega

theorem setupViews_map_nBeams (n : ℕ) (f c : ℚ) (acc : ℚ) (l : List SonarView) :
    (setupViews n f c acc l).map SonarView.nBeams = l.map SonarView.nBeams := by
  induction l generalizing acc with
  | nil => rfl
  | cons x xs ih => simp [setupViews, ih]

theorem pushViews_map_nBeams (nViews beams1 beams2 : ℕ) :
    (pushViews nViews beams1 beams2).map SonarView.nBeams
      = List.replicate (subGLuint nViews 1) beams1 ++ [beams2] := by
  simp [pushViews]

theorem roundf_natCast_div (n k : ℕ) (hk : 0 < k) :
    roundf ((n : ℚ) / (k : ℚ)) = (((2 * n + k) / (2 * k) : ℕ) : ℚ) := by
  have hk' : (0 : ℚ) < k := by exact_mod_cast hk
  have h0 : (0 : ℚ) ≤ (n : ℚ) / (k : ℚ) := by positivity
  unfold roundf
  rw [if_pos h0]
  have e : (n : ℚ) / (k : ℚ) + 1 / 2 = ((2 * n + k : ℕ) : ℚ) / ((2 * k : ℕ) : ℚ) := by
    push_cast
    field_simp
    ring
  rw [e, Rat.floor_natCast_div_natCast]
  norm_cast

theorem castGLuint_natCast (k : ℕ) (hk : k < GLuintSize) : castGLuint (k : ℚ) = some k := by
  have := castGLuint_intCast (k : ℤ)
  simp only [Int.cast_natCast] at this
  rw [this, if_pos ⟨by positivity, by exact_mod_cast hk⟩]
  simp

theorem castGLuint_natCast_eq_some (k m : ℕ) (h : castGLuint (k : ℚ) = some m) : m = k := by
  have := castGLuint_intCast (k : ℤ)
  simp only [Int.cast_natCast] at this
  rw [this] at h
  split_ifs at h
  simpa using h.symm

/-- The beam split computed by the constructor: `nViews` is the ceiling of the field of
view over 20 degrees, `beams1` is the total over `nViews` rounded half up, and the last
view gets the unsigned difference. -/
theorem fls_ctor_split (h v : ℚ) (n b : ℕ) (s : OpenGLFLS)
    (hs : OpenGLFLS.ctor h v n b = some s) :
    ∃ nViews : ℕ, 0 < nViews ∧ nViews < GLuintSize ∧ (nViews : ℤ) = ⌈h / 20⌉ ∧ 0 < n ∧
      s.nBeams_ = n ∧ s.fov_.1 = radians h ∧
      s.nViewBeams_ = max ((2 * n + nViews) / (2 * nViews))
        (subGLuint n (mulGLuint ((2 * n + nViews) / (2 * nViews)) (nViews - 1))) ∧
      s.views_.map SonarView.nBeams
        = List.replicate (nViews - 1) ((2 * n + nViews) / (2 * nViews))
          ++ [subGLuint n (mulGLuint ((2 * n + nViews) / (2 * nViews)) (nViews - 1))] := by
  rw [fls_ctor_eq_some] at hs
  obtain ⟨samples, nViews, beams1, -, hv, hv0, hn0, hb, rfl⟩ := hs
  have hvlt := castGLuint_lt _ _ hv
  rw [castGLuint_ceilf_eq_some] at hv
  obtain ⟨⟨hc0, -⟩, hc⟩ := hv
  have hvpos : 0 < nViews := Nat.pos_of_ne_zero hv0
  rw [roundf_natCast_div n nViews hvpos] at hb
  have hb1 := castGLuint_natCast_eq_some _ _ hb
  subst hb1
  refine ⟨nViews, hvpos, hvlt, ?_, Nat.pos_of_ne_zero hn0, rfl, rfl, ?_, ?_⟩
  · rw [← hc]
    simp only [FLS_MAX_SINGLE_FOV] at hc0 ⊢
    exact Int.toNat_of_nonneg hc0
  · simp only [subGLuint_one nViews hv0 hvlt]
  · simp only [setupViews_map_nBeams, pushViews_map_nBeams, subGLuint_one nViews hv0 hvlt]

theorem roundHalfUp_le (n k : ℕ) (hk : 0 < k) : (2 * n + k) / (2 * k) ≤ n := by
  have h1 : (2 * n + k) / (2 * k) < n + 1 := by
    rw [Nat.div_lt_iff_lt_mul (by omega)]
    have : n * 1 ≤ n * k := Nat.mul_le_mul_left n hk
    nlinarith
  omega

theorem castGLuint_ceilf_isSome (x : ℚ) (h0 : 0 ≤ x) (h1 : x ≤ 4294967295) :
    castGLuint (ceilf x) = some ⌈x⌉.toNat := by
  rw [castGLuint_ceilf_eq_some]
  refine ⟨⟨Int.ceil_nonneg h0, ?_⟩, rfl⟩
  have : ⌈x⌉ ≤ 4294967295 := Int.ceil_le.mpr (by exact_mod_cast h1)
  unfold GLuintSize
  omega

/-- The constructor is defined on every configuration whose casts are in range. -/
theorem fls_ctor_isSome (h v : ℚ) (n b : ℕ) (hpos : 0 < h) (hmax : h ≤ 85899345900)
    (hv0 : 0 ≤ v) (hvb : v * (b : ℚ) ≤ 42949672950) (hn0 : 0 < n) (hn : n < GLuintSize) :
    ∃ s, OpenGLFLS.ctor h v n b = some s := by
  have h1 : castGLuint (ceilf (v * (b : ℚ) * FLS_VRES_FACTOR)) = some _ :=
    castGLuint_ceilf_isSome _ (by unfold FLS_VRES_FACTOR; positivity)
      (by unfold FLS_VRES_FACTOR; linarith)
  have h2 : castGLuint (ceilf (h / FLS_MAX_SINGLE_FOV)) = some _ :=
    castGLuint_ceilf_isSome _ (by unfold FLS_MAX_SINGLE_FOV; positivity)
      (by unfold FLS_MAX_SINGLE_FOV; linarith)
  have hc : 0 < ⌈h / FLS_MAX_SINGLE_FOV⌉ :=
    Int.ceil_pos.mpr (by unfold FLS_MAX_SINGLE_FOV; positivity)
  have hk : 0 < ⌈h / FLS_MAX_SINGLE_FOV⌉.toNat := by omega
  have h3 : castGLuint (roundf ((n : ℚ) / ((⌈h / FLS_MAX_SINGLE_FOV⌉.toNat : ℕ) : ℚ)))
      = some ((2 * n + ⌈h / FLS_MAX_SINGLE_FOV⌉.toNat) / (2 * ⌈h / FLS_MAX_SINGLE_FOV⌉.toNat)) := by
    rw [roundf_natCast_div n _ hk]
    apply castGLuint_natCast
    have := roundHalfUp_le n _ hk
    omega
  exact ⟨_, (fls_ctor_eq_some h v n b _).mpr
    ⟨_, _, _, h1, h2, by omega, by omega, h3, rfl⟩⟩

/-- The beam split in terms of the number of views that were created. -/
theorem fls_ctor_views (h v : ℚ) (n b : ℕ) (s : OpenGLFLS)
    (hs : OpenGLFLS.ctor h v n b = some s) :
    0 < s.views_.length ∧ s.views_.length < GLuintSize ∧
      (s.views_.length : ℤ) = ⌈h / 20⌉ ∧ 0 < n ∧ s.nBeams_ = n ∧ s.fov_.1 = radians h ∧
      s.nViewBeams_ = max ((2 * n + s.views_.length) / (2 * s.views_.length))
        (subGLuint n (mulGLuint ((2 * n + s.views_.length) / (2 * s.views_.length))
          (s.views_.length - 1))) ∧
      s.views_.map SonarView.nBeams
        = List.replicate (s.views_.length - 1) ((2 * n + s.views_.length) / (2 * s.views_.length))
          ++ [subGLuint n (mulGLuint ((2 * n + s.views_.length) / (2 * s.views_.length))
            (s.views_.length - 1))] := by
  obtain ⟨nViews, h0, hlt, hc, hn, h1, h2, h3, h4⟩ := fls_ctor_split h v n b s hs
  have hl : s.views_.length = nViews := by
    have := congrArg List.length h4
    simp only [List.length_map, List.length_append, List.length_replicate,
      List.length_singleton] at this
    omega
  rw [hl]
  exact ⟨h0, hlt, hc, hn, h1, h2, h3, h4⟩

theorem mulGLuint_of_le (a c n : ℕ) (hn : n < GLuintSize) (h : a * c ≤ n) :
    mulGLuint a c = a * c := by
  unfold mulGLuint
  exact Nat.mod_eq_of_lt (lt_of_le_of_lt h hn)

/-- Without wrap-around every beam count `k` of the split satisfies
`2 * k * L ≤ 2 * n + L * (L - 1)`, for `L` views and `n` beams. -/
theorem split_bounds (n L : ℕ) (hL : 0 < L)
    (hw : (2 * n + L) / (2 * L) * (L - 1) ≤ n) :
    (1 < L → 2 * ((2 * n + L) / (2 * L)) * L ≤ 2 * n + L * (L - 1)) ∧
    2 * ((2 * n + L) / (2 * L)) * L ≤ 2 * n + L ∧
    2 * (n - (2 * n + L) / (2 * L) * (L - 1)) * L ≤ 2 * n + L * (L - 1) := by
  have h1 : (2 * n + L) / (2 * L) * (2 * L) ≤ 2 * n + L := Nat.div_mul_le_self _ _
  have h2 : 2 * n + L < ((2 * n + L) / (2 * L) + 1) * (2 * L) :=
    Nat.lt_mul_of_div_lt (Nat.lt_succ_self _) (by omega)
  generalize (2 * n + L) / (2 * L) = q at *
  obtain ⟨m, rfl⟩ : ∃ m, L = m + 1 := ⟨L - 1, by omega⟩
  simp only [Nat.add_sub_cancel] at *
  refine ⟨fun h => ?_, by nlinarith, ?_⟩
  · have : 1 ≤ m := by omega
    nlinarith
  · zify [hw]
    zify at h1 h2 hw
    nlinarith

/-! ## Lemmas on the binary32 rounding -/

theorem abs_roundHalfEven_sub_le (y : ℚ) : |(roundHalfEven y : ℚ) - y| ≤ 1 / 2 := by
  have h1 : ((⌊y⌋ : ℤ) : ℚ) ≤ y := Int.floor_le y
  have h2 : y < ((⌊y⌋ : ℤ) : ℚ) + 1 := Int.lt_floor_add_one y
  unfold roundHalfEven
  rw [abs_le]
  split_ifs <;> constructor <;> push_cast <;> linarith

theorem roundHalfEven_le (y : ℚ) (m : ℤ) (h : y ≤ m) : roundHalfEven y ≤ m := by
  have h1 := (abs_le.mp (abs_roundHalfEven_sub_le y)).2
  have h2 : (roundHalfEven y : ℚ) < (m : ℚ) + 1 := by linarith
  have h3 : roundHalfEven y < m + 1 := by exact_mod_cast h2
  omega

theorem le_roundHalfEven (y : ℚ) (m : ℤ) (h : (m : ℚ) ≤ y) : m ≤ roundHalfEven y := by
  have h1 := (abs_le.mp (abs_roundHalfEven_sub_le y)).1
  have h2 : (m : ℚ) - 1 < (roundHalfEven y : ℚ) := by linarith
  have h3 : m - 1 < roundHalfEven y := by exact_mod_cast h2
  omega

theorem lt_roundHalfEven (y : ℚ) (m : ℤ) (h : (m : ℚ) + 1 / 2 < y) : m < roundHalfEven y := by
  have h1 := (abs_le.mp (abs_roundHalfEven_sub_le y)).1
  have h2 : (m : ℚ) < (roundHalfEven y : ℚ) := by linarith
  exact_mod_cast h2

theorem roundHalfEven_lt (y : ℚ) (m : ℤ) (h : y < (m : ℚ) - 1 / 2) : roundHalfEven y < m := by
  have h1 := (abs_le.mp (abs_roundHalfEven_sub_le y)).2
  have h2 : (roundHalfEven y : ℚ) < (m : ℚ) := by linarith
  exact_mod_cast h2

theorem ulpExpFrom_ge (x : ℚ) (k : ℕ) : ∀ lo : ℤ, lo ≤ ulpExpFrom x k lo := by
  induction k with
  | zero => intro lo; exact le_refl _
  | succ k ih =>
    intro lo
    have h2 : (0 : ℤ) < 2 ^ k := by positivity
    unfold ulpExpFrom
    split_ifs
    · linarith [ih (lo + 2 ^ k)]
    · exact ih lo

theorem ulpExpFrom_lower (x : ℚ) (k : ℕ) :
    ∀ lo : ℤ, (lo = -149 ∨ (2 : ℚ) ^ (lo + 23) ≤ |x|) →
      (ulpExpFrom x k lo = -149 ∨ (2 : ℚ) ^ (ulpExpFrom x k lo + 23) ≤ |x|) := by
  induction k with
  | zero => intro lo h; exact h
  | succ k ih =>
    intro lo h
    unfold ulpExpFrom
    split_ifs with hc
    · exact ih _ (Or.inr hc)
    · exact ih _ h

theorem ulpExpFrom_upper (x : ℚ) (k : ℕ) :
    ∀ lo : ℤ, |x| < (2 : ℚ) ^ (lo + 2 ^ k + 23) → |x| < (2 : ℚ) ^ (ulpExpFrom x k lo + 24) := by
  induction k with
  | zero =>
    intro lo h
    have e : lo + 2 ^ 0 + 23 = lo + 24 := by norm_num; ring
    rw [e] at h
    exact h
  | succ k ih =>
    intro lo h
    unfold ulpExpFrom
    split_ifs with hc
    · apply ih
      have e : lo + 2 ^ (k + 1) + 23 = lo + 2 ^ k + 2 ^ k + 23 := by rw [pow_succ]; ring
      rw [e] at h
      exact h
    · exact ih _ (not_le.mp hc)

theorem ulpExp_ge (x : ℚ) : -149 ≤ ulpExp x := ulpExpFrom_ge x 8 (-149)

theorem ulpExp_lower (x : ℚ) : ulpExp x = -149 ∨ (2 : ℚ) ^ (ulpExp x + 23) ≤ |x| :=
  ulpExpFrom_lower x 8 (-149) (Or.inl rfl)

theorem ulpExp_upper (x : ℚ) (h : |x| < (2 : ℚ) ^ (128 : ℤ)) :
    |x| < (2 : ℚ) ^ (ulpExp x + 24) :=
  ulpExpFrom_upper x 8 (-149) (lt_trans h (by norm_num))

/-- The exponent is at most `k` for a number below `2 ^ (k + 24)`. -/
theorem ulpExp_le_of_lt (x : ℚ) (k : ℤ) (hk : -149 ≤ k) (h : |x| < (2 : ℚ) ^ (k + 24)) :
    ulpExp x ≤ k := by
  by_contra hc
  push_neg at hc
  rcases ulpExp_lower x with e | e
  · omega
  · have h1 : (2 : ℚ) ^ (ulpExp x + 23) < (2 : ℚ) ^ (k + 24) := lt_of_le_of_lt e h
    have h2 := (zpow_lt_zpow_iff_right₀ (by norm_num : (1 : ℚ) < 2)).mp h1
    omega

/-- The exponent is at least `k` for a number from `2 ^ (k + 23)` on. -/
theorem le_ulpExp_of_le (x : ℚ) (k : ℤ) (hx : |x| < (2 : ℚ) ^ (128 : ℤ))
    (h : (2 : ℚ) ^ (k + 23) ≤ |x|) : k ≤ ulpExp x := by
  have h1 : (2 : ℚ) ^ (k + 23) < (2 : ℚ) ^ (ulpExp x + 24) := lt_of_le_of_lt h (ulpExp_upper x hx)
  have h2 := (zpow_lt_zpow_iff_right₀ (by norm_num : (1 : ℚ) < 2)).mp h1
  omega

theorem abs_nearestGLfloat_sub_le (x : ℚ) :
    |nearestGLfloat x - x| ≤ (2 : ℚ) ^ ulpExp x / 2 := by
  have hp : (0 : ℚ) < (2 : ℚ) ^ ulpExp x := by positivity
  have h := abs_roundHalfEven_sub_le (x / (2 : ℚ) ^ ulpExp x)
  unfold nearestGLfloat
  have e : (roundHalfEven (x / (2 : ℚ) ^ ulpExp x) : ℚ) * (2 : ℚ) ^ ulpExp x - x
      = ((roundHalfEven (x / (2 : ℚ) ^ ulpExp x) : ℚ) - x / (2 : ℚ) ^ ulpExp x) * (2 : ℚ) ^ ulpExp x := by
    field_simp
  rw [e, abs_mul, abs_of_pos hp]
  calc _ ≤ 1 / 2 * (2 : ℚ) ^ ulpExp x := mul_le_mul_of_nonneg_right h hp.le
    _ = _ := by ring

theorem nearestGLfloat_le (x : ℚ) (m : ℤ) (h : x ≤ (m : ℚ) * (2 : ℚ) ^ ulpExp x) :
    nearestGLfloat x ≤ (m : ℚ) * (2 : ℚ) ^ ulpExp x := by
  have hp : (0 : ℚ) < (2 : ℚ) ^ ulpExp x := by positivity
  unfold nearestGLfloat
  apply mul_le_mul_of_nonneg_right _ hp.le
  exact_mod_cast roundHalfEven_le _ m ((div_le_iff₀ hp).mpr h)

theorem le_nearestGLfloat (x : ℚ) (m : ℤ) (h : (m : ℚ) * (2 : ℚ) ^ ulpExp x ≤ x) :
    (m : ℚ) * (2 : ℚ) ^ ulpExp x ≤ nearestGLfloat x := by
  have hp : (0 : ℚ) < (2 : ℚ) ^ ulpExp x := by positivity
  unfold nearestGLfloat
  apply mul_le_mul_of_nonneg_right _ hp.le
  exact_mod_cast le_roundHalfEven _ m ((le_div_iff₀ hp).mpr h)

theorem roundHalfEven_intCast (N : ℤ) : roundHalfEven (N : ℚ) = N := by
  have h := abs_le.mp (abs_roundHalfEven_sub_le (N : ℚ))
  have h1 : ((roundHalfEven (N : ℚ) : ℤ) : ℚ) < ((N + 1 : ℤ) : ℚ) := by push_cast; linarith [h.2]
  have h2 : ((N - 1 : ℤ) : ℚ) < ((roundHalfEven (N : ℚ) : ℤ) : ℚ) := by push_cast; linarith [h.1]
  have h3 : roundHalfEven (N : ℚ) < N + 1 := by exact_mod_cast h1
  have h4 : N - 1 < roundHalfEven (N : ℚ) := by exact_mod_cast h2
  omega

/-- A power of two with a nonnegative exponent is an integer. -/
theorem zpow_eq_intCast (d : ℤ) (hd : 0 ≤ d) : (2 : ℚ) ^ d = (((2 : ℤ) ^ d.toNat : ℤ) : ℚ) := by
  obtain ⟨n, rfl⟩ := Int.eq_ofNat_of_zero_le hd
  simp

/-- A number on the grid of its own exponent is not changed by the rounding. -/
theorem nearestGLfloat_of_grid (x : ℚ) (N : ℤ) (h : x = (N : ℚ) * (2 : ℚ) ^ ulpExp x) :
    nearestGLfloat x = x := by
  have hp : (0 : ℚ) < (2 : ℚ) ^ ulpExp x := by positivity
  have e : x / (2 : ℚ) ^ ulpExp x = (N : ℚ) := by
    rw [div_eq_iff hp.ne']
    exact h
  unfold nearestGLfloat
  rw [e, roundHalfEven_intCast]
  exact h.symm

/-- Binary32 numbers: an integer of at most 24 bits times a power of two from `2 ^ -149`
on is not changed by the rounding. -/
theorem nearestGLfloat_mul_zpow (M k : ℤ) (hk : -149 ≤ k) (hM : |M| ≤ 16777216) :
    nearestGLfloat ((M : ℚ) * (2 : ℚ) ^ k) = (M : ℚ) * (2 : ℚ) ^ k := by
  have hpk : (0 : ℚ) < (2 : ℚ) ^ k := by positivity
  have habs : |(M : ℚ) * (2 : ℚ) ^ k| = (|M| : ℤ) * (2 : ℚ) ^ k := by
    rw [abs_mul, abs_of_pos hpk]
    simp
  have hMq : ((|M| : ℤ) : ℚ) ≤ (2 : ℚ) ^ (24 : ℤ) := by
    have : ((|M| : ℤ) : ℚ) ≤ ((16777216 : ℤ) : ℚ) := by exact_mod_cast hM
    norm_num at this ⊢
    exact this
  have hle : |(M : ℚ) * (2 : ℚ) ^ k| ≤ (2 : ℚ) ^ (k + 24) := by
    rw [habs, zpow_add₀ (by norm_num : (2 : ℚ) ≠ 0), mul_comm ((2 : ℚ) ^ k)]
    exact mul_le_mul_of_nonneg_right hMq hpk.le
  rcases le_or_lt (ulpExp ((M : ℚ) * (2 : ℚ) ^ k)) k with hc | hc
  · apply nearestGLfloat_of_grid _ (M * 2 ^ (k - ulpExp ((M : ℚ) * (2 : ℚ) ^ k)).toNat)
    push_cast
    have := zpow_eq_intCast (k - ulpExp ((M : ℚ) * (2 : ℚ) ^ k)) (by omega)
    push_cast at this
    rw [← this, mul_assoc, ← zpow_add₀ (by norm_num : (2 : ℚ) ≠ 0)]
    congr 2
    ring
  · rcases ulpExp_lower ((M : ℚ) * (2 : ℚ) ^ k) with e | e
    · omega
    · have h1 : (2 : ℚ) ^ (ulpExp ((M : ℚ) * (2 : ℚ) ^ k) + 23) ≤ (2 : ℚ) ^ (k + 24) := e.trans hle
      have h2 := (zpow_le_zpow_iff_right₀ (by norm_num : (1 : ℚ) < 2)).mp h1
      have h3 : ulpExp ((M : ℚ) * (2 : ℚ) ^ k) = k + 1 := by omega
      have h4 : (2 : ℚ) ^ (k + 24) ≤ |(M : ℚ) * (2 : ℚ) ^ k| := by
        rw [h3] at e
        have e2 : k + 1 + 23 = k + 24 := by ring
        rwa [e2] at e
      have h5 : (2 : ℚ) ^ (24 : ℤ) ≤ ((|M| : ℤ) : ℚ) := by
        rw [habs, zpow_add₀ (by norm_num : (2 : ℚ) ≠ 0), mul_comm ((2 : ℚ) ^ k)] at h4
        exact le_of_mul_le_mul_right h4 hpk
      have h6 : (16777216 : ℤ) ≤ |M| := by
        have : ((16777216 : ℤ) : ℚ) ≤ ((|M| : ℤ) : ℚ) := by
          norm_num at h5 ⊢
          exact h5
        exact_mod_cast this
      have h7 : |M| = 16777216 := le_antisymm hM h6
      have h8 : M = 2 * (M / 2) := by
        rcases abs_cases M with ⟨a, -⟩ | ⟨a, -⟩ <;> omega
      have h9 : (M : ℚ) = 2 * ((M / 2 : ℤ) : ℚ) := by exact_mod_cast h8
      apply nearestGLfloat_of_grid _ (M / 2)
      rw [h3, zpow_add₀ (by norm_num : (2 : ℚ) ≠ 0), zpow_one]
      linear_combination (2 : ℚ) ^ k * h9

theorem nearestGLfloat_natCast (n : ℕ) (hn : n ≤ 16777216) : nearestGLfloat (n : ℚ) = n := by
  have := nearestGLfloat_mul_zpow (n : ℤ) 0 (by norm_num)
    (by rw [abs_of_nonneg (by positivity)]; exact_mod_cast hn)
  simpa using this

theorem nearestGLfloat_nonneg (x : ℚ) (h : 0 ≤ x) : 0 ≤ nearestGLfloat x := by
  have := le_nearestGLfloat x 0 (by simpa using h)
  simpa using this

theorem nearestGLfloat_nonpos (x : ℚ) (h : x ≤ 0) : nearestGLfloat x ≤ 0 := by
  have := nearestGLfloat_le x 0 (by simpa using h)
  simpa using this

/-- The rounding keeps a bound that is a power of two. -/
theorem abs_nearestGLfloat_le (x : ℚ) (j : ℤ) (hj : -149 ≤ j) (hx : |x| ≤ (2 : ℚ) ^ j) :
    |nearestGLfloat x| ≤ (2 : ℚ) ^ j := by
  have he : ulpExp x ≤ j := by
    rcases le_or_lt (-149) (j - 23) with h1 | h1
    · have := ulpExp_le_of_lt x (j - 23) h1 (lt_of_le_of_lt hx
        (by apply (zpow_lt_zpow_iff_right₀ (by norm_num : (1 : ℚ) < 2)).mpr; omega))
      omega
    · have := ulpExp_le_of_lt x (-149) (by norm_num) (lt_of_le_of_lt hx
        (by apply (zpow_lt_zpow_iff_right₀ (by norm_num : (1 : ℚ) < 2)).mpr; omega))
      omega
  have hg : (2 : ℚ) ^ j = (((2 : ℤ) ^ (j - ulpExp x).toNat : ℤ) : ℚ) * (2 : ℚ) ^ ulpExp x := by
    rw [← zpow_eq_intCast _ (by omega), ← zpow_add₀ (by norm_num : (2 : ℚ) ≠ 0)]
    congr 1
    ring
  obtain ⟨h1, h2⟩ := abs_le.mp hx
  rw [abs_le]
  constructor
  · have := le_nearestGLfloat x (-((2 : ℤ) ^ (j - ulpExp x).toNat))
      (by rw [Int.cast_neg, neg_mul, ← hg]; exact h1)
    rw [Int.cast_neg, neg_mul, ← hg] at this
    exact this
  · have := nearestGLfloat_le x ((2 : ℤ) ^ (j - ulpExp x).toNat) (by rw [← hg]; exact h2)
    rw [← hg] at this
    exact this

theorem roundGLfloat_eq_some (x : ℚ) (j : ℤ) (hj : -149 ≤ j) (hj2 : j ≤ 127)
    (hx : |x| ≤ (2 : ℚ) ^ j) : roundGLfloat x = some (nearestGLfloat x) := by
  unfold roundGLfloat
  rw [if_pos]
  have h1 := abs_nearestGLfloat_le x j hj hx
  have h2 : (2 : ℚ) ^ j ≤ (2 : ℚ) ^ (127 : ℤ) :=
    (zpow_le_zpow_iff_right₀ (by norm_num : (1 : ℚ) < 2)).mpr hj2
  have h3 : (2 : ℚ) ^ (127 : ℤ) < (2 : ℚ) ^ (128 : ℕ) := by norm_num
  linarith

theorem roundGLfloat_eq_some_iff (x r : ℚ) :
    roundGLfloat x = some r ↔ |nearestGLfloat x| < (2 : ℚ) ^ (128 : ℕ) ∧ nearestGLfloat x = r := by
  unfold roundGLfloat
  split_ifs with h <;> simp [h]

/-- The width of the grid against the number, for a normal number. -/
theorem zpow_ulpExp_le (x : ℚ) (h : (2 : ℚ) ^ (-126 : ℤ) ≤ |x|) :
    (2 : ℚ) ^ ulpExp x ≤ |x| / 2 ^ (23 : ℕ) := by
  rw [le_div_iff₀ (by positivity)]
  have e : (2 : ℚ) ^ ulpExp x * 2 ^ (23 : ℕ) = (2 : ℚ) ^ (ulpExp x + 23) := by
    rw [zpow_add₀ (by norm_num : (2 : ℚ) ≠ 0)]
    norm_cast
  rw [e]
  rcases ulpExp_lower x with h1 | h1
  · rw [h1]
    exact le_trans (by norm_num) h
  · exact h1

/-- The relative error of one rounding of a normal number is at most `2 ^ -24`. -/
theorem abs_nearestGLfloat_sub_le_mul (x : ℚ) (h : (2 : ℚ) ^ (-126 : ℤ) ≤ |x|) :
    |nearestGLfloat x - x| ≤ |x| / 2 ^ (24 : ℕ) := by
  have h1 := abs_nearestGLfloat_sub_le x
  have h2 := zpow_ulpExp_le x h
  calc |nearestGLfloat x - x| ≤ (2 : ℚ) ^ ulpExp x / 2 := h1
    _ ≤ |x| / 2 ^ (23 : ℕ) / 2 := by linarith
    _ = |x| / 2 ^ (24 : ℕ) := by ring

theorem abs_roundHalfEven_le (y : ℚ) (m : ℤ) (h : |y| ≤ m) : |roundHalfEven y| ≤ m := by
  obtain ⟨h1, h2⟩ := abs_le.mp h
  rw [abs_le]
  exact ⟨le_roundHalfEven y (-m) (by push_cast; exact h1), roundHalfEven_le y m h2⟩

/-- The significand of the rounded value has at most 24 bits (or is `2 ^ 24`). -/
theorem abs_roundHalfEven_div_le (x : ℚ) (hx : |x| < (2 : ℚ) ^ (128 : ℤ)) :
    |roundHalfEven (x / (2 : ℚ) ^ ulpExp x)| ≤ 16777216 := by
  have hp : (0 : ℚ) < (2 : ℚ) ^ ulpExp x := by positivity
  apply abs_roundHalfEven_le
  rw [abs_div, abs_of_pos hp, div_le_iff₀ hp]
  have h1 := ulpExp_upper x hx
  rw [zpow_add₀ (by norm_num : (2 : ℚ) ≠ 0)] at h1
  have e : ((16777216 : ℤ) : ℚ) * (2 : ℚ) ^ ulpExp x = (2 : ℚ) ^ ulpExp x * (2 : ℚ) ^ (24 : ℤ) := by
    norm_num
    ring
  rw [e]
  exact h1.le

/-- Rounding twice is rounding once. -/
theorem nearestGLfloat_idem (x : ℚ) (hx : |x| < (2 : ℚ) ^ (128 : ℤ)) :
    nearestGLfloat (nearestGLfloat x) = nearestGLfloat x := by
  unfold nearestGLfloat
  exact nearestGLfloat_mul_zpow _ _ (ulpExp_ge x) (abs_roundHalfEven_div_le x hx)

/-- Half of a binary32 number from `2 ^ -125` on is a binary32 number. -/
theorem nearestGLfloat_half (x : ℚ) (hx : nearestGLfloat x = x)
    (hlo : (2 : ℚ) ^ (-125 : ℤ) ≤ |x|) (hhi : |x| < (2 : ℚ) ^ (128 : ℤ)) :
    nearestGLfloat (x / 2) = x / 2 := by
  have he : -148 ≤ ulpExp x := le_ulpExp_of_le x (-148) hhi (by norm_num at hlo ⊢; exact hlo)
  have hR := abs_roundHalfEven_div_le x hhi
  have e : x / 2 = (roundHalfEven (x / (2 : ℚ) ^ ulpExp x) : ℚ) * (2 : ℚ) ^ (ulpExp x - 1) := by
    rw [zpow_sub₀ (by norm_num : (2 : ℚ) ≠ 0), zpow_one]
    have : (roundHalfEven (x / (2 : ℚ) ^ ulpExp x) : ℚ) * (2 : ℚ) ^ ulpExp x = x := hx
    rw [← mul_div_assoc, this]
  rw [e]
  exact nearestGLfloat_mul_zpow _ _ (by omega) hR

theorem abs_lt_of_le_zpow (x : ℚ) (j : ℤ) (hj : j ≤ 127) (hx : |x| ≤ (2 : ℚ) ^ j) :
    |x| < (2 : ℚ) ^ (128 : ℤ) :=
  lt_of_le_of_lt hx ((zpow_lt_zpow_iff_right₀ (by norm_num : (1 : ℚ) < 2)).mpr (by omega))

theorem nearestGLfloat_M_PI : nearestGLfloat M_PI = 13176795 / 4194304 := by decide!

theorem nearestGLfloat_one_tenth : nearestGLfloat (1 / 10) = 13421773 / 134217728 := by decide!

theorem nearestDouble_pi :
    nearestDouble (314159265358979323846 / 100000000000000000000) = M_PI := by decide!

theorem nearestDouble_radians :
    nearestDouble (1745329251994329576923690768489 / 100000000000000000000000000000000)
      = radiansFactor := by decide!

theorem nearestGLfloat_radiansFactor : nearestGLfloat radiansFactor = 9370165 / 536870912 := by
  decide!

/-- An integer is on every grid with a nonpositive exponent. -/
theorem intCast_eq_grid (c e : ℤ) (he : e ≤ 0) :
    (c : ℚ) = ((c * 2 ^ (-e).toNat : ℤ) : ℚ) * (2 : ℚ) ^ e := by
  have h1 := zpow_eq_intCast (-e) (by omega)
  push_cast at h1 ⊢
  rw [← h1, mul_assoc, ← zpow_add₀ (by norm_num : (2 : ℚ) ≠ 0)]
  simp

/-- An integer times `2 ^ k` is on every grid with an exponent of at most `k`. -/
theorem mul_zpow_eq_grid (c k e : ℤ) (he : e ≤ k) :
    (c : ℚ) * (2 : ℚ) ^ k = ((c * 2 ^ (k - e).toNat : ℤ) : ℚ) * (2 : ℚ) ^ e := by
  have h1 := zpow_eq_intCast (k - e) (by omega)
  push_cast at h1 ⊢
  rw [← h1, mul_assoc, ← zpow_add₀ (by norm_num : (2 : ℚ) ≠ 0)]
  congr 2
  ring

theorem nearestGLfloat_pos (x : ℚ) (hx : (2 : ℚ) ^ (-149 : ℤ) ≤ x) : 0 < nearestGLfloat x := by
  have hx0 : 0 < x := lt_of_lt_of_le (by positivity) hx
  have h1 : ((1 : ℤ) : ℚ) * (2 : ℚ) ^ ulpExp x ≤ x := by
    rw [Int.cast_one, one_mul]
    rcases ulpExp_lower x with e | e
    · rw [e]; exact hx
    · rw [abs_of_pos hx0] at e
      refine le_trans ?_ e
      exact (zpow_le_zpow_iff_right₀ (by norm_num : (1 : ℚ) < 2)).mpr (by omega)
  have h2 := le_nearestGLfloat x 1 h1
  rw [Int.cast_one, one_mul] at h2
  exact lt_of_lt_of_le (by positivity) h2

/-- Line 62 in binary32: for a binary32 number `h` of degrees from `2 ^ -126` to `2 ^ 24`
the rounded quotient `h / 20.f` has the ceiling of the exact quotient. -/
theorem ceil_nearestGLfloat_div_twenty (h : ℚ) (hf : nearestGLfloat h = h)
    (hlo : 1 / 2 ^ 126 ≤ h) (hhi : h ≤ 16777216) :
    ⌈nearestGLfloat (h / 20)⌉ = ⌈h / 20⌉ := by
  have hpos : 0 < h := lt_of_lt_of_le (by positivity) hlo
  have hxpos : 0 < h / 20 := by positivity
  have habsx : |h / 20| = h / 20 := abs_of_pos hxpos
  have he : ulpExp (h / 20) ≤ -4 := by
    apply ulpExp_le_of_lt _ _ (by norm_num)
    rw [habsx]
    norm_num
    linarith
  have hc1 : h / 20 ≤ ((⌈h / 20⌉ : ℤ) : ℚ) := Int.le_ceil _
  have hc2 : ((⌈h / 20⌉ : ℤ) : ℚ) < h / 20 + 1 := Int.ceil_lt_add_one _
  have hc0 : 0 < ⌈h / 20⌉ := Int.ceil_pos.mpr hxpos
  rw [Int.ceil_eq_iff]
  constructor
  · -- the rounded quotient is above `⌈h / 20⌉ - 1`
    rcases eq_or_lt_of_le (show 1 ≤ ⌈h / 20⌉ by omega) with h1 | h1
    · rw [← h1]
      have : 0 < nearestGLfloat (h / 20) := by
        apply nearestGLfloat_pos
        refine le_trans ?_ (div_le_div_of_nonneg_right hlo (by norm_num : (0 : ℚ) ≤ 20))
        norm_num
      simpa using this
    · obtain ⟨k, hk⟩ : ∃ k : ℤ, ⌈h / 20⌉ = k + 1 := ⟨⌈h / 20⌉ - 1, by ring⟩
      have hk1 : 1 ≤ k := by omega
      have hkx : (k : ℚ) < h / 20 := by
        have : ((⌈h / 20⌉ : ℤ) : ℚ) = (k : ℚ) + 1 := by rw [hk]; push_cast; ring
        linarith
      have hk1q : (1 : ℚ) ≤ k := by exact_mod_cast hk1
      have h20 : 20 * (k : ℚ) < h := by linarith
      have habsh : |h| = h := abs_of_pos hpos
      have hh128 : |h| < (2 : ℚ) ^ (128 : ℤ) :=
        abs_lt_of_le_zpow h 24 (by norm_num) (by rw [habsh]; norm_num; exact hhi)
      -- the grid of `h`
      have heh1 : -19 ≤ ulpExp h := le_ulpExp_of_le h (-19) hh128 (by rw [habsh]; norm_num; linarith)
      have heh2 : ulpExp h ≤ 2 := by
        apply ulpExp_le_of_lt _ _ (by norm_num)
        rw [habsh]
        norm_num
        linarith
      have hup := ulpExp_upper h hh128
      rw [habsh] at hup
      have hg : (0 : ℚ) < (2 : ℚ) ^ ulpExp h := by positivity
      have hN : ((roundHalfEven (h / (2 : ℚ) ^ ulpExp h) : ℤ) : ℚ) * (2 : ℚ) ^ ulpExp h = h := hf
      have h20g : 20 * (k : ℚ) = ((5 * k * 2 ^ (2 - ulpExp h).toNat : ℤ) : ℚ) * (2 : ℚ) ^ ulpExp h := by
        have := mul_zpow_eq_grid (5 * k) 2 (ulpExp h) heh2
        rw [← this]
        push_cast
        norm_num
        ring
      have hdiff : (2 : ℚ) ^ ulpExp h ≤ h - 20 * (k : ℚ) := by
        have e : h - 20 * (k : ℚ)
            = ((roundHalfEven (h / (2 : ℚ) ^ ulpExp h) - 5 * k * 2 ^ (2 - ulpExp h).toNat : ℤ) : ℚ)
              * (2 : ℚ) ^ ulpExp h := by
          rw [Int.cast_sub, sub_mul, hN, ← h20g]
        have hpos' : (0 : ℚ) < ((roundHalfEven (h / (2 : ℚ) ^ ulpExp h)
            - 5 * k * 2 ^ (2 - ulpExp h).toNat : ℤ) : ℚ) := by
          have : 0 < h - 20 * (k : ℚ) := by linarith
          rw [e] at this
          exact (mul_pos_iff_of_pos_right hg).mp this
        have h1' : (1 : ℤ) ≤ roundHalfEven (h / (2 : ℚ) ^ ulpExp h)
            - 5 * k * 2 ^ (2 - ulpExp h).toNat := by
          have : (0 : ℤ) < roundHalfEven (h / (2 : ℚ) ^ ulpExp h)
            - 5 * k * 2 ^ (2 - ulpExp h).toNat := by exact_mod_cast hpos'
          omega
        have h1q : (1 : ℚ) ≤ ((roundHalfEven (h / (2 : ℚ) ^ ulpExp h)
            - 5 * k * 2 ^ (2 - ulpExp h).toNat : ℤ) : ℚ) := by exact_mod_cast h1'
        rw [e]
        calc (2 : ℚ) ^ ulpExp h = 1 * (2 : ℚ) ^ ulpExp h := (one_mul _).symm
          _ ≤ _ := mul_le_mul_of_nonneg_right h1q hg.le
      -- the grid of `h / 20`
      have he2 : ulpExp (h / 20) ≤ ulpExp h - 4 := by
        apply ulpExp_le_of_lt _ _ (by omega)
        rw [habsx]
        have e : ulpExp h - 4 + 24 = (ulpExp h + 24) + (-4) := by ring
        rw [e, zpow_add₀ (by norm_num : (2 : ℚ) ≠ 0)]
        have : (0 : ℚ) < (2 : ℚ) ^ (ulpExp h + 24) := by positivity
        norm_num
        linarith
      have hpe : (2 : ℚ) ^ ulpExp (h / 20) ≤ (2 : ℚ) ^ ulpExp h / 16 := by
        have h1' := (zpow_le_zpow_iff_right₀ (by norm_num : (1 : ℚ) < 2)).mpr he2
        rw [zpow_sub₀ (by norm_num : (2 : ℚ) ≠ 0)] at h1'
        norm_num at h1'
        exact h1'
      have hp : (0 : ℚ) < (2 : ℚ) ^ ulpExp (h / 20) := by positivity
      have hkg := intCast_eq_grid k (ulpExp (h / 20)) (by omega)
      have hlt : ((k * 2 ^ (-ulpExp (h / 20)).toNat : ℤ) : ℚ) + 1 / 2
          < h / 20 / (2 : ℚ) ^ ulpExp (h / 20) := by
        rw [lt_div_iff₀ hp, add_mul, ← hkg]
        linarith
      have hR := lt_roundHalfEven _ _ hlt
      have hR' : ((k * 2 ^ (-ulpExp (h / 20)).toNat + 1 : ℤ) : ℚ)
          ≤ (roundHalfEven (h / 20 / (2 : ℚ) ^ ulpExp (h / 20)) : ℚ) := by
        exact_mod_cast hR
      have hfin : (k : ℚ) + (2 : ℚ) ^ ulpExp (h / 20) ≤ nearestGLfloat (h / 20) := by
        unfold nearestGLfloat
        calc (k : ℚ) + (2 : ℚ) ^ ulpExp (h / 20)
            = ((k * 2 ^ (-ulpExp (h / 20)).toNat + 1 : ℤ) : ℚ) * (2 : ℚ) ^ ulpExp (h / 20) := by
              rw [Int.cast_add, add_mul, ← hkg]
              simp
          _ ≤ _ := mul_le_mul_of_nonneg_right hR' hp.le
      rw [hk]
      push_cast
      linarith
  · have hg := intCast_eq_grid ⌈h / 20⌉ (ulpExp (h / 20)) (by omega)
    have := nearestGLfloat_le (h / 20) _ (by rw [← hg]; exact hc1)
    rw [← hg] at this
    exact this

/-- Half an integer is on every grid with a negative exponent. -/
theorem half_intCast_eq_grid (z e : ℤ) (he : e ≤ -1) :
    (z : ℚ) / 2 = ((z * 2 ^ (-1 - e).toNat : ℤ) : ℚ) * (2 : ℚ) ^ e := by
  have := mul_zpow_eq_grid z (-1) e he
  rw [← this]
  norm_num
  ring

/-- Line 63 in binary32, for a quotient of integers with exact casts: with fewer than
`2 ^ 23` beams the rounded quotient has the same `roundf` as the exact quotient. -/
theorem roundf_nearestGLfloat_natCast_div (n L : ℕ) (hn : n < 8388608) (hL : 0 < L)
    (hL2 : L ≤ 16777216) :
    roundf (nearestGLfloat ((n : ℚ) / (L : ℚ))) = (((2 * n + L) / (2 * L) : ℕ) : ℚ) := by
  have hLq : (0 : ℚ) < L := by exact_mod_cast hL
  have hq0 : (0 : ℚ) ≤ (n : ℚ) / L := by positivity
  have hj1 : (2 * n + L) / (2 * L) * (2 * L) ≤ 2 * n + L := Nat.div_mul_le_self _ _
  have hj2 : 2 * n + L < ((2 * n + L) / (2 * L) + 1) * (2 * L) :=
    Nat.lt_mul_of_div_lt (Nat.lt_succ_self _) (by omega)
  generalize (2 * n + L) / (2 * L) = j at hj1 hj2 ⊢
  have hj1q : ((j * (2 * L) : ℕ) : ℚ) ≤ ((2 * n + L : ℕ) : ℚ) := by exact_mod_cast hj1
  have hj2' : 2 * n + L + 1 ≤ (j + 1) * (2 * L) := hj2
  have hj2q : ((2 * n + L + 1 : ℕ) : ℚ) ≤ (((j + 1) * (2 * L) : ℕ) : ℚ) := by exact_mod_cast hj2'
  push_cast at hj1q hj2q
  -- the exact quotient lies in `[j - 1/2, j + 1/2 - 1/(2L)]`
  have hlow : (((2 * j - 1 : ℤ) : ℚ)) / 2 ≤ (n : ℚ) / L := by
    rw [le_div_iff₀ hLq]
    push_cast
    nlinarith
  have hupp : (n : ℚ) / L + 1 / (2 * L) ≤ (((2 * j + 1 : ℤ) : ℚ)) / 2 := by
    have e : (n : ℚ) / L + 1 / (2 * L) = (2 * n + 1) / (2 * L) := by
      field_simp
      ring
    rw [e, div_le_iff₀ (by positivity)]
    push_cast
    nlinarith
  have hqn : (n : ℚ) / L ≤ n := div_le_self (by positivity) (by exact_mod_cast hL)
  have hnq : (n : ℚ) < 8388608 := by exact_mod_cast hn
  have habsq : |(n : ℚ) / L| = (n : ℚ) / L := abs_of_nonneg hq0
  have he : ulpExp ((n : ℚ) / L) ≤ -1 := by
    apply ulpExp_le_of_lt _ _ (by norm_num)
    rw [habsq]
    norm_num
    linarith
  have hp : (0 : ℚ) < (2 : ℚ) ^ ulpExp ((n : ℚ) / L) := by positivity
  -- the grid is finer than `1 / L`
  have hfine : (L : ℚ) * (2 : ℚ) ^ ulpExp ((n : ℚ) / L) < 1 := by
    rcases ulpExp_lower ((n : ℚ) / L) with e | e
    · rw [e]
      have : (L : ℚ) ≤ 16777216 := by exact_mod_cast hL2
      have h2 : (0 : ℚ) < (2 : ℚ) ^ (-149 : ℤ) := by positivity
      calc (L : ℚ) * (2 : ℚ) ^ (-149 : ℤ) ≤ 16777216 * (2 : ℚ) ^ (-149 : ℤ) :=
            mul_le_mul_of_nonneg_right this h2.le
        _ < 1 := by norm_num
    · rw [habsq, zpow_add₀ (by norm_num : (2 : ℚ) ≠ 0), le_div_iff₀ hLq] at e
      norm_num at e
      nlinarith
  have hlo := le_nearestGLfloat ((n : ℚ) / L) _
    (by rw [← half_intCast_eq_grid (2 * j - 1) _ he]; exact hlow)
  rw [← half_intCast_eq_grid (2 * j - 1) _ he] at hlo
  have hgrid := half_intCast_eq_grid (2 * j + 1) _ he
  have hlt : (n : ℚ) / L / (2 : ℚ) ^ ulpExp ((n : ℚ) / L)
      < (((2 * j + 1) * 2 ^ (-1 - ulpExp ((n : ℚ) / L)).toNat : ℤ) : ℚ) - 1 / 2 := by
    rw [div_lt_iff₀ hp, sub_mul, ← hgrid]
    have : (2 : ℚ) ^ ulpExp ((n : ℚ) / L) < 1 / L := by
      rw [lt_div_iff₀ hLq, mul_comm]
      exact hfine
    have e : (1 : ℚ) / (2 * L) = 1 / L / 2 := by
      field_simp
      ring
    rw [e] at hupp
    linarith
  have hR := roundHalfEven_lt _ _ hlt
  have hR' : (roundHalfEven ((n : ℚ) / L / (2 : ℚ) ^ ulpExp ((n : ℚ) / L)) : ℚ)
      ≤ (((2 * j + 1) * 2 ^ (-1 - ulpExp ((n : ℚ) / L)).toNat - 1 : ℤ) : ℚ) := by
    have : roundHalfEven ((n : ℚ) / L / (2 : ℚ) ^ ulpExp ((n : ℚ) / L))
        ≤ (2 * j + 1) * 2 ^ (-1 - ulpExp ((n : ℚ) / L)).toNat - 1 := by omega
    exact_mod_cast this
  have hhi : nearestGLfloat ((n : ℚ) / L) < (((2 * j + 1 : ℤ) : ℚ)) / 2 := by
    unfold nearestGLfloat
    calc _ ≤ (((2 * j + 1) * 2 ^ (-1 - ulpExp ((n : ℚ) / L)).toNat - 1 : ℤ) : ℚ)
          * (2 : ℚ) ^ ulpExp ((n : ℚ) / L) := mul_le_mul_of_nonneg_right hR' hp.le
      _ = (((2 * j + 1 : ℤ) : ℚ)) / 2 - (2 : ℚ) ^ ulpExp ((n : ℚ) / L) := by
          rw [Int.cast_sub, sub_mul, ← hgrid]
          simp
      _ < _ := by linarith
  have h0 := nearestGLfloat_nonneg _ hq0
  unfold roundf
  rw [if_pos h0]
  congr 1
  rw [Int.floor_eq_iff]
  push_cast at hlo hhi ⊢
  constructor <;> linarith

/-- A positive `GLuint` is at least one as a `GLfloat`. -/
theorem one_le_nearestGLfloat_natCast (n : ℕ) (hn : 0 < n) : 1 ≤ nearestGLfloat (n : ℚ) := by
  have h1 : (1 : ℚ) ≤ n := by exact_mod_cast hn
  rcases le_or_lt (ulpExp (n : ℚ)) 0 with he | he
  · have hg := intCast_eq_grid 1 (ulpExp (n : ℚ)) he
    have := le_nearestGLfloat (n : ℚ) _ (by rw [← hg]; exact_mod_cast hn)
    rw [← hg] at this
    exact_mod_cast this
  · rcases ulpExp_lower (n : ℚ) with e | e
    · omega
    · rw [abs_of_nonneg (by positivity)] at e
      have hg := mul_zpow_eq_grid 1 (ulpExp (n : ℚ) + 23) (ulpExp (n : ℚ)) (by omega)
      rw [Int.cast_one, one_mul] at hg
      have := le_nearestGLfloat (n : ℚ) _ (by rw [← hg]; exact e)
      rw [← hg] at this
      refine le_trans ?_ this
      exact one_le_zpow₀ (by norm_num) (by omega)

/-- Line 63 in binary32: with fewer than `2 ^ 23` beams, `beams1` is the quotient of the
beam count by the number of views rounded to the nearest integer, halves upwards. -/
theorem roundf_nearestGLfloat_div (n L : ℕ) (hn : n < 8388608) (hL : 0 < L)
    (hL2 : L < 4294967296) :
    roundf (nearestGLfloat (nearestGLfloat (n : ℚ) / nearestGLfloat (L : ℚ)))
      = (((2 * n + L) / (2 * L) : ℕ) : ℚ) := by
  rw [nearestGLfloat_natCast n (by omega)]
  rcases le_or_lt L 16777216 with h1 | h1
  · rw [nearestGLfloat_natCast L h1]
    exact roundf_nearestGLfloat_natCast_div n L hn hL h1
  · -- more than `2 ^ 24` views: the quotient is below one half
    have hLq : (16777216 : ℚ) ≤ L := by exact_mod_cast h1.le
    have hLabs : |(L : ℚ)| = L := abs_of_nonneg (by positivity)
    have heL : ulpExp (L : ℚ) ≤ 8 := by
      apply ulpExp_le_of_lt _ _ (by norm_num)
      rw [hLabs]
      have : (L : ℚ) < 4294967296 := by exact_mod_cast hL2
      exact lt_of_lt_of_le this (by norm_num)
    have hD : (16777216 : ℚ) ≤ nearestGLfloat (L : ℚ) := by
      have hg := mul_zpow_eq_grid 1 24 (ulpExp (L : ℚ)) (by omega)
      have e : ((1 : ℤ) : ℚ) * (2 : ℚ) ^ (24 : ℤ) = 16777216 := by norm_num
      rw [e] at hg
      have := le_nearestGLfloat (L : ℚ) _ (by rw [← hg]; exact hLq)
      rw [← hg] at this
      exact this
    have hDpos : (0 : ℚ) < nearestGLfloat (L : ℚ) := lt_of_lt_of_le (by norm_num) hD
    have hq0 : (0 : ℚ) ≤ (n : ℚ) / nearestGLfloat (L : ℚ) := by positivity
    have hnq : (n : ℚ) ≤ 8388607 := by
      have : n ≤ 8388607 := by omega
      exact_mod_cast this
    have hq1 : (n : ℚ) / nearestGLfloat (L : ℚ) ≤ 8388607 / 16777216 := by
      rw [div_le_iff₀ hDpos]
      nlinarith
    have he : ulpExp ((n : ℚ) / nearestGLfloat (L : ℚ)) ≤ -25 := by
      apply ulpExp_le_of_lt _ _ (by norm_num)
      rw [abs_of_nonneg hq0]
      norm_num
      linarith
    have hg := mul_zpow_eq_grid 8388607 (-24) (ulpExp ((n : ℚ) / nearestGLfloat (L : ℚ)))
      (by omega)
    have e : ((8388607 : ℤ) : ℚ) * (2 : ℚ) ^ (-24 : ℤ) = 8388607 / 16777216 := by norm_num
    rw [e] at hg
    have hup := nearestGLfloat_le ((n : ℚ) / nearestGLfloat (L : ℚ)) _ (by rw [← hg]; exact hq1)
    rw [← hg] at hup
    have h0 := nearestGLfloat_nonneg _ hq0
    have hj : (2 * n + L) / (2 * L) = 0 := Nat.div_eq_of_lt (by omega)
    unfold roundf
    rw [if_pos h0, hj]
    norm_cast
    rw [Int.floor_eq_iff]
    push_cast
    constructor <;> linarith

/-! ## Lemmas on the constructor in binary32 -/

theorem nearestGLfloat_zero : nearestGLfloat 0 = 0 := by
  unfold nearestGLfloat
  simp [roundHalfEven]

/-- A bound that is a multiple of a power of two no finer than the grid is kept by the
rounding. -/
theorem abs_nearestGLfloat_le_mul (x : ℚ) (M : ℕ) (k : ℤ) (he : ulpExp x ≤ k)
    (hx : |x| ≤ (M : ℚ) * (2 : ℚ) ^ k) : |nearestGLfloat x| ≤ (M : ℚ) * (2 : ℚ) ^ k := by
  have hg := mul_zpow_eq_grid (M : ℤ) k (ulpExp x) he
  rw [Int.cast_natCast] at hg
  obtain ⟨h1, h2⟩ := abs_le.mp hx
  rw [abs_le]
  constructor
  · have := le_nearestGLfloat x (-((M : ℤ) * 2 ^ (k - ulpExp x).toNat))
      (by rw [Int.cast_neg, neg_mul, ← hg]; exact h1)
    rw [Int.cast_neg, neg_mul, ← hg] at this
    exact this
  · have := nearestGLfloat_le x ((M : ℤ) * 2 ^ (k - ulpExp x).toNat) (by rw [← hg]; exact h2)
    rw [← hg] at this
    exact this

/-- A finite result of a binary32 operation, with its bound. -/
theorem roundGLfloat_of_abs_le (x : ℚ) (j : ℤ) (hj : -149 ≤ j) (hj2 : j ≤ 127)
    (hx : |x| ≤ (2 : ℚ) ^ j) :
    roundGLfloat x = some (nearestGLfloat x) ∧ |nearestGLfloat x| ≤ (2 : ℚ) ^ j :=
  ⟨roundGLfloat_eq_some x j hj hj2 hx, abs_nearestGLfloat_le x j hj hx⟩

theorem roundGLfloat_eq_nearest (x r : ℚ) (h : roundGLfloat x = some r) : r = nearestGLfloat x :=
  ((roundGLfloat_eq_some_iff x r).mp h).2.symm

theorem divGLfloat_eq_some (a b r : ℚ) (h : divGLfloat a b = some r) :
    b ≠ 0 ∧ r = nearestGLfloat (a / b) := by
  unfold divGLfloat at h
  split_ifs at h with hb
  exact ⟨hb, roundGLfloat_eq_nearest _ _ h⟩

theorem setupViewsGLfloat_map_nBeams (n : ℕ) (f c : ℚ) (l : List SonarView) :
    ∀ (acc : ℚ) (r : List SonarView), setupViewsGLfloat n f c acc l = some r →
      r.map SonarView.nBeams = l.map SonarView.nBeams := by
  induction l with
  | nil =>
    intro acc r h
    simp only [setupViewsGLfloat, Option.some.injEq] at h
    rw [← h]
  | cons x xs ih =>
    intro acc r h
    simp only [setupViewsGLfloat, Option.bind_eq_bind, Option.bind_eq_some, Option.pure_def,
      Option.some.injEq] at h
    obtain ⟨a, -, b, -, c', -, view, -, w, -, acc', -, vs, hvs, rfl⟩ := h
    simp [ih acc' vs hvs]

/-- What the binary32 constructor computes, step by step. -/
theorem fls_ctorGLfloat_steps (h v : ℚ) (n b : ℕ) (s : OpenGLFLS)
    (hs : OpenGLFLS.ctorGLfloat h v n b = some s) :
    ∃ fovx q nViews q1 beams1,
      radiansGLfloat h = some fovx ∧
      divGLfloat h FLS_MAX_SINGLE_FOV = some q ∧
      castGLuint (ceilf q) = some nViews ∧
      divGLfloat (nearestGLfloat n) (nearestGLfloat nViews) = some q1 ∧
      castGLuint (roundf q1) = some beams1 ∧ 0 < n ∧
      s.nBeams_ = n ∧ s.fov_.1 = fovx ∧
      s.nViewBeams_ = max beams1 (subGLuint n (mulGLuint beams1 (subGLuint nViews 1))) ∧
      s.views_.map SonarView.nBeams
        = List.replicate (subGLuint nViews 1) beams1
          ++ [subGLuint n (mulGLuint beams1 (subGLuint nViews 1))] := by
  simp only [OpenGLFLS.ctorGLfloat, Option.bind_eq_bind, Option.bind_eq_some, Option.map_eq_some',
    Option.pure_def, Option.some.injEq] at hs
  obtain ⟨t1, -, t2, -, _, -, fovx, hfx, fovy, -, q, hq, nViews, hnv, q1, hq1, beams1, hb1,
    vfc, hvfc, views, hviews, rfl⟩ := hs
  have hn0 : 0 < n := by
    simp only [viewFovOfGLfloat, Option.bind_eq_bind, Option.bind_eq_some] at hvfc
    obtain ⟨q2, hq2, -⟩ := hvfc
    obtain ⟨hne, -⟩ := divGLfloat_eq_some _ _ _ hq2
    rcases Nat.eq_zero_or_pos n with h0 | h0
    · exfalso
      apply hne
      rw [h0]
      simpa using nearestGLfloat_zero
    · exact h0
  refine ⟨fovx, q, nViews, q1, beams1, hfx, hq, hnv, hq1, hb1, hn0, rfl, rfl, rfl, ?_⟩
  rw [setupViewsGLfloat_map_nBeams _ _ _ _ _ _ hviews, pushViews_map_nBeams]

/-- The beam split of the binary32 constructor: the number of views is the ceiling of the
rounded quotient `h / 20.f`, and `beams1` is `roundf` of the rounded quotient of the
casts. -/
theorem fls_ctorGLfloat_split (h v : ℚ) (n b : ℕ) (s : OpenGLFLS)
    (hs : OpenGLFLS.ctorGLfloat h v n b = some s) :
    ∃ beams1 : ℕ, 0 < s.views_.length ∧ s.views_.length < GLuintSize ∧
      (s.views_.length : ℤ) = ⌈nearestGLfloat (h / 20)⌉ ∧
      castGLuint (roundf (nearestGLfloat (nearestGLfloat n / nearestGLfloat s.views_.length)))
        = some beams1 ∧ 0 < n ∧
      s.nBeams_ = n ∧ radiansGLfloat h = some s.fov_.1 ∧
      s.nViewBeams_ = max beams1 (subGLuint n (mulGLuint beams1 (s.views_.length - 1))) ∧
      s.views_.map SonarView.nBeams
        = List.replicate (s.views_.length - 1) beams1
          ++ [subGLuint n (mulGLuint beams1 (s.views_.length - 1))] := by
  obtain ⟨fovx, q, nViews, q1, beams1, hfx, hq, hnv, hq1, hb1, hn0, e1, e2, e3, e4⟩ :=
    fls_ctorGLfloat_steps h v n b s hs
  obtain ⟨-, hq'⟩ := divGLfloat_eq_some _ _ _ hq
  obtain ⟨hne, hq1'⟩ := divGLfloat_eq_some _ _ _ hq1
  have hv0 : nViews ≠ 0 := by
    rintro rfl
    apply hne
    simpa using nearestGLfloat_zero
  have hvlt := castGLuint_lt _ _ hnv
  rw [castGLuint_ceilf_eq_some] at hnv
  obtain ⟨⟨hc0, -⟩, hc⟩ := hnv
  rw [subGLuint_one nViews hv0 hvlt] at e3 e4
  have hl : s.views_.length = nViews := by
    have := congrArg List.length e4
    simp only [List.length_map, List.length_append, List.length_replicate,
      List.length_singleton] at this
    omega
  rw [hl]
  refine ⟨beams1, Nat.pos_of_ne_zero hv0, hvlt, ?_, ?_, hn0, e1, ?_, e3, e4⟩
  · rw [← hc, hq']
    simp only [FLS_MAX_SINGLE_FOV] at hc0 ⊢
    rw [hq'] at hc0
    simp only [FLS_MAX_SINGLE_FOV] at hc0
    exact Int.toNat_of_nonneg hc0
  · rw [← hq1', hb1]
  · rw [e2, hfx]

theorem castGLuint_roundf_isSome (x : ℚ) (h0 : 0 ≤ x) (h1 : x ≤ 4294967295) :
    ∃ k, castGLuint (roundf x) = some k := by
  unfold roundf
  rw [if_pos h0, castGLuint_intCast, if_pos]
  · exact ⟨_, rfl⟩
  · constructor
    · exact Int.floor_nonneg.mpr (by linarith)
    · have : ⌊x + 1 / 2⌋ ≤ 4294967295 := by
        rw [← Int.lt_add_one_iff, Int.floor_lt]
        push_cast
        linarith
      unfold GLuintSize
      omega

theorem nearestGLfloat_natCast_bounds (k : ℕ) (hk : k < 4294967296) :
    0 ≤ nearestGLfloat (k : ℚ) ∧ nearestGLfloat (k : ℚ) ≤ 4294967296 := by
  have h0 := nearestGLfloat_nonneg (k : ℚ) (by positivity)
  have hq : (k : ℚ) ≤ 4294967296 := by
    have : k ≤ 4294967296 := hk.le
    exact_mod_cast this
  have := abs_nearestGLfloat_le (k : ℚ) 32 (by norm_num)
    (by rw [abs_of_nonneg (by positivity)]; exact hq.trans (by norm_num))
  rw [abs_of_nonneg h0] at this
  norm_num at this
  exact ⟨h0, this⟩

/-- The width of a view is a finite number. -/
theorem viewFovOfGLfloat_isSome (k n : ℕ) (fovx : ℚ) (hk : k < 4294967296) (hn : 0 < n)
    (hf : |fovx| ≤ 16777216) :
    ∃ w, viewFovOfGLfloat k n fovx = some w ∧ |w| ≤ (2 : ℚ) ^ (56 : ℤ) := by
  obtain ⟨k0, k1⟩ := nearestGLfloat_natCast_bounds k hk
  have hn1 := one_le_nearestGLfloat_natCast n hn
  have hnpos : (0 : ℚ) < nearestGLfloat (n : ℚ) := lt_of_lt_of_le (by norm_num) hn1
  have hq : |nearestGLfloat (k : ℚ) / nearestGLfloat (n : ℚ)| ≤ (2 : ℚ) ^ (32 : ℤ) := by
    rw [abs_of_nonneg (div_nonneg k0 hnpos.le), div_le_iff₀ hnpos]
    norm_num
    nlinarith
  obtain ⟨r1, b1⟩ := roundGLfloat_of_abs_le _ 32 (by norm_num) (by norm_num) hq
  have hw : |nearestGLfloat (nearestGLfloat (k : ℚ) / nearestGLfloat (n : ℚ)) * fovx|
      ≤ (2 : ℚ) ^ (56 : ℤ) := by
    rw [abs_mul]
    have : (2 : ℚ) ^ (56 : ℤ) = (2 : ℚ) ^ (32 : ℤ) * 16777216 := by norm_num
    rw [this]
    exact mul_le_mul b1 hf (abs_nonneg _) (by positivity)
  obtain ⟨r2, b2⟩ := roundGLfloat_of_abs_le _ 56 (by norm_num) (by norm_num) hw
  refine ⟨_, ?_, b2⟩
  unfold viewFovOfGLfloat divGLfloat mulGLfloat
  simp only [if_neg hnpos.ne', r1, Option.bind_eq_bind, Option.some_bind, r2]

/-- The loop over the views ends with finite angles when there are at most `2 ^ 20`
views. -/
theorem setupViewsGLfloat_isSome (n : ℕ) (fovx vfc : ℚ) (hn : 0 < n)
    (hf : |fovx| ≤ 16777216) (hc : |vfc| ≤ (2 : ℚ) ^ (56 : ℤ)) (l : List SonarView) :
    ∀ (c : ℕ) (acc : ℚ), (∀ x ∈ l, x.nBeams < 4294967296) →
      |acc| ≤ (c : ℚ) * (2 : ℚ) ^ (56 : ℤ) → c + l.length ≤ 1048576 →
      ∃ r, setupViewsGLfloat n fovx vfc acc l = some r := by
  induction l with
  | nil =>
    intro c acc _ _ _
    exact ⟨[], rfl⟩
  | cons x xs ih =>
    intro c acc hx hacc hlen
    simp only [List.length_cons] at hlen
    have hcq : (c : ℚ) ≤ 1048575 := by
      have : c ≤ 1048575 := by omega
      exact_mod_cast this
    have hacc' : |acc| ≤ (2 : ℚ) ^ (76 : ℤ) := by
      refine hacc.trans ?_
      have : (2 : ℚ) ^ (76 : ℤ) = 1048576 * (2 : ℚ) ^ (56 : ℤ) := by norm_num
      rw [this]
      exact mul_le_mul_of_nonneg_right (by linarith) (by positivity)
    -- `-fov_.x/2.f`
    have ha : |-fovx / 2| ≤ (2 : ℚ) ^ (23 : ℤ) := by
      rw [abs_div, abs_neg, abs_of_pos (by norm_num : (0 : ℚ) < 2)]
      norm_num
      linarith
    obtain ⟨ra, ba⟩ := roundGLfloat_of_abs_le _ 23 (by norm_num) (by norm_num) ha
    -- `... + viewFovAcc`
    have hb : |nearestGLfloat (-fovx / 2) + acc| ≤ (2 : ℚ) ^ (77 : ℤ) := by
      refine (abs_add _ _).trans ?_
      have : (2 : ℚ) ^ (23 : ℤ) ≤ (2 : ℚ) ^ (76 : ℤ) := by norm_num
      have e : (2 : ℚ) ^ (77 : ℤ) = (2 : ℚ) ^ (76 : ℤ) + (2 : ℚ) ^ (76 : ℤ) := by norm_num
      linarith
    obtain ⟨rb, bb⟩ := roundGLfloat_of_abs_le _ 77 (by norm_num) (by norm_num) hb
    -- `viewFovCorr/2.f`
    have hc' : |vfc / 2| ≤ (2 : ℚ) ^ (56 : ℤ) := by
      rw [abs_div, abs_of_pos (by norm_num : (0 : ℚ) < 2)]
      have := abs_nonneg vfc
      linarith
    obtain ⟨rc, bc⟩ := roundGLfloat_of_abs_le _ 56 (by norm_num) (by norm_num) hc'
    have hv : |nearestGLfloat (nearestGLfloat (-fovx / 2) + acc) + nearestGLfloat (vfc / 2)|
        ≤ (2 : ℚ) ^ (78 : ℤ) := by
      refine (abs_add _ _).trans ?_
      have : (2 : ℚ) ^ (56 : ℤ) ≤ (2 : ℚ) ^ (77 : ℤ) := by norm_num
      have e : (2 : ℚ) ^ (78 : ℤ) = (2 : ℚ) ^ (77 : ℤ) + (2 : ℚ) ^ (77 : ℤ) := by norm_num
      linarith
    obtain ⟨rv, -⟩ := roundGLfloat_of_abs_le _ 78 (by norm_num) (by norm_num) hv
    -- `viewFov` and the accumulator
    obtain ⟨w, hw, bw⟩ := viewFovOfGLfloat_isSome x.nBeams n fovx
      (hx x (List.mem_cons_self _ _)) hn hf
    have hsum : |acc + w| ≤ ((c + 1 : ℕ) : ℚ) * (2 : ℚ) ^ (56 : ℤ) := by
      refine (abs_add _ _).trans ?_
      push_cast
      linarith
    have hsum' : |acc + w| ≤ (2 : ℚ) ^ (76 : ℤ) := by
      refine hsum.trans ?_
      have : (2 : ℚ) ^ (76 : ℤ) = 1048576 * (2 : ℚ) ^ (56 : ℤ) := by norm_num
      rw [this]
      refine mul_le_mul_of_nonneg_right ?_ (by positivity)
      push_cast
      linarith
    have racc := roundGLfloat_eq_some _ 76 (by norm_num) (by norm_num) hsum'
    have he : ulpExp (acc + w) ≤ 56 :=
      ulpExp_le_of_lt _ _ (by norm_num) (lt_of_le_of_lt hsum' (by norm_num))
    have bacc := abs_nearestGLfloat_le_mul (acc + w) (c + 1) 56 he hsum
    obtain ⟨r, hr⟩ := ih (c + 1) (nearestGLfloat (acc + w))
      (fun y hy => hx y (List.mem_cons_of_mem _ hy)) bacc (by omega)
    simp only [setupViewsGLfloat, divGLfloat, addGLfloat, if_neg (by norm_num : (2 : ℚ) ≠ 0),
      ra, rb, rc, rv, hw, racc, hr, Option.bind_eq_bind, Option.some_bind, Option.pure_def]
    exact ⟨_, rfl⟩

theorem subGLuint_lt (a c : ℕ) : subGLuint a c < 4294967296 := by
  unfold subGLuint GLuintSize
  exact Nat.mod_lt _ (by norm_num)

theorem nearestGLfloat_FLS_VRES_FACTOR : nearestGLfloat FLS_VRES_FACTOR = 13421773 / 134217728 :=
  nearestGLfloat_one_tenth

/-- The binary32 constructor builds a sonar for a horizontal field of view that is a
binary32 number from `2 ^ -126` to `2 ^ 24` degrees, a vertical field of view of at most
360 degrees, at most `2 ^ 24` bins and fewer than `2 ^ 31` beams. -/
theorem fls_ctorGLfloat_isSome (h v : ℚ) (n b : ℕ) (hf : nearestGLfloat h = h)
    (hlo : 1 / 2 ^ 126 ≤ h) (hhi : h ≤ 16777216) (hv0 : 0 ≤ v) (hv : v ≤ 360)
    (hb : b ≤ 16777216) (hn0 : 0 < n) (hn : n < 2147483648) :
    ∃ s, OpenGLFLS.ctorGLfloat h v n b = some s := by
  have hpos : 0 < h := lt_of_lt_of_le (by positivity) hlo
  have hbq : (b : ℚ) ≤ 16777216 := by exact_mod_cast hb
  -- the beam samples
  have ht1 : |v * (b : ℚ)| ≤ (2 : ℚ) ^ (33 : ℤ) := by
    rw [abs_of_nonneg (by positivity)]
    have : v * (b : ℚ) ≤ 360 * 16777216 := mul_le_mul hv hbq (by positivity) (by norm_num)
    exact this.trans (by norm_num)
  obtain ⟨r1, b1⟩ := roundGLfloat_of_abs_le _ 33 (by norm_num) (by norm_num) ht1
  have p1 := nearestGLfloat_nonneg (v * (b : ℚ)) (by positivity)
  rw [abs_of_nonneg p1] at b1
  have ht2 : |nearestGLfloat (v * (b : ℚ)) * (13421773 / 134217728)| ≤ (2 : ℚ) ^ (30 : ℤ) := by
    rw [abs_of_nonneg (by positivity)]
    norm_num at b1 ⊢
    linarith
  obtain ⟨r2, b2⟩ := roundGLfloat_of_abs_le _ 30 (by norm_num) (by norm_num) ht2
  have p2 := nearestGLfloat_nonneg (nearestGLfloat (v * (b : ℚ)) * (13421773 / 134217728))
    (by positivity)
  rw [abs_of_nonneg p2] at b2
  have r3 := castGLuint_ceilf_isSome _ p2 (b2.trans (by norm_num))
  -- the fields of view
  have hfx : |h * (9370165 / 536870912)| ≤ (2 : ℚ) ^ (24 : ℤ) := by
    rw [abs_of_nonneg (by positivity)]
    norm_num
    linarith
  obtain ⟨r4, b4⟩ := roundGLfloat_of_abs_le _ 24 (by norm_num) (by norm_num) hfx
  have b4' : |nearestGLfloat (h * (9370165 / 536870912))| ≤ 16777216 := b4.trans (by norm_num)
  have hfy : |v * (9370165 / 536870912)| ≤ (2 : ℚ) ^ (9 : ℤ) := by
    rw [abs_of_nonneg (by positivity)]
    norm_num
    linarith
  have r5 := roundGLfloat_eq_some _ 9 (by norm_num) (by norm_num) hfy
  -- the number of views
  have hq : |h / 20| ≤ (2 : ℚ) ^ (20 : ℤ) := by
    rw [abs_of_nonneg (by positivity)]
    norm_num
    linarith
  obtain ⟨r6, b6⟩ := roundGLfloat_of_abs_le _ 20 (by norm_num) (by norm_num) hq
  have p6 := nearestGLfloat_nonneg (h / 20) (by positivity)
  rw [abs_of_nonneg p6] at b6
  have r7 := castGLuint_ceilf_isSome _ p6 (b6.trans (by norm_num))
  have hceil := ceil_nearestGLfloat_div_twenty h hf hlo hhi
  have hc0 : 0 < ⌈h / 20⌉ := Int.ceil_pos.mpr (by positivity)
  have hc1 : ⌈h / 20⌉ ≤ 838861 := Int.ceil_le.mpr (by push_cast; linarith)
  rw [hceil] at r7
  obtain ⟨L, hL⟩ : ∃ L : ℕ, ⌈h / 20⌉.toNat = L := ⟨_, rfl⟩
  have hL0 : 0 < L := by omega
  have hL1 : L ≤ 838861 := by omega
  rw [hL] at r7
  have hLf := nearestGLfloat_natCast L (by omega)
  have hLq : (1 : ℚ) ≤ L := by exact_mod_cast hL0
  -- the beams of a view
  have hnq : (n : ℚ) ≤ (2 : ℚ) ^ (31 : ℤ) := by
    have : n ≤ 2147483648 := hn.le
    have : (n : ℚ) ≤ 2147483648 := by exact_mod_cast this
    exact this.trans (by norm_num)
  have bn := abs_nearestGLfloat_le (n : ℚ) 31 (by norm_num)
    (by rw [abs_of_nonneg (by positivity)]; exact hnq)
  have pn := nearestGLfloat_nonneg (n : ℚ) (by positivity)
  rw [abs_of_nonneg pn] at bn
  have hq1 : |nearestGLfloat (n : ℚ) / (L : ℚ)| ≤ (2 : ℚ) ^ (31 : ℤ) := by
    rw [abs_of_nonneg (by positivity)]
    exact (div_le_self pn hLq).trans bn
  obtain ⟨r8, b8⟩ := roundGLfloat_of_abs_le _ 31 (by norm_num) (by norm_num) hq1
  have p8 := nearestGLfloat_nonneg (nearestGLfloat (n : ℚ) / (L : ℚ)) (by positivity)
  rw [abs_of_nonneg p8] at b8
  obtain ⟨beams1, r9⟩ := castGLuint_roundf_isSome _ p8 (b8.trans (by norm_num))
  have hb1 : beams1 < 4294967296 := castGLuint_lt _ _ r9
  -- the widths and the view angles
  obtain ⟨vfc, r10, b10⟩ := viewFovOfGLfloat_isSome
    (max beams1 (subGLuint n (mulGLuint beams1 (subGLuint L 1)))) n
    (nearestGLfloat (h * (9370165 / 536870912)))
    (max_lt hb1 (subGLuint_lt _ _)) hn0 b4'
  obtain ⟨views, r11⟩ := setupViewsGLfloat_isSome n (nearestGLfloat (h * (9370165 / 536870912)))
    vfc hn0 b4' b10 (pushViews L beams1 (subGLuint n (mulGLuint beams1 (subGLuint L 1)))) 0 0
    (by
      intro x hx
      unfold pushViews at hx
      rw [List.mem_append, List.mem_replicate, List.mem_singleton] at hx
      rcases hx with ⟨-, rfl⟩ | rfl
      · exact hb1
      · exact subGLuint_lt _ _)
    (by simp)
    (by
      unfold pushViews
      rw [List.length_append, List.length_replicate, List.length_singleton,
        subGLuint_one L (by omega) (by unfold GLuintSize; omega)]
      omega)
  have m1 : mulGLfloat v (nearestGLfloat (b : ℚ)) = some (nearestGLfloat (v * (b : ℚ))) := by
    rw [nearestGLfloat_natCast b hb]
    exact r1
  have m2 : mulGLfloat (nearestGLfloat (v * (b : ℚ))) (nearestGLfloat FLS_VRES_FACTOR)
      = some (nearestGLfloat (nearestGLfloat (v * (b : ℚ)) * (13421773 / 134217728))) := by
    rw [nearestGLfloat_FLS_VRES_FACTOR]
    exact r2
  have m4 : radiansGLfloat h = some (nearestGLfloat (h * (9370165 / 536870912))) := by
    unfold radiansGLfloat
    rw [nearestGLfloat_radiansFactor]
    exact r4
  have m5 : radiansGLfloat v = some (nearestGLfloat (v * (9370165 / 536870912))) := by
    unfold radiansGLfloat
    rw [nearestGLfloat_radiansFactor]
    exact r5
  have m6 : divGLfloat h FLS_MAX_SINGLE_FOV = some (nearestGLfloat (h / 20)) := by
    unfold divGLfloat FLS_MAX_SINGLE_FOV
    rw [if_neg (by norm_num)]
    exact r6
  have m8 : divGLfloat (nearestGLfloat (n : ℚ)) (nearestGLfloat (L : ℚ))
      = some (nearestGLfloat (nearestGLfloat (n : ℚ) / (L : ℚ))) := by
    unfold divGLfloat
    rw [hLf, if_neg (by positivity)]
    exact r8
  simp only [OpenGLFLS.ctorGLfloat, Option.bind_eq_bind, Option.bind_eq_some, Option.map_eq_some',
    Option.pure_def, Option.some.injEq]
  exact ⟨_, _, m1, _, m2, _, ⟨_, r3, rfl⟩, _, m4, _, m5, _, m6, _, r7, _, m8, _, r9, _, r10,
    _, r11, rfl⟩

/-- The beam split of the binary32 constructor with fewer than `2 ^ 23` beams, in terms
of the number of views that were created. -/
theorem fls_ctorGLfloat_views (h v : ℚ) (n b : ℕ) (s : OpenGLFLS) (hn : n < 8388608)
    (hs : OpenGLFLS.ctorGLfloat h v n b = some s) :
    0 < s.views_.length ∧ s.views_.length < GLuintSize ∧
      (s.views_.length : ℤ) = ⌈nearestGLfloat (h / 20)⌉ ∧ 0 < n ∧
      s.nBeams_ = n ∧ radiansGLfloat h = some s.fov_.1 ∧
      s.nViewBeams_ = max ((2 * n + s.views_.length) / (2 * s.views_.length))
        (subGLuint n (mulGLuint ((2 * n + s.views_.length) / (2 * s.views_.length))
          (s.views_.length - 1))) ∧
      s.views_.map SonarView.nBeams
        = List.replicate (s.views_.length - 1) ((2 * n + s.views_.length) / (2 * s.views_.length))
          ++ [subGLuint n (mulGLuint ((2 * n + s.views_.length) / (2 * s.views_.length))
            (s.views_.length - 1))] := by
  obtain ⟨beams1, h0, hlt, hc, hb, hn0, e1, e2, e3, e4⟩ := fls_ctorGLfloat_split h v n b s hs
  rw [roundf_nearestGLfloat_div n _ hn h0 hlt] at hb
  have hb1 := castGLuint_natCast_eq_some _ _ hb
  subst hb1
  exact ⟨h0, hlt, hc, hn0, e1, e2, e3, e4⟩

/-- Rounding keeps an upper bound that is a binary32 number of the same or a coarser
grid. -/
theorem nearestGLfloat_le_of_le (x : ℚ) (M k : ℤ) (hk : -149 ≤ k)
    (hx : x ≤ (M : ℚ) * (2 : ℚ) ^ k) (hlt : |x| < (2 : ℚ) ^ (k + 24)) :
    nearestGLfloat x ≤ (M : ℚ) * (2 : ℚ) ^ k := by
  have he := ulpExp_le_of_lt x k hk hlt
  have hg := mul_zpow_eq_grid M k (ulpExp x) he
  have := nearestGLfloat_le x _ (by rw [← hg]; exact hx)
  rw [← hg] at this
  exact this

theorem radiansGLfloat_twenty : radiansGLfloat 20 = some (5856353 / 16777216) := by decide!

theorem radiansGLfloat_eq_some (h f : ℚ) (hf : radiansGLfloat h = some f) :
    f = nearestGLfloat (h * (9370165 / 536870912)) := by
  unfold radiansGLfloat mulGLfloat at hf
  rw [nearestGLfloat_radiansFactor] at hf
  exact roundGLfloat_eq_nearest _ _ hf

/-- The upper and lower bound of one rounding of a positive normal number. -/
theorem nearestGLfloat_rel_bounds (x : ℚ) (hx : 1 / 2 ^ 126 ≤ x) :
    x * (1 - 1 / 2 ^ 24) ≤ nearestGLfloat x ∧ nearestGLfloat x ≤ x * (1 + 1 / 2 ^ 24) := by
  have hpos : 0 < x := lt_of_lt_of_le (by positivity) hx
  have h1 := abs_nearestGLfloat_sub_le_mul x (by rw [abs_of_pos hpos]; norm_num at hx ⊢; exact hx)
  rw [abs_of_pos hpos, abs_le] at h1
  constructor
  · have := h1.1
    linarith
  · have := h1.2
    linarith

/-- The width `(GLfloat)k/(GLfloat)n * fov_.x` in binary32 for `k ≤ n < 2 ^ 23`. -/
theorem viewFovOfGLfloat_eq (k n : ℕ) (fovx : ℚ) (hkn : k ≤ n) (hn0 : 0 < n) (hn : n < 8388608)
    (hf : |fovx| ≤ 16777216) :
    viewFovOfGLfloat k n fovx = some (nearestGLfloat (nearestGLfloat ((k : ℚ) / (n : ℚ)) * fovx)) ∧
    0 ≤ nearestGLfloat ((k : ℚ) / (n : ℚ)) ∧ nearestGLfloat ((k : ℚ) / (n : ℚ)) ≤ 1 := by
  have hnq : (0 : ℚ) < n := by exact_mod_cast hn0
  have hkq : (k : ℚ) ≤ n := by exact_mod_cast hkn
  have hA0 : (0 : ℚ) ≤ (k : ℚ) / n := by positivity
  have hA1 : (k : ℚ) / n ≤ 1 := (div_le_one hnq).mpr hkq
  have p := nearestGLfloat_nonneg _ hA0
  have q1 : nearestGLfloat ((k : ℚ) / n) ≤ 1 := by
    have := nearestGLfloat_le_of_le ((k : ℚ) / n) 1 0 (by norm_num) (by simpa using hA1)
      (by rw [abs_of_nonneg hA0]; exact lt_of_le_of_lt hA1 (by norm_num))
    simpa using this
  have r1 := roundGLfloat_eq_some ((k : ℚ) / n) 0 (by norm_num) (by norm_num)
    (by rw [abs_of_nonneg hA0]; simpa using hA1)
  have hw : |nearestGLfloat ((k : ℚ) / n) * fovx| ≤ (2 : ℚ) ^ (24 : ℤ) := by
    rw [abs_mul, abs_of_nonneg p]
    have : nearestGLfloat ((k : ℚ) / n) * |fovx| ≤ 1 * 16777216 :=
      mul_le_mul q1 hf (abs_nonneg _) (by norm_num)
    exact this.trans (by norm_num)
  have r2 := roundGLfloat_eq_some _ 24 (by norm_num) (by norm_num) hw
  refine ⟨?_, p, q1⟩
  unfold viewFovOfGLfloat divGLfloat mulGLfloat
  rw [nearestGLfloat_natCast k (by omega), nearestGLfloat_natCast n (by omega), if_neg hnq.ne', r1]
  simp only [Option.bind_eq_bind, Option.some_bind, r2]

/-- The width of a view in binary32 against 20 degrees: with `k ≤ n < 2 ^ 23` beams of
`n`, a field of view of `h` degrees and `k / n * h ≤ 20 + h * D`, the computed width is at
most `radians(20.f) + fov_.x * D`, up to a factor `1 + 2 ^ -21` for the roundings. -/
theorem viewFovOfGLfloat_le (h : ℚ) (k n : ℕ) (D : ℚ) (hlo : 1 / 2 ^ 126 ≤ h)
    (hkn : k ≤ n) (hn0 : 0 < n) (hn : n < 8388608) (hD : 0 ≤ D)
    (hkey : (k : ℚ) / (n : ℚ) * h ≤ 20 + h * D) :
    nearestGLfloat (nearestGLfloat ((k : ℚ) / (n : ℚ)) * nearestGLfloat (h * (9370165 / 536870912)))
      ≤ (5856353 / 16777216 + nearestGLfloat (h * (9370165 / 536870912)) * D)
        * (1 + 1 / 2 ^ 21) := by
  have hpos : 0 < h := lt_of_lt_of_le (by positivity) hlo
  have hnq : (0 : ℚ) < n := by exact_mod_cast hn0
  have hkq : (k : ℚ) ≤ n := by exact_mod_cast hkn
  have hA0 : (0 : ℚ) ≤ (k : ℚ) / n := by positivity
  have hA1 : (k : ℚ) / n ≤ 1 := (div_le_one hnq).mpr hkq
  have hB0 : (0 : ℚ) ≤ h * (9370165 / 536870912) := by positivity
  have pA := nearestGLfloat_nonneg _ hA0
  have pB := nearestGLfloat_nonneg _ hB0
  have hX : (5856353 : ℚ) / 16777216
      ≤ (5856353 / 16777216 + nearestGLfloat (h * (9370165 / 536870912)) * D)
        * (1 + 1 / 2 ^ 21) := by
    have h1 : (0 : ℚ) ≤ nearestGLfloat (h * (9370165 / 536870912)) * D := mul_nonneg pB hD
    nlinarith
  rcases Nat.eq_zero_or_pos k with hk0 | hk0
  · -- no beams
    subst hk0
    have : nearestGLfloat (((0 : ℕ) : ℚ) / (n : ℚ)) = 0 := by
      simpa using nearestGLfloat_zero
    rw [this, zero_mul, nearestGLfloat_zero]
    exact le_trans (by norm_num) hX
  rcases lt_or_le h 1 with h1 | h1
  · -- less than one degree: the width is below `radians(1.f)`
    have qA : nearestGLfloat ((k : ℚ) / n) ≤ 1 := by
      have := nearestGLfloat_le_of_le ((k : ℚ) / n) 1 0 (by norm_num) (by simpa using hA1)
        (by rw [abs_of_nonneg hA0]; exact lt_of_le_of_lt hA1 (by norm_num))
      simpa using this
    have hB1 : h * (9370165 / 536870912) ≤ ((9370165 : ℤ) : ℚ) * (2 : ℚ) ^ (-29 : ℤ) := by
      norm_num
      linarith
    have qB := nearestGLfloat_le_of_le _ 9370165 (-29) (by norm_num) hB1
      (by rw [abs_of_nonneg hB0]; norm_num; linarith)
    have hC0 : 0 ≤ nearestGLfloat ((k : ℚ) / n) * nearestGLfloat (h * (9370165 / 536870912)) :=
      mul_nonneg pA pB
    have hC1 : nearestGLfloat ((k : ℚ) / n) * nearestGLfloat (h * (9370165 / 536870912))
        ≤ ((9370165 : ℤ) : ℚ) * (2 : ℚ) ^ (-29 : ℤ) := by
      calc _ ≤ 1 * (((9370165 : ℤ) : ℚ) * (2 : ℚ) ^ (-29 : ℤ)) :=
            mul_le_mul qA qB pB (by norm_num)
        _ = _ := one_mul _
    have qC := nearestGLfloat_le_of_le _ 9370165 (-29) (by norm_num) hC1
      (by rw [abs_of_nonneg hC0]; exact lt_of_le_of_lt hC1 (by norm_num))
    refine le_trans qC (le_trans ?_ hX)
    norm_num
  · -- from one degree on every rounding is of a normal number
    have hkq1 : (1 : ℚ) ≤ k := by exact_mod_cast hk0
    have hnq1 : (n : ℚ) < 8388608 := by exact_mod_cast hn
    have hA2 : (1 : ℚ) / 8388608 ≤ (k : ℚ) / n := by
      rw [div_le_div_iff₀ (by norm_num) hnq]
      nlinarith
    obtain ⟨a1, a2⟩ := nearestGLfloat_rel_bounds ((k : ℚ) / n) (le_trans (by norm_num) hA2)
    have hB2 : (9370165 : ℚ) / 536870912 ≤ h * (9370165 / 536870912) := by nlinarith
    obtain ⟨b1, b2⟩ := nearestGLfloat_rel_bounds (h * (9370165 / 536870912))
      (le_trans (by norm_num) hB2)
    have a1' : (1 : ℚ) / 8388608 * (1 - 1 / 2 ^ 24) ≤ nearestGLfloat ((k : ℚ) / n) :=
      le_trans (mul_le_mul_of_nonneg_right hA2 (by norm_num)) a1
    have b1' : (9370165 : ℚ) / 536870912 * (1 - 1 / 2 ^ 24)
        ≤ nearestGLfloat (h * (9370165 / 536870912)) :=
      le_trans (mul_le_mul_of_nonneg_right hB2 (by norm_num)) b1
    have hC : 1 / 2 ^ 126
        ≤ nearestGLfloat ((k : ℚ) / n) * nearestGLfloat (h * (9370165 / 536870912)) := by
      calc (1 : ℚ) / 2 ^ 126
          ≤ (1 / 8388608 * (1 - 1 / 2 ^ 24)) * (9370165 / 536870912 * (1 - 1 / 2 ^ 24)) := by
            norm_num
        _ ≤ _ := mul_le_mul a1' b1' (by norm_num) pA
    obtain ⟨-, c2⟩ := nearestGLfloat_rel_bounds _ hC
    -- the exact width against 20 degrees
    have s4 : (k : ℚ) / n * nearestGLfloat (h * (9370165 / 536870912))
        ≤ (5856353 / 16777216 + nearestGLfloat (h * (9370165 / 536870912)) * D)
          * ((1 + 1 / 2 ^ 24) * (1 + 1 / 2 ^ 24)) := by
      have hBh : nearestGLfloat (h * (9370165 / 536870912)) / h
          ≤ 9370165 / 536870912 * (1 + 1 / 2 ^ 24) := by
        rw [div_le_iff₀ hpos]
        linarith
      have hBh0 : 0 ≤ nearestGLfloat (h * (9370165 / 536870912)) / h := div_nonneg pB hpos.le
      have e0 : ∀ B : ℚ, (k : ℚ) / n * B = ((k : ℚ) / n * h) * (B / h) := by
        intro B
        field_simp
        ring
      have e20 : ∀ B : ℚ, (20 + h * D) * (B / h) = 20 * (B / h) + B * D := by
        intro B
        field_simp
        ring
      have e := e0 (nearestGLfloat (h * (9370165 / 536870912)))
      have e2 := e20 (nearestGLfloat (h * (9370165 / 536870912)))
      have h1' : (k : ℚ) / n * nearestGLfloat (h * (9370165 / 536870912))
          ≤ 20 * (nearestGLfloat (h * (9370165 / 536870912)) / h)
            + nearestGLfloat (h * (9370165 / 536870912)) * D := by
        rw [e, ← e2]
        exact mul_le_mul_of_nonneg_right hkey hBh0
      have h2' : 20 * (nearestGLfloat (h * (9370165 / 536870912)) / h)
          ≤ 5856353 / 16777216 * ((1 + 1 / 2 ^ 24) * (1 + 1 / 2 ^ 24)) := by
        calc 20 * (nearestGLfloat (h * (9370165 / 536870912)) / h)
            ≤ 20 * (9370165 / 536870912 * (1 + 1 / 2 ^ 24)) :=
              mul_le_mul_of_nonneg_left hBh (by norm_num)
          _ ≤ _ := by norm_num
      have h3' : (0 : ℚ) ≤ nearestGLfloat (h * (9370165 / 536870912)) * D := mul_nonneg pB hD
      nlinarith
    have hXnn : (0 : ℚ) ≤ 5856353 / 16777216 + nearestGLfloat (h * (9370165 / 536870912)) * D :=
      add_nonneg (by norm_num) (mul_nonneg pB hD)
    generalize (5856353 : ℚ) / 16777216 + nearestGLfloat (h * (9370165 / 536870912)) * D = X
      at s4 hXnn ⊢
    generalize nearestGLfloat (h * (9370165 / 536870912)) = B at *
    generalize nearestGLfloat ((k : ℚ) / n) = A at *
    have s5 : A * B ≤ X * ((1 + 1 / 2 ^ 24) * (1 + 1 / 2 ^ 24)) * (1 + 1 / 2 ^ 24) := by
      calc A * B ≤ ((k : ℚ) / n * (1 + 1 / 2 ^ 24)) * B := mul_le_mul_of_nonneg_right a2 pB
        _ = ((k : ℚ) / n * B) * (1 + 1 / 2 ^ 24) := by ring
        _ ≤ _ := mul_le_mul_of_nonneg_right s4 (by norm_num)
    calc nearestGLfloat (A * B) ≤ A * B * (1 + 1 / 2 ^ 24) := c2
      _ ≤ X * ((1 + 1 / 2 ^ 24) * (1 + 1 / 2 ^ 24)) * (1 + 1 / 2 ^ 24) * (1 + 1 / 2 ^ 24) :=
          mul_le_mul_of_nonneg_right s5 (by norm_num)
      _ = X * ((1 + 1 / 2 ^ 24) * (1 + 1 / 2 ^ 24) * (1 + 1 / 2 ^ 24) * (1 + 1 / 2 ^ 24)) := by
          ring
      _ ≤ X * (1 + 1 / 2 ^ 21) := mul_le_mul_of_nonneg_left (by norm_num) hXnn

/-- The width of `k` beams of `n` in binary32, from integer bounds on the beam split. -/
theorem fls_width_le (h : ℚ) (k n L : ℕ) (e : ℚ) (hlo : 1 / 2 ^ 126 ≤ h) (hhi : h ≤ 16777216)
    (hL : 0 < L) (hh : h ≤ 20 * (L : ℚ)) (hkn : k ≤ n) (hn0 : 0 < n) (hn : n < 8388608)
    (he : 0 ≤ e) (hk : 2 * (k : ℚ) * L ≤ 2 * n + L * e) :
    ∃ w, viewFovOfGLfloat k n (nearestGLfloat (h * (9370165 / 536870912))) = some w ∧
      w ≤ (5856353 / 16777216 + nearestGLfloat (h * (9370165 / 536870912)) * e / (2 * n))
        * (1 + 1 / 2 ^ 21) := by
  have hpos : 0 < h := lt_of_lt_of_le (by positivity) hlo
  have hn' : (0 : ℚ) < n := by exact_mod_cast hn0
  have hL' : (0 : ℚ) < L := by exact_mod_cast hL
  have hF : |nearestGLfloat (h * (9370165 / 536870912))| ≤ 16777216 := by
    have := abs_nearestGLfloat_le (h * (9370165 / 536870912)) 24 (by norm_num)
      (by rw [abs_of_nonneg (by positivity)]; norm_num; linarith)
    exact this.trans (by norm_num)
  obtain ⟨hw, -, -⟩ := viewFovOfGLfloat_eq k n _ hkn hn0 hn hF
  have key : 2 * (k : ℚ) * h ≤ 40 * n + h * e := by
    have h1 : 2 * (k : ℚ) * L * h ≤ (2 * n + L * e) * h :=
      mul_le_mul_of_nonneg_right hk hpos.le
    have h2 : (2 * (n : ℚ)) * h ≤ (2 * n) * (20 * L) :=
      mul_le_mul_of_nonneg_left hh (by positivity)
    have h3 : (2 * (k : ℚ) * h) * L ≤ (40 * n + h * e) * L := by nlinarith
    exact le_of_mul_le_mul_right h3 hL'
  have hkey : (k : ℚ) / (n : ℚ) * h ≤ 20 + h * (e / (2 * n)) := by
    have e1 : (k : ℚ) / (n : ℚ) * h = (2 * (k : ℚ) * h) / (2 * n) := by
      field_simp
      ring
    have e2 : 20 + h * (e / (2 * n)) = (40 * n + h * e) / (2 * n) := by
      field_simp
      ring
    rw [e1, e2]
    exact div_le_div_of_nonneg_right key (by positivity)
  have := viewFovOfGLfloat_le h k n (e / (2 * n)) hlo hkn hn0 hn (by positivity) hkey
  have e3 : ∀ B : ℚ, B * (e / (2 * n)) = B * e / (2 * n) := fun B => (mul_div_assoc _ _ _).symm
  rw [e3] at this
  exact ⟨_, hw, this⟩

/-- The two constructors agree on the beam split: for a horizontal field of view that is
a binary32 number from `2 ^ -126` to `2 ^ 24` degrees and fewer than `2 ^ 23` beams, the
constructor with binary32 arithmetic and the constructor with exact arithmetic make the
same number of views with the same beam counts. -/
theorem fls_ctorGLfloat_agrees (h v : ℚ) (n b : ℕ) (s s' : OpenGLFLS)
    (hf : roundGLfloat h = some h) (hlo : 1 / 2 ^ 126 ≤ h) (hhi : h ≤ 16777216)
    (hn : n < 8388608) (hs : OpenGLFLS.ctorGLfloat h v n b = some s)
    (hs' : OpenGLFLS.ctor h v n b = some s') :
    s.views_.length = s'.views_.length ∧
    s.views_.map SonarView.nBeams = s'.views_.map SonarView.nBeams ∧
    s.nViewBeams_ = s'.nViewBeams_ := by
  have hf' : nearestGLfloat h = h := (roundGLfloat_eq_nearest h h hf).symm
  obtain ⟨-, -, hc, -, -, -, hvb, hmap⟩ := fls_ctorGLfloat_views h v n b s hn hs
  obtain ⟨-, -, hc', -, -, -, hvb', hmap'⟩ := fls_ctor_views h v n b s' hs'
  rw [ceil_nearestGLfloat_div_twenty h hf' hlo hhi, ← hc'] at hc
  have hl : s.views_.length = s'.views_.length := by exact_mod_cast hc
  rw [hl] at hvb hmap
  exact ⟨hl, hmap.trans hmap'.symm, hvb.trans hvb'.symm⟩

/-- The beam splits of the examples in binary32: 180 degrees with 23 beams, 120 degrees
with 512 beams and 120 degrees with 9 beams give the same views with binary32 rounding as
with exact arithmetic. -/
theorem fls_examples_GLfloat :
    (OpenGLFLS.ctorGLfloat 180 10 23 512).map (fun s => s.views_.map SonarView.nBeams)
      = some [3, 3, 3, 3, 3, 3, 3, 3, 4294967295] ∧
    (OpenGLFLS.ctorGLfloat 120 10 512 512).map (fun s => s.views_.map SonarView.nBeams)
      = some [85, 85, 85, 85, 85, 87] ∧
    (OpenGLFLS.ctorGLfloat 120 10 9 512).map (fun s => s.views_.map SonarView.nBeams)
      = some [2, 2, 2, 2, 2, 4294967295] := by
  refine ⟨?_, ?_, ?_⟩ <;> decide!

/-! ## Forward-looking sonar: theorems -/

/-- Without wrap-around of the last view's count the beam counts of the views sum to the
total number of beams. -/
theorem fls_beam_sum_of_no_wrap (h v : ℚ) (n b : ℕ) (s : OpenGLFLS) (hn : n < 4294967296)
    (hs : OpenGLFLS.ctor h v n b = some s)
    (hw : (2 * n + s.views_.length) / (2 * s.views_.length) * (s.views_.length - 1) ≤ n) :
    (s.views_.map SonarView.nBeams).sum = n := by
  obtain ⟨-, -, -, -, -, -, -, hmap⟩ := fls_ctor_views h v n b s hs
  rw [hmap, mulGLuint_of_le _ _ n hn hw, subGLuint_of_le n _ hn hw]
  simp only [List.sum_append, List.sum_replicate, List.sum_cons, List.sum_nil, smul_eq_mul,
    add_zero]
  rw [Nat.mul_comm]
  omega

/-- C1 (code defect): at a horizontal field of view of 180 degrees and 23 beams the
constructor makes 9 views, gives 3 beams to each of the first eight (23/9 rounds up
to 3) and the unsigned difference 23 - 24 = 4294967295 to the last, so the beam counts
sum to 4294967319 and not to 23. -/
theorem fls_beam_sum_wraps :
    (OpenGLFLS.ctor 180 10 23 512).map
        (fun s => (s.views_.map SonarView.nBeams, (s.views_.map SonarView.nBeams).sum))
      = some ([3, 3, 3, 3, 3, 3, 3, 3, 4294967295], 4294967319) := by
  decide!

/-- Beyond `20 * 2 ^ 23` degrees the quotient of line 62 is rounded to an integer: at
167772208 degrees it is 8388610, one less than the ceiling of the exact quotient. -/
theorem fls_view_count_large_fov :
    (divGLfloat 167772208 FLS_MAX_SINGLE_FOV).bind (fun q => castGLuint (ceilf q))
      = some 8388610 ∧ ⌈(167772208 : ℚ) / 20⌉ = 8388611 := by
  decide!

/-- C3 (as stated, refuted): at 60 degrees and 11 beams there are 3 views and the first
two get 4 beams each, while `floor(11 / 3) = 3`. -/
theorem fls_first_views_not_floor :
    (OpenGLFLS.ctorGLfloat 60 10 11 512).map
        (fun s => (s.views_.length, s.views_.map SonarView.nBeams, 11 / s.views_.length))
      = some (3, [4, 4, 3], 3) := by
  decide!

/-- C3 (amended): with `L` views and `n` beams, every view except the last is assigned
`beams1 = roundf((GLfloat)n / (GLfloat)L)` beams, the binary32 quotient rounded to the
nearest integer, and the last view `n - beams1 * (L - 1)` whenever
`beams1 * (L - 1) ≤ n`; for fewer than `2 ^ 23` beams `beams1` is the exact quotient
rounded to the nearest integer with halves rounded up, `(2 * n + L) / (2 * L)`. -/
theorem fls_beam_split_rounds (h v : ℚ) (n b : ℕ) (s : OpenGLFLS) (hn : n < 4294967296)
    (hs : OpenGLFLS.ctorGLfloat h v n b = some s) :
    (∃ beams1,
      castGLuint (roundf (nearestGLfloat (nearestGLfloat n / nearestGLfloat s.views_.length)))
        = some beams1 ∧
      (∃ last, s.views_.map SonarView.nBeams
        = List.replicate (s.views_.length - 1) beams1 ++ [last]) ∧
      (beams1 * (s.views_.length - 1) ≤ n →
        s.views_.map SonarView.nBeams
          = List.replicate (s.views_.length - 1) beams1
            ++ [n - beams1 * (s.views_.length - 1)])) ∧
    (n < 8388608 →
      (((2 * n + s.views_.length) / (2 * s.views_.length) : ℕ) : ℚ)
          = roundf ((n : ℚ) / (s.views_.length : ℚ)) ∧
      (∃ last, s.views_.map SonarView.nBeams
          = List.replicate (s.views_.length - 1) ((2 * n + s.views_.length) / (2 * s.views_.length))
            ++ [last]) ∧
      ((2 * n + s.views_.length) / (2 * s.views_.length) * (s.views_.length - 1) ≤ n →
        s.views_.map SonarView.nBeams
          = List.replicate (s.views_.length - 1) ((2 * n + s.views_.length) / (2 * s.views_.length))
            ++ [n - (2 * n + s.views_.length) / (2 * s.views_.length) * (s.views_.length - 1)])) := by
  constructor
  · obtain ⟨beams1, h0, hlt, hc, hb, -, e1, e2, e3, e4⟩ := fls_ctorGLfloat_split h v n b s hs
    refine ⟨beams1, hb, ⟨_, e4⟩, fun hw => ?_⟩
    rw [e4, mulGLuint_of_le _ _ n hn hw, subGLuint_of_le n _ hn hw]
  · intro hn'
    obtain ⟨h0, -, -, -, -, -, -, hmap⟩ := fls_ctorGLfloat_views h v n b s hn' hs
    refine ⟨(roundf_natCast_div n _ h0).symm, ⟨_, hmap⟩, fun hw => ?_⟩
    rw [hmap, mulGLuint_of_le _ _ n hn hw, subGLuint_of_le n _ hn hw]

/-- Witness of C3 (amended) at 60 degrees, 11 beams: the views get 4, 4 and 3 beams. -/
theorem fls_beam_split_rounds_witness :
    ∃ s, OpenGLFLS.ctorGLfloat 60 10 11 512 = some s ∧
      s.views_.map SonarView.nBeams
        = List.replicate (s.views_.length - 1) ((2 * 11 + s.views_.length) / (2 * s.views_.length))
          ++ [11 - (2 * 11 + s.views_.length) / (2 * s.views_.length) * (s.views_.length - 1)] := by
  obtain ⟨s, hs⟩ := fls_ctorGLfloat_isSome 60 10 11 512 (by decide!) (by norm_num) (by norm_num)
    (by norm_num) (by norm_num) (by norm_num) (by norm_num) (by norm_num)
  have hl : (s.views_.length : ℤ) = 3 := by
    rw [(fls_ctorGLfloat_split 60 10 11 512 s hs).choose_spec.2.2.1,
      ceil_nearestGLfloat_div_twenty 60 (by decide!) (by norm_num) (by norm_num), Int.ceil_eq_iff]
    norm_num
  have hl' : s.views_.length = 3 := by exact_mod_cast hl
  exact ⟨s, hs, ((fls_beam_split_rounds 60 10 11 512 s (by norm_num) hs).2 (by norm_num)).2.2
    (by rw [hl']; decide)⟩

/-- C4: with a horizontal field of view of 120 degrees and 512 beams, every sonar the
constructor builds has 6 views, the first five with 85 beams and the last with 87. -/
theorem fls_example_120_512 (v : ℚ) (b : ℕ) (s : OpenGLFLS)
    (hs : OpenGLFLS.ctor 120 v 512 b = some s) :
    s.views_.length = 6 ∧ s.views_.map SonarView.nBeams = [85, 85, 85, 85, 85, 87] := by
  obtain ⟨-, -, hc, -, -, -, -, hmap⟩ := fls_ctor_views 120 v 512 b s hs
  have hl : (s.views_.length : ℤ) = 6 := by
    rw [hc, Int.ceil_eq_iff]
    norm_num
  have hl' : s.views_.length = 6 := by exact_mod_cast hl
  rw [hl'] at hmap
  exact ⟨hl', by rw [hmap]; decide⟩

/-- Witness of C4: the constructor builds a sonar for 120 degrees by 10 degrees,
512 beams and 512 bins, and it has the stated views. -/
theorem fls_example_120_512_witness :
    ∃ s, OpenGLFLS.ctor 120 10 512 512 = some s ∧
      s.views_.length = 6 ∧ s.views_.map SonarView.nBeams = [85, 85, 85, 85, 85, 87] := by
  obtain ⟨s, hs⟩ := fls_ctor_isSome 120 10 512 512 (by norm_num) (by norm_num)
    (by norm_num) (by norm_num) (by norm_num) (by norm_num [GLuintSize])
  exact ⟨s, hs, fls_example_120_512 10 512 s hs⟩

/-- C5 (as stated, refuted): at 120 degrees and 512 beams the last view has 87 beams and
its width in binary32 exceeds `radians(20.f)`, and so does `viewFovCorr`; and at 60
degrees and 3 beams, one beam for each of 3 views, the width of every view is
`11712707 / 2 ^ 25`, one unit in the last place above `radians(20.f) = 11712706 / 2 ^ 25`. -/
theorem fls_last_view_wider_than_max :
    (OpenGLFLS.ctorGLfloat 120 10 512 512).map
        (fun s => (s.views_.map (fun x =>
            (s.viewFovGLfloat x).bind (fun w => (radiansGLfloat 20).map (fun m => decide (w ≤ m)))),
          s.viewFovCorrGLfloat.bind (fun w => (radiansGLfloat 20).map (fun m => decide (w ≤ m)))))
      = some ([some true, some true, some true, some true, some true, some false], some false) ∧
    (OpenGLFLS.ctorGLfloat 60 10 3 512).map
        (fun s => ((s.views_.map SonarView.nBeams, s.views_.map (fun x => s.viewFovGLfloat x)),
          radiansGLfloat 20))
      = some (([1, 1, 1], [some (11712707 / 33554432), some (11712707 / 33554432),
          some (11712707 / 33554432)]), some (11712706 / 33554432)) := by
  constructor <;> decide!

/-- C5 (amended): for a horizontal field of view of `h` degrees, `h` a binary32 number
from `2 ^ -126` to `2 ^ 24`, and fewer than `2 ^ 23` beams, with `L` views and `n` beams:
the width in binary32 of a view whose beam count times `L` is at most `n` is at most
`radians(20.f)` times `1 + 2 ^ -21` (the roundings of the float operations), and likewise
`viewFovCorr`; and when the last view's beam count did not wrap, every view and
`viewFovCorr` are at most `radians(20.f) + fov_.x * (L - 1) / (2 * n)`, times
`1 + 2 ^ -21`. -/
theorem fls_view_width_bound (h v : ℚ) (n b : ℕ) (s : OpenGLFLS) (hf : roundGLfloat h = some h)
    (hlo : 1 / 2 ^ 126 ≤ h) (hhi : h ≤ 16777216) (hn : n < 8388608)
    (hs : OpenGLFLS.ctorGLfloat h v n b = some s) :
    ∃ r20, radiansGLfloat 20 = some r20 ∧
      (∀ x ∈ s.views_, x.nBeams * s.views_.length ≤ n →
        ∃ w, s.viewFovGLfloat x = some w ∧ w ≤ r20 * (1 + 1 / 2 ^ 21)) ∧
      (s.nViewBeams_ * s.views_.length ≤ n →
        ∃ w, s.viewFovCorrGLfloat = some w ∧ w ≤ r20 * (1 + 1 / 2 ^ 21)) ∧
      ((2 * n + s.views_.length) / (2 * s.views_.length) * (s.views_.length - 1) ≤ n →
        (∀ x ∈ s.views_, ∃ w, s.viewFovGLfloat x = some w ∧
          w ≤ (r20 + s.fov_.1 * ((s.views_.length : ℚ) - 1) / (2 * n)) * (1 + 1 / 2 ^ 21)) ∧
        ∃ w, s.viewFovCorrGLfloat = some w ∧
          w ≤ (r20 + s.fov_.1 * ((s.views_.length : ℚ) - 1) / (2 * n)) * (1 + 1 / 2 ^ 21)) := by
  have hf' : nearestGLfloat h = h := (roundGLfloat_eq_nearest h h hf).symm
  obtain ⟨hL, -, hc, hn0, hnb, hfov, hvb, hmap⟩ := fls_ctorGLfloat_views h v n b s hn hs
  have hfov' := radiansGLfloat_eq_some h _ hfov
  rw [ceil_nearestGLfloat_div_twenty h hf' hlo hhi] at hc
  have hh : h ≤ 20 * (s.views_.length : ℚ) := by
    have h3 : h / 20 ≤ ((⌈h / 20⌉ : ℤ) : ℚ) := Int.le_ceil _
    rw [← hc] at h3
    simp only [Int.cast_natCast] at h3
    linarith
  have hn32 : n < 4294967296 := by omega
  have small : ∀ k : ℕ, k * s.views_.length ≤ n →
      ∃ w, viewFovOfGLfloat k n s.fov_.1 = some w ∧ w ≤ 5856353 / 16777216 * (1 + 1 / 2 ^ 21) := by
    intro k hk
    have hkn : k ≤ n := le_trans (Nat.le_mul_of_pos_right k hL) hk
    have hkq : ((k * s.views_.length : ℕ) : ℚ) ≤ n := by exact_mod_cast hk
    push_cast at hkq
    obtain ⟨w, hw, hle⟩ := fls_width_le h k n s.views_.length 0 hlo hhi hL hh hkn hn0 hn
      le_rfl (by linarith)
    rw [← hfov'] at hw hle
    refine ⟨w, hw, ?_⟩
    simpa using hle
  refine ⟨_, radiansGLfloat_twenty, fun x _ hx => ?_, fun hx => ?_, fun hw => ?_⟩
  · simp only [OpenGLFLS.viewFovGLfloat, hnb]
    exact small _ hx
  · simp only [OpenGLFLS.viewFovCorrGLfloat, hnb]
    exact small _ hx
  · rw [mulGLuint_of_le _ _ n hn32 hw, subGLuint_of_le n _ hn32 hw] at hvb hmap
    obtain ⟨b1, b1', b2⟩ := split_bounds n s.views_.length hL hw
    have hLq : ((s.views_.length - 1 : ℕ) : ℚ) = (s.views_.length : ℚ) - 1 := by
      rw [Nat.cast_sub hL]; simp
    have hLq0 : (0 : ℚ) ≤ (s.views_.length : ℚ) - 1 := by
      rw [← hLq]; positivity
    have wide : ∀ k : ℕ, k ≤ n →
        2 * k * s.views_.length ≤ 2 * n + s.views_.length * (s.views_.length - 1) →
        ∃ w, viewFovOfGLfloat k n s.fov_.1 = some w ∧
          w ≤ (5856353 / 16777216 + s.fov_.1 * ((s.views_.length : ℚ) - 1) / (2 * n))
            * (1 + 1 / 2 ^ 21) := by
      intro k hkn hk
      have hk' : ((2 * k * s.views_.length : ℕ) : ℚ)
          ≤ ((2 * n + s.views_.length * (s.views_.length - 1) : ℕ) : ℚ) := by exact_mod_cast hk
      push_cast at hk'
      rw [hLq] at hk'
      obtain ⟨w, hw', hle⟩ := fls_width_le h k n s.views_.length ((s.views_.length : ℚ) - 1)
        hlo hhi hL hh hkn hn0 hn hLq0 hk'
      rw [← hfov'] at hw' hle
      exact ⟨w, hw', hle⟩
    have hb1n : (2 * n + s.views_.length) / (2 * s.views_.length) ≤ n := roundHalfUp_le n _ hL
    have hmax : 2 * s.nViewBeams_ * s.views_.length
        ≤ 2 * n + s.views_.length * (s.views_.length - 1) := by
      rw [hvb]
      rcases Nat.lt_or_ge 1 s.views_.length with h1 | h1
      · rcases max_cases ((2 * n + s.views_.length) / (2 * s.views_.length))
          (n - (2 * n + s.views_.length) / (2 * s.views_.length) * (s.views_.length - 1))
          with ⟨e, -⟩ | ⟨e, -⟩
        · rw [e]; exact b1 h1
        · rw [e]; exact b2
      · have h1' : s.views_.length = 1 := by omega
        rw [h1'] at b1' b2 hw ⊢
        rcases max_cases ((2 * n + 1) / (2 * 1)) (n - (2 * n + 1) / (2 * 1) * (1 - 1))
          with ⟨e, -⟩ | ⟨e, -⟩
        · rw [e]; omega
        · rw [e]; exact b2
    have hmaxn : s.nViewBeams_ ≤ n := by
      rw [hvb]
      exact max_le hb1n (Nat.sub_le _ _)
    refine ⟨fun x hx => ?_, ?_⟩
    · simp only [OpenGLFLS.viewFovGLfloat, hnb]
      have hx' : x.nBeams ∈ s.views_.map SonarView.nBeams := List.mem_map_of_mem _ hx
      rw [hmap, List.mem_append, List.mem_replicate, List.mem_singleton] at hx'
      rcases hx' with ⟨hne, e⟩ | e
      · rw [e]; exact wide _ hb1n (b1 (by omega))
      · rw [e]; exact wide _ (Nat.sub_le _ _) b2
    · simp only [OpenGLFLS.viewFovCorrGLfloat, hnb]
      exact wide _ hmaxn hmax

/-- Witness of C5 (amended) at 120 degrees, 512 beams: no wrap, six views. -/
theorem fls_view_width_bound_witness :
    ∃ s r20, OpenGLFLS.ctorGLfloat 120 10 512 512 = some s ∧ radiansGLfloat 20 = some r20 ∧
      (∀ x ∈ s.views_, ∃ w, s.viewFovGLfloat x = some w ∧
        w ≤ (r20 + s.fov_.1 * ((s.views_.length : ℚ) - 1) / (2 * (512 : ℕ))) * (1 + 1 / 2 ^ 21)) ∧
      ∃ w, s.viewFovCorrGLfloat = some w ∧
        w ≤ (r20 + s.fov_.1 * ((s.views_.length : ℚ) - 1) / (2 * (512 : ℕ))) * (1 + 1 / 2 ^ 21) := by
  obtain ⟨s, hs⟩ := fls_ctorGLfloat_isSome 120 10 512 512 (by decide!) (by norm_num) (by norm_num)
    (by norm_num) (by norm_num) (by norm_num) (by norm_num) (by norm_num)
  have hl : (s.views_.length : ℤ) = 6 := by
    rw [(fls_ctorGLfloat_split 120 10 512 512 s hs).choose_spec.2.2.1,
      ceil_nearestGLfloat_div_twenty 120 (by decide!) (by norm_num) (by norm_num), Int.ceil_eq_iff]
    norm_num
  have hl' : s.views_.length = 6 := by exact_mod_cast hl
  obtain ⟨r20, hr, -, -, h3⟩ := fls_view_width_bound 120 10 512 512 s (by decide!) (by norm_num)
    (by norm_num) (by norm_num) hs
  exact ⟨s, r20, hs, hr, h3 (by rw [hl']; decide)⟩

/-! ## Beam samples: theorems -/

theorem msis_ctor_fields (hb vb : ℚ) (n b : ℕ) (r : ℚ × ℚ) (s : OpenGLMSIS)
    (hs : OpenGLMSIS.ctor hb vb n b r = some s) :
    ∃ x y, s.nBeamSamples_ = (min x 2048, min y 2048) ∧ s.currentStep_ = 0 ∧ s.nSteps_ = n := by
  unfold OpenGLMSIS.ctor at hs
  cases h1 : castGLuint (ceilf (hb * (b : ℚ) * MSIS_RES_FACTOR)) with
  | none => simp [h1] at hs
  | some x =>
    cases h2 : castGLuint (ceilf (vb * (b : ℚ) * MSIS_RES_FACTOR)) with
    | none => simp [h1, h2] at hs
    | some y =>
      simp only [h1, h2, Option.map_some', Option.bind_eq_bind, Option.some_bind,
        Option.pure_def, Option.some.injEq] at hs
      subst hs
      exact ⟨x, y, rfl, rfl, rfl⟩

theorem sss_ctor_fields (vb hb : ℚ) (b : ℕ) (t : ℚ) (r : ℚ × ℚ) (f : SonarOutputFormat)
    (s : OpenGLSSS) (hs : OpenGLSSS.ctor vb hb b t r f = some s) :
    ∃ x y, s.nBeamSamples_ = (min x 2048, min y 2048) ∧ s.pingpong_ = 0 := by
  unfold OpenGLSSS.ctor at hs
  cases h1 : castGLuint (ceilf (vb * (b : ℚ) / 2 * SSS_VRES_FACTOR)) with
  | none => simp [h1] at hs
  | some x =>
    cases h2 : castGLuint (ceilf (hb * SSS_HRES_FACTOR)) with
    | none => simp [h1, h2] at hs
    | some y =>
      simp only [h1, h2, Option.map_some', Option.bind_eq_bind, Option.some_bind,
        Option.pure_def, Option.some.injEq] at hs
      subst hs
      exact ⟨x, y, rfl, rfl⟩

/-- The mechanical sonar constructor is defined when the casts are in range. -/
theorem msis_ctor_isSome (hb vb : ℚ) (n b : ℕ) (r : ℚ × ℚ) (h0 : 0 ≤ hb)
    (h1 : hb * (b : ℚ) ≤ 42949672950) (v0 : 0 ≤ vb) (v1 : vb * (b : ℚ) ≤ 42949672950) :
    ∃ s, OpenGLMSIS.ctor hb vb n b r = some s := by
  have e1 : castGLuint (ceilf (hb * (b : ℚ) * MSIS_RES_FACTOR)) = some _ :=
    castGLuint_ceilf_isSome _ (by unfold MSIS_RES_FACTOR; positivity)
      (by unfold MSIS_RES_FACTOR; linarith)
  have e2 : castGLuint (ceilf (vb * (b : ℚ) * MSIS_RES_FACTOR)) = some _ :=
    castGLuint_ceilf_isSome _ (by unfold MSIS_RES_FACTOR; positivity)
      (by unfold MSIS_RES_FACTOR; linarith)
  unfold OpenGLMSIS.ctor
  simp [e1, e2]

/-- The side-scan sonar constructor is defined when the casts are in range. -/
theorem sss_ctor_isSome (vb hb : ℚ) (b : ℕ) (t : ℚ) (r : ℚ × ℚ) (f : SonarOutputFormat)
    (v0 : 0 ≤ vb) (v1 : vb * (b : ℚ) ≤ 42949672950) (h0 : 0 ≤ hb) (h1 : hb ≤ 42949672) :
    ∃ s, OpenGLSSS.ctor vb hb b t r f = some s := by
  have e1 : castGLuint (ceilf (vb * (b : ℚ) / 2 * SSS_VRES_FACTOR)) = some _ :=
    castGLuint_ceilf_isSome _ (by unfold SSS_VRES_FACTOR; positivity)
      (by unfold SSS_VRES_FACTOR; linarith)
  have e2 : castGLuint (ceilf (hb * SSS_HRES_FACTOR)) = some _ :=
    castGLuint_ceilf_isSome _ (by unfold SSS_HRES_FACTOR; positivity)
      (by unfold SSS_HRES_FACTOR; linarith)
  unfold OpenGLSSS.ctor
  simp [e1, e2]

/-- C6: every component of `nBeamSamples_` set by the constructors of the three sonar
variants (FLS: one value; MSIS and SSS: x and y) is at most 2048, for every requested
beam width, field of view and bin count. -/
theorem nBeamSamples_le_2048 :
    (∀ (h v : ℚ) (n b : ℕ) (s : OpenGLFLS),
      OpenGLFLS.ctor h v n b = some s → s.nBeamSamples_ ≤ 2048) ∧
    (∀ (hb vb : ℚ) (n b : ℕ) (r : ℚ × ℚ) (s : OpenGLMSIS),
      OpenGLMSIS.ctor hb vb n b r = some s →
        s.nBeamSamples_.1 ≤ 2048 ∧ s.nBeamSamples_.2 ≤ 2048) ∧
    (∀ (vb hb : ℚ) (b : ℕ) (t : ℚ) (r : ℚ × ℚ) (f : SonarOutputFormat) (s : OpenGLSSS),
      OpenGLSSS.ctor vb hb b t r f = some s →
        s.nBeamSamples_.1 ≤ 2048 ∧ s.nBeamSamples_.2 ≤ 2048) := by
  refine ⟨fun h v n b s hs => ?_, fun hb vb n b r s hs => ?_, fun vb hb b t r f s hs => ?_⟩
  · rw [fls_ctor_eq_some] at hs
    obtain ⟨samples, _, _, _, _, _, _, _, rfl⟩ := hs
    exact min_le_right _ _
  · obtain ⟨x, y, e, -⟩ := msis_ctor_fields hb vb n b r s hs
    rw [e]
    exact ⟨min_le_right _ _, min_le_right _ _⟩
  · obtain ⟨x, y, e, -⟩ := sss_ctor_fields vb hb b t r f s hs
    rw [e]
    exact ⟨min_le_right _ _, min_le_right _ _⟩

/-- Witness of C6: configurations of the three variants whose unclamped sample counts
(3000; 3000 and 9000; 10000 and 9000) exceed 2048. -/
theorem nBeamSamples_le_2048_witness :
    (∃ s, OpenGLFLS.ctor 120 30 512 1000 = some s ∧ s.nBeamSamples_ ≤ 2048) ∧
    (∃ s, OpenGLMSIS.ctor 30 90 400 1000 (1, 50) = some s ∧
      s.nBeamSamples_.1 ≤ 2048 ∧ s.nBeamSamples_.2 ≤ 2048) ∧
    (∃ s, OpenGLSSS.ctor 50 90 2000 30 (1, 50) SonarOutputFormat.U8 = some s ∧
      s.nBeamSamples_.1 ≤ 2048 ∧ s.nBeamSamples_.2 ≤ 2048) := by
  obtain ⟨s1, h1⟩ := fls_ctor_isSome 120 30 512 1000 (by norm_num) (by norm_num)
    (by norm_num) (by norm_num) (by norm_num) (by norm_num [GLuintSize])
  obtain ⟨s2, h2⟩ := msis_ctor_isSome 30 90 400 1000 (1, 50) (by norm_num) (by norm_num)
    (by norm_num) (by norm_num)
  obtain ⟨s3, h3⟩ := sss_ctor_isSome 50 90 2000 30 (1, 50) SonarOutputFormat.U8
    (by norm_num) (by norm_num) (by norm_num) (by norm_num)
  exact ⟨⟨s1, h1, nBeamSamples_le_2048.1 _ _ _ _ s1 h1⟩,
    ⟨s2, h2, nBeamSamples_le_2048.2.1 _ _ _ _ _ s2 h2⟩,
    ⟨s3, h3, nBeamSamples_le_2048.2.2 _ _ _ _ _ _ s3 h3⟩⟩

/-! ## Mechanical sonar: theorems -/

theorem msis_rotationStep_eq (s : OpenGLMSIS) (hn : s.nSteps_ < 4294967296) :
    (s.ComputeOutput.2.rotationStep : ℤ)
      = (s.currentStep_ + ((s.nSteps_ / 2 : ℕ) : ℤ)) % 4294967296 := by
  have e : s.ComputeOutput.2.rotationStep
      = toGLuint (addGLint s.currentStep_ (toGLint (s.nSteps_ / 2))) := by
    unfold OpenGLMSIS.ComputeOutput
    split_ifs <;> rfl
  rw [e]
  unfold toGLuint addGLint toGLint GLuintSize
  rw [if_pos (by omega)]
  omega

/-- C7 (as stated, refuted): with 4 steps and current step 3 the `rotationStep` uniform
is 5, while `(3 + 4 / 2) mod 4 = 1`. -/
theorem msis_rotation_step_not_reduced :
    (OpenGLMSIS.ctor 1 30 4 100 (1, 50)).map
        (fun s => ((s.setSonar.UpdateTransform ⟨1, 50, 1, -180, 180, 3⟩).ComputeOutput.2.rotationStep,
          (3 + 4 / 2) % 4))
      = some (5, 1) := by
  decide!

/-- C7 (amended): the `rotationStep` uniform is `currentStep + stepCount / 2` as an
unsigned 32-bit value, with no reduction modulo `stepCount`; it equals
`(currentStep + stepCount / 2) mod stepCount` when
`0 ≤ currentStep + stepCount / 2 < stepCount`. -/
theorem msis_rotation_step (s : OpenGLMSIS) (h0 : 0 < s.nSteps_)
    (hn : s.nSteps_ < 4294967296) :
    (s.ComputeOutput.2.rotationStep : ℤ)
        = (s.currentStep_ + ((s.nSteps_ / 2 : ℕ) : ℤ)) % 4294967296 ∧
    (0 ≤ s.currentStep_ + ((s.nSteps_ / 2 : ℕ) : ℤ) →
      s.currentStep_ + ((s.nSteps_ / 2 : ℕ) : ℤ) < (s.nSteps_ : ℤ) →
      (s.ComputeOutput.2.rotationStep : ℤ)
          = (s.currentStep_ + ((s.nSteps_ / 2 : ℕ) : ℤ)) % (s.nSteps_ : ℤ) ∧
      (s.ComputeOutput.2.rotationStep : ℤ) = s.currentStep_ + ((s.nSteps_ / 2 : ℕ) : ℤ)) := by
  have e := msis_rotationStep_eq s hn
  refine ⟨e, fun hlo hhi => ?_⟩
  have h1 : (s.currentStep_ + ((s.nSteps_ / 2 : ℕ) : ℤ)) % 4294967296
      = s.currentStep_ + ((s.nSteps_ / 2 : ℕ) : ℤ) :=
    Int.emod_eq_of_lt hlo (by omega)
  rw [e, h1, Int.emod_eq_of_lt hlo hhi]
  exact ⟨rfl, rfl⟩

theorem msis_UpdateTransform_nSteps (s : OpenGLMSIS) (r : MSISReadings) :
    (s.UpdateTransform r).nSteps_ = s.nSteps_ := by
  unfold OpenGLMSIS.UpdateTransform
  dsimp only
  split_ifs <;> rfl

theorem msis_UpdateTransform_currentStep (s : OpenGLMSIS) (r : MSISReadings)
    (hs : s.sonar_ = true) : (s.UpdateTransform r).currentStep_ = r.currentRotationStep := by
  unfold OpenGLMSIS.UpdateTransform
  dsimp only
  split_ifs with h
  · rw [hs] at h; cases h
  all_goals rfl

/-- Witness of C7 (amended): 400 steps, current step -1, column 199. -/
theorem msis_rotation_step_witness :
    ∃ s0, OpenGLMSIS.ctor 1 30 400 100 (1, 50) = some s0 ∧
      ((s0.setSonar.UpdateTransform ⟨1, 50, 1, -180, 180, -1⟩).ComputeOutput.2.rotationStep : ℤ)
        = 199 := by
  obtain ⟨s0, h0⟩ := msis_ctor_isSome 1 30 400 100 (1, 50) (by norm_num) (by norm_num)
    (by norm_num) (by norm_num)
  obtain ⟨-, -, -, -, hn⟩ := msis_ctor_fields _ _ _ _ _ s0 h0
  have hn' : (s0.setSonar.UpdateTransform ⟨1, 50, 1, -180, 180, -1⟩).nSteps_ = 400 := by
    rw [msis_UpdateTransform_nSteps]; exact hn
  have hc : (s0.setSonar.UpdateTransform ⟨1, 50, 1, -180, 180, -1⟩).currentStep_ = -1 :=
    msis_UpdateTransform_currentStep _ _ rfl
  have key := (msis_rotation_step (s0.setSonar.UpdateTransform ⟨1, 50, 1, -180, 180, -1⟩)
    (by rw [hn']; decide) (by rw [hn']; decide)).2 (by rw [hn', hc]; decide)
    (by rw [hn', hc]; decide)
  rw [hn', hc] at key
  exact ⟨s0, h0, key.2.trans (by decide)⟩

/-- C8 (as stated, refuted): with 400 steps and current step 399, which lies in
`[0, 400)`, the rotation column index is 599, outside `[0, 400)`. -/
theorem msis_rotation_step_out_of_range :
    (OpenGLMSIS.ctor 1 30 400 100 (1, 50)).map
        (fun s =>
          (decide (0 ≤ (s.setSonar.UpdateTransform ⟨1, 50, 1, -180, 180, 399⟩).currentStep_ ∧
              (s.setSonar.UpdateTransform ⟨1, 50, 1, -180, 180, 399⟩).currentStep_
                < ((s.setSonar.UpdateTransform ⟨1, 50, 1, -180, 180, 399⟩).nSteps_ : ℤ)),
            (s.setSonar.UpdateTransform ⟨1, 50, 1, -180, 180, 399⟩).ComputeOutput.2.rotationStep,
            (s.setSonar.UpdateTransform ⟨1, 50, 1, -180, 180, 399⟩).nSteps_))
      = some (true, 599, 400) := by
  decide!

/-- C8 (amended): for `stepCount > 0` and every current step with
`-(stepCount / 2) ≤ currentStep < stepCount - stepCount / 2`, the rotation column index
computed by `ComputeOutput` is below `stepCount`. -/
theorem msis_rotation_step_in_range (s : OpenGLMSIS) (h0 : 0 < s.nSteps_)
    (hn : s.nSteps_ < 4294967296)
    (hlo : -((s.nSteps_ / 2 : ℕ) : ℤ) ≤ s.currentStep_)
    (hhi : s.currentStep_ < (s.nSteps_ : ℤ) - ((s.nSteps_ / 2 : ℕ) : ℤ)) :
    s.ComputeOutput.2.rotationStep < s.nSteps_ := by
  have e := msis_rotationStep_eq s hn
  have h1 : (s.currentStep_ + ((s.nSteps_ / 2 : ℕ) : ℤ)) % 4294967296
      = s.currentStep_ + ((s.nSteps_ / 2 : ℕ) : ℤ) :=
    Int.emod_eq_of_lt (by omega) (by omega)
  rw [h1] at e
  omega

/-- Witness of C8 (amended): 400 steps, current step 199, the last admissible one. -/
theorem msis_rotation_step_in_range_witness :
    ∃ s0, OpenGLMSIS.ctor 1 30 400 100 (1, 50) = some s0 ∧
      (s0.setSonar.UpdateTransform ⟨1, 50, 1, -180, 180, 199⟩).ComputeOutput.2.rotationStep
        < (s0.setSonar.UpdateTransform ⟨1, 50, 1, -180, 180, 199⟩).nSteps_ := by
  obtain ⟨s0, h0⟩ := msis_ctor_isSome 1 30 400 100 (1, 50) (by norm_num) (by norm_num)
    (by norm_num) (by norm_num)
  obtain ⟨-, -, -, -, hn⟩ := msis_ctor_fields _ _ _ _ _ s0 h0
  have hn' : (s0.setSonar.UpdateTransform ⟨1, 50, 1, -180, 180, 199⟩).nSteps_ = 400 := by
    rw [msis_UpdateTransform_nSteps]; exact hn
  have hc : (s0.setSonar.UpdateTransform ⟨1, 50, 1, -180, 180, 199⟩).currentStep_ = 199 :=
    msis_UpdateTransform_currentStep _ _ rfl
  exact ⟨s0, h0, msis_rotation_step_in_range _ (by rw [hn']; decide) (by rw [hn']; decide)
    (by rw [hn', hc]; decide) (by rw [hn', hc]; decide)⟩

/-! ## Side-scan sonar: theorems -/

theorem sss_ComputeOutput_pingpong (s : OpenGLSSS) :
    s.ComputeOutput.1.pingpong_ = if s.pingpong_ + 1 > 1 then 0 else s.pingpong_ + 1 := by
  unfold OpenGLSSS.ComputeOutput
  dsimp only
  split_ifs <;> rfl

theorem sss_DrawLDR_pingpong (s : OpenGLSSS) (u : Bool) :
    (s.DrawLDR u).1.pingpong_ = s.pingpong_ := by
  unfold OpenGLSSS.DrawLDR
  split_ifs <;> rfl

theorem sss_tick_pingpong (s : OpenGLSSS) (u : Bool)
    (hp : s.pingpong_ = 0 ∨ s.pingpong_ = 1) :
    (s.tick u).pingpong_ = 1 - s.pingpong_ := by
  unfold OpenGLSSS.tick
  rw [sss_DrawLDR_pingpong, sss_ComputeOutput_pingpong]
  rcases hp with h | h <;> rw [h] <;> decide

theorem sss_ticks_pingpong (us : List Bool) (s : OpenGLSSS)
    (hp : s.pingpong_ = 0 ∨ s.pingpong_ = 1) :
    (OpenGLSSS.ticks us s).pingpong_ = (s.pingpong_ + (us.length : ℤ)) % 2 := by
  induction us generalizing s with
  | nil =>
    simp only [OpenGLSSS.ticks, List.length_nil, Nat.cast_zero, add_zero]
    rcases hp with h | h <;> rw [h] <;> decide
  | cons u us ih =>
    have ht := sss_tick_pingpong s u hp
    have hp' : (s.tick u).pingpong_ = 0 ∨ (s.tick u).pingpong_ = 1 := by
      rcases hp with h | h <;> rw [ht, h] <;> decide
    simp only [OpenGLSSS.ticks, List.length_cons, Nat.cast_add, Nat.cast_one]
    rw [ih (s.tick u) hp', ht]
    omega

theorem sss_ComputeOutput_sonar (s : OpenGLSSS) :
    s.ComputeOutput.1.sonar_ = s.sonar_ := by
  unfold OpenGLSSS.ComputeOutput
  dsimp only
  split_ifs <;> rfl

theorem sss_ComputeOutput_passes (s : OpenGLSSS) :
    s.ComputeOutput.2
      = [⟨.sonarOutputShader0, .inputRangeIntensityTex_, .outputTex_ 0⟩,
         ⟨.sonarShiftShader, .outputTex_ (s.pingpong_ + 1), .outputTex_ (1 - s.pingpong_ + 1)⟩,
         ⟨.sonarOutputShader1, .outputTex_ 0, .outputTex_ (1 - s.pingpong_ + 1)⟩,
         ⟨.sonarVisualizeShader, .outputTex_ (1 - s.pingpong_ + 1), .displayTex_⟩] := by
  unfold OpenGLSSS.ComputeOutput
  dsimp only
  split_ifs <;> rfl

/-- C9: the ping-pong flag is 0 after construction and, after any run of ticks (with or
without a sensor attached), it equals the number of ticks modulo 2, is 0 or 1, and is
flipped by the next `ComputeOutput` call. -/
theorem sss_pingpong_alternates (vb hb : ℚ) (b : ℕ) (t : ℚ) (r : ℚ × ℚ)
    (f : SonarOutputFormat) (s0 : OpenGLSSS) (hs : OpenGLSSS.ctor vb hb b t r f = some s0) :
    s0.pingpong_ = 0 ∧
    ∀ (attach : Bool) (us : List Bool),
      (OpenGLSSS.ticks us (if attach then s0.setSonar else s0)).pingpong_
          = ((us.length % 2 : ℕ) : ℤ) ∧
      ((OpenGLSSS.ticks us (if attach then s0.setSonar else s0)).pingpong_ = 0 ∨
        (OpenGLSSS.ticks us (if attach then s0.setSonar else s0)).pingpong_ = 1) ∧
      (OpenGLSSS.ticks us (if attach then s0.setSonar else s0)).ComputeOutput.1.pingpong_
          = 1 - (OpenGLSSS.ticks us (if attach then s0.setSonar else s0)).pingpong_ := by
  obtain ⟨-, -, -, h0⟩ := sss_ctor_fields vb hb b t r f s0 hs
  refine ⟨h0, fun attach us => ?_⟩
  have hstart : (if attach then s0.setSonar else s0).pingpong_ = 0 := by
    cases attach
    · exact h0
    · exact h0
  have key := sss_ticks_pingpong us _ (Or.inl hstart)
  rw [hstart] at key
  have hval : (OpenGLSSS.ticks us (if attach then s0.setSonar else s0)).pingpong_
      = ((us.length % 2 : ℕ) : ℤ) := by
    rw [key]; omega
  have h01 : (OpenGLSSS.ticks us (if attach then s0.setSonar else s0)).pingpong_ = 0 ∨
      (OpenGLSSS.ticks us (if attach then s0.setSonar else s0)).pingpong_ = 1 := by
    rw [hval]; omega
  refine ⟨hval, h01, ?_⟩
  rw [sss_ComputeOutput_pingpong]
  rcases h01 with h | h <;> rw [h] <;> decide

/-- Witness of C9: a sonar of 512 bins with a sensor attached, after three ticks. -/
theorem sss_pingpong_alternates_witness :
    ∃ s0, OpenGLSSS.ctor 50 1 512 30 (1, 50) SonarOutputFormat.U8 = some s0 ∧
      s0.pingpong_ = 0 ∧
      (OpenGLSSS.ticks [true, true, true] (if true then s0.setSonar else s0)).pingpong_
        = ((([true, true, true] : List Bool).length % 2 : ℕ) : ℤ) := by
  obtain ⟨s0, h0⟩ := sss_ctor_isSome 50 1 512 30 (1, 50) SonarOutputFormat.U8
    (by norm_num) (by norm_num) (by norm_num) (by norm_num)
  exact ⟨s0, h0, (sss_pingpong_alternates _ _ _ _ _ _ s0 h0).1,
    ((sss_pingpong_alternates _ _ _ _ _ _ s0 h0).2 true [true, true, true]).1⟩

/-- C10: in a tick that starts with parity `p` (0 or 1) and a sensor attached, the shift
and line stages write `outputTex_[2 - p]`, the visualisation inside `ComputeOutput`
reads `outputTex_[2 - p]`, and the `DrawLDR` call that follows copies that same
`outputTex_[2 - p]` into the output staging buffer. -/
theorem sss_readback_matches_written (s : OpenGLSSS)
    (hp : s.pingpong_ = 0 ∨ s.pingpong_ = 1) (hsonar : s.sonar_ = true) :
    s.ComputeOutput.2
      = [⟨.sonarOutputShader0, .inputRangeIntensityTex_, .outputTex_ 0⟩,
         ⟨.sonarShiftShader, .outputTex_ (s.pingpong_ + 1), .outputTex_ (2 - s.pingpong_)⟩,
         ⟨.sonarOutputShader1, .outputTex_ 0, .outputTex_ (2 - s.pingpong_)⟩,
         ⟨.sonarVisualizeShader, .outputTex_ (2 - s.pingpong_), .displayTex_⟩] ∧
    (s.ComputeOutput.1.DrawLDR true).2
      = [(.outputTex_ (2 - s.pingpong_), .outputPBO_), (.displayTex_, .displayPBO_)] := by
  have e : 1 - s.pingpong_ + 1 = 2 - s.pingpong_ := by ring
  constructor
  · rw [sss_ComputeOutput_passes, e]
  · unfold OpenGLSSS.DrawLDR
    rw [sss_ComputeOutput_sonar, hsonar, sss_ComputeOutput_pingpong]
    rcases hp with h | h <;> rw [h] <;> simp

/-- Witness of C10: the first tick of a sonar with a sensor attached (parity 0) writes,
shows and copies `outputTex_[2]`. -/
theorem sss_readback_matches_written_witness :
    ∃ s0, OpenGLSSS.ctor 50 1 512 30 (1, 50) SonarOutputFormat.U8 = some s0 ∧
      (s0.setSonar.ComputeOutput.1.DrawLDR true).2
        = [(.outputTex_ (2 - s0.setSonar.pingpong_), .outputPBO_), (.displayTex_, .displayPBO_)] := by
  obtain ⟨s0, h0⟩ := sss_ctor_isSome 50 1 512 30 (1, 50) SonarOutputFormat.U8
    (by norm_num) (by norm_num) (by norm_num) (by norm_num)
  obtain ⟨-, -, -, hp⟩ := sss_ctor_fields _ _ _ _ _ _ s0 h0
  exact ⟨s0, h0, (sss_readback_matches_written s0.setSonar (Or.inl hp) rfl).2⟩

/-! ## Side-scan sonar: the shift stage -/

/-- C11: in a tick that starts with parity `p` (0 or 1) the shift stage reads
`outputTex_[p + 1]` and writes `outputTex_[2 - p]`, two different buffers among
`outputTex_[1]` and `outputTex_[2]`; and the shift stage of the next tick reads the
buffer written in this tick and writes the one read in this tick. -/
theorem sss_shift_alternates (s : OpenGLSSS) (u : Bool)
    (hp : s.pingpong_ = 0 ∨ s.pingpong_ = 1) :
    s.ComputeOutput.2.filter (fun p => p.shader = SSSShader.sonarShiftShader)
      = [⟨.sonarShiftShader, .outputTex_ (s.pingpong_ + 1), .outputTex_ (2 - s.pingpong_)⟩] ∧
    s.pingpong_ + 1 ≠ 2 - s.pingpong_ ∧
    (s.pingpong_ + 1 = 1 ∨ s.pingpong_ + 1 = 2) ∧
    (2 - s.pingpong_ = 1 ∨ 2 - s.pingpong_ = 2) ∧
    (s.tick u).ComputeOutput.2.filter (fun p => p.shader = SSSShader.sonarShiftShader)
      = [⟨.sonarShiftShader, .outputTex_ (2 - s.pingpong_), .outputTex_ (s.pingpong_ + 1)⟩] := by
  have ht := sss_tick_pingpong s u hp
  rw [sss_ComputeOutput_passes, sss_ComputeOutput_passes, ht]
  have e1 : 1 - s.pingpong_ + 1 = 2 - s.pingpong_ := by ring
  have e2 : 1 - (1 - s.pingpong_) + 1 = s.pingpong_ + 1 := by ring
  rw [e1, e2]
  refine ⟨by simp [List.filter], by omega, by omega, by omega, by simp [List.filter]⟩

/-- Witness of C11: the first two ticks of a constructed sonar read `outputTex_[1]` then
`outputTex_[2]`. -/
theorem sss_shift_alternates_witness :
    ∃ s0, OpenGLSSS.ctor 50 1 512 30 (1, 50) SonarOutputFormat.U8 = some s0 ∧
      (s0.tick true).ComputeOutput.2.filter (fun p => p.shader = SSSShader.sonarShiftShader)
        = [⟨.sonarShiftShader, .outputTex_ (2 - s0.pingpong_), .outputTex_ (s0.pingpong_ + 1)⟩] := by
  obtain ⟨s0, h0⟩ := sss_ctor_isSome 50 1 512 30 (1, 50) SonarOutputFormat.U8
    (by norm_num) (by norm_num) (by norm_num) (by norm_num)
  obtain ⟨-, -, -, hp⟩ := sss_ctor_fields _ _ _ _ _ _ s0 h0
  exact ⟨s0, h0, (sss_shift_alternates s0 true (Or.inl hp)).2.2.2.2⟩

/-! ## Base class: theorems -/

theorem sonar_needsUpdate_clears (s : OpenGLSonar) : s.needsUpdate.2.needsUpdate_ = false := by
  unfold OpenGLSonar.needsUpdate
  split_ifs with h
  · rfl
  · simpa using h

theorem sonar_needsUpdate_idle (s : OpenGLSonar) (h : s.needsUpdate_ = false) :
    s.needsUpdate.1 = false := by
  unfold OpenGLSonar.needsUpdate
  rw [if_neg (by simp [h])]

theorem sonar_polls_idle (es : List Bool) (s : OpenGLSonar) (h : s.needsUpdate_ = false) :
    ∀ b ∈ (OpenGLSonar.polls es s).1, b = false := by
  induction es generalizing s with
  | nil => simp [OpenGLSonar.polls]
  | cons e es ih =>
    intro b hb
    simp only [OpenGLSonar.polls, List.mem_cons] at hb
    rcases hb with hb | hb
    · rw [hb]
      exact sonar_needsUpdate_idle _ h
    · exact ih _ (sonar_needsUpdate_clears _) b hb

theorem fisheye_needsUpdate_clears (s : OpenGLFisheyeCamera) :
    s.needsUpdate.2._needsUpdate = false := by
  unfold OpenGLFisheyeCamera.needsUpdate
  split_ifs with h
  · rfl
  · simpa using h

theorem fisheye_needsUpdate_idle (s : OpenGLFisheyeCamera) (h : s._needsUpdate = false) :
    s.needsUpdate.1 = false := by
  unfold OpenGLFisheyeCamera.needsUpdate
  rw [if_neg (by simp [h])]

theorem fisheye_polls_idle (es : List Bool) (s : OpenGLFisheyeCamera)
    (h : s._needsUpdate = false) :
    ∀ b ∈ (OpenGLFisheyeCamera.polls es s).1, b = false := by
  induction es generalizing s with
  | nil => simp [OpenGLFisheyeCamera.polls]
  | cons e es ih =>
    intro b hb
    simp only [OpenGLFisheyeCamera.polls, List.mem_cons] at hb
    rcases hb with hb | hb
    · rw [hb]
      exact fisheye_needsUpdate_idle _ h
    · exact ih _ (fisheye_needsUpdate_clears _) b hb

theorem count_true_le_one (b : Bool) (l : List Bool) (h : ∀ x ∈ l, x = false) :
    (b :: l).count true ≤ 1 := by
  have h0 : l.count true = 0 := by
    rw [List.count_eq_zero]
    intro hm
    exact Bool.noConfusion (h true hm)
  rw [List.count_cons, h0]
  split_ifs <;> omega

/-- C12: for the sonar view and for the fisheye view, in any run of `needsUpdate` calls
every call after the first returns false (no `Update` came in between), whatever the
`enabled` flag is at each call; hence after one `Update` at most one of the following
calls returns true. -/
theorem needsUpdate_edge_triggered :
    (∀ (s : OpenGLSonar) (es : List Bool),
      (∀ b ∈ (OpenGLSonar.polls es s).1.tail, b = false) ∧
      (OpenGLSonar.polls es s.Update).1.count true ≤ 1) ∧
    (∀ (s : OpenGLFisheyeCamera) (es : List Bool),
      (∀ b ∈ (OpenGLFisheyeCamera.polls es s).1.tail, b = false) ∧
      (OpenGLFisheyeCamera.polls es s.Update).1.count true ≤ 1) := by
  have hs : ∀ (s : OpenGLSonar) (es : List Bool),
      ∀ b ∈ (OpenGLSonar.polls es s).1.tail, b = false := by
    intro s es
    cases es with
    | nil => simp [OpenGLSonar.polls]
    | cons e es =>
      simp only [OpenGLSonar.polls, List.tail_cons]
      exact sonar_polls_idle es _ (sonar_needsUpdate_clears _)
  have hf : ∀ (s : OpenGLFisheyeCamera) (es : List Bool),
      ∀ b ∈ (OpenGLFisheyeCamera.polls es s).1.tail, b = false := by
    intro s es
    cases es with
    | nil => simp [OpenGLFisheyeCamera.polls]
    | cons e es =>
      simp only [OpenGLFisheyeCamera.polls, List.tail_cons]
      exact fisheye_polls_idle es _ (fisheye_needsUpdate_clears _)
  refine ⟨fun s es => ⟨hs s es, ?_⟩, fun s es => ⟨hf s es, ?_⟩⟩
  · cases es with
    | nil => simp [OpenGLSonar.polls]
    | cons e es =>
      have := hs s.Update (e :: es)
      simp only [OpenGLSonar.polls, List.tail_cons] at this ⊢
      exact count_true_le_one _ _ this
  · cases es with
    | nil => simp [OpenGLFisheyeCamera.polls]
    | cons e es =>
      have := hf s.Update (e :: es)
      simp only [OpenGLFisheyeCamera.polls, List.tail_cons] at this ⊢
      exact count_true_le_one _ _ this

/-- C13: `needsUpdate` returns false whenever the view is disabled, and returns true
exactly when the pending flag is set and the view is enabled. -/
theorem needsUpdate_gated (s : OpenGLSonar) :
    (s.enabled = false → s.needsUpdate.1 = false) ∧
    (s.needsUpdate.1 = true ↔ s.needsUpdate_ = true ∧ s.enabled = true) := by
  unfold OpenGLSonar.needsUpdate
  constructor
  · intro h
    split_ifs
    · exact h
    · rfl
  · split_ifs with h
    · simp [h]
    · simp [h]

/-- Witness of C13: a disabled view with a pending update reports none. -/
theorem needsUpdate_gated_witness :
    ((OpenGLSonar.ctor false ⟨0, 0, 0⟩ ⟨0, 0, -1⟩ ⟨0, 1, 0⟩).Update).needsUpdate.1 = false :=
  (needsUpdate_gated ((OpenGLSonar.ctor false ⟨0, 0, 0⟩ ⟨0, 0, -1⟩ ⟨0, 1, 0⟩).Update)).1 rfl

/-- C14: `SetupSonar(eye, dir, up)` leaves the committed eye, direction and up vectors
and the view matrix as they were. -/
theorem SetupSonar_keeps_committed (s : OpenGLSonar) (eye dir up : Vec3) :
    (s.SetupSonar eye dir up).GetEyePosition = s.GetEyePosition ∧
    (s.SetupSonar eye dir up).GetLookingDirection = s.GetLookingDirection ∧
    (s.SetupSonar eye dir up).GetUpDirection = s.GetUpDirection ∧
    (s.SetupSonar eye dir up).GetViewMatrix = s.GetViewMatrix :=
  ⟨rfl, rfl, rfl, rfl⟩

theorem fls_commit_base {α : Type} (v : OpenGLFLSView α) (r : SonarReadings) (m1 m2 : Bool) :
    (v.UpdateTransform r m1 m2).1.toOpenGLSonar = v.toOpenGLSonar.UpdateTransform := by
  unfold OpenGLFLSView.UpdateTransform
  by_cases h0 : v.sonar_ = true <;> by_cases h1 : r.rangeMin = v.range_.1 <;>
    by_cases h2 : r.rangeMax = v.range_.2 <;> by_cases h3 : r.gain = v.gain_ <;>
    by_cases h4 : v.newData_ = true <;> simp [h0, h1, h2, h3, h4]

theorem msis_commit_base (v : OpenGLMSISView) (r : MSISReadings) (m1 m2 : Bool) :
    (v.UpdateTransform r m1 m2).1.toOpenGLSonar = v.toOpenGLSonar.UpdateTransform := by
  unfold OpenGLMSISView.UpdateTransform
  by_cases h0 : v.msis.sonar_ = true <;>
    by_cases h1 : r.rangeMin = v.msis.range_.1 ∧ r.rangeMax = v.msis.range_.2 <;>
    by_cases h4 : v.newData_ = true <;> simp [h0, h1, h4] <;> split_ifs <;> rfl

theorem sss_commit_base (v : OpenGLSSSView) (r : SonarReadings) (m1 m2 : Bool) :
    (v.UpdateTransform r m1 m2).1.toOpenGLSonar = v.toOpenGLSonar.UpdateTransform := by
  unfold OpenGLSSSView.UpdateTransform
  dsimp only
  split_ifs <;> rfl

/-- C15: a commit makes the committed eye, direction and up equal to the staged values
and the view matrix equal to `lookAt(eye, eye + dir, up)`; and `UpdateTransform` of each
of the three variants, with or without a sensor, leaves the base part exactly as the base
commit makes it. -/
theorem commit_takes_staged :
    (∀ (s : OpenGLSonar) (eye dir up : Vec3),
      ((s.SetupSonar eye dir up).UpdateTransform).GetEyePosition = eye ∧
      ((s.SetupSonar eye dir up).UpdateTransform).GetLookingDirection = dir ∧
      ((s.SetupSonar eye dir up).UpdateTransform).GetUpDirection = up ∧
      ((s.SetupSonar eye dir up).UpdateTransform).GetViewMatrix
        = { eye := eye, center := eye.add dir, up := up }) ∧
    (∀ (α : Type) (v : OpenGLFLSView α) (r : SonarReadings) (m1 m2 : Bool),
      (v.UpdateTransform r m1 m2).1.toOpenGLSonar = v.toOpenGLSonar.UpdateTransform) ∧
    (∀ (v : OpenGLMSISView) (r : MSISReadings) (m1 m2 : Bool),
      (v.UpdateTransform r m1 m2).1.toOpenGLSonar = v.toOpenGLSonar.UpdateTransform) ∧
    (∀ (v : OpenGLSSSView) (r : SonarReadings) (m1 m2 : Bool),
      (v.UpdateTransform r m1 m2).1.toOpenGLSonar = v.toOpenGLSonar.UpdateTransform) :=
  ⟨fun _ _ _ _ => ⟨rfl, rfl, rfl, rfl⟩, fun _ v r m1 m2 => fls_commit_base v r m1 m2,
    msis_commit_base, sss_commit_base⟩

/-! ## Commit of the settings: theorems -/

theorem fls_commit_settings {α : Type} (v : OpenGLFLSView α) (r : SonarReadings) (m1 m2 : Bool)
    (hs : v.sonar_ = true) :
    (v.UpdateTransform r m1 m2).1.range_ = (r.rangeMin, r.rangeMax) ∧
    (v.UpdateTransform r m1 m2).1.gain_ = r.gain ∧
    (v.UpdateTransform r m1 m2).1.settingsUpdated_
      = (v.settingsUpdated_ || decide (r.rangeMin ≠ v.range_.1) || decide (r.rangeMax ≠ v.range_.2)
          || decide (r.gain ≠ v.gain_)) ∧
    (v.UpdateTransform r m1 m2).1.newData_ = false ∧
    (v.UpdateTransform r m1 m2).1.sonar_ = true := by
  unfold OpenGLFLSView.UpdateTransform
  by_cases h1 : r.rangeMin = v.range_.1 <;> by_cases h2 : r.rangeMax = v.range_.2 <;>
    by_cases h3 : r.gain = v.gain_ <;> by_cases h4 : v.newData_ = true <;>
    simp [h1, h2, h3, h4, hs, Prod.ext_iff]

theorem fls_commit_projection {α : Type} (v : OpenGLFLSView α) (r : SonarReadings)
    (m1 m2 : Bool) (hs : v.sonar_ = true) :
    (v.UpdateTransform r m1 m2).2.projectionUpdates
      = (if r.rangeMin ≠ v.range_.1 ∨ r.rangeMax ≠ v.range_.2 then 1 else 0) ∧
    (v.UpdateTransform r m1 m2).2.fanUploads
      = (if r.rangeMin ≠ v.range_.1 ∨ r.rangeMax ≠ v.range_.2 then 1 else 0) ∧
    (r.rangeMin = v.range_.1 → r.rangeMax = v.range_.2 →
      (v.UpdateTransform r m1 m2).1.projection_ = v.projection_ ∧
      (v.UpdateTransform r m1 m2).1.displayVBO_ = v.displayVBO_) := by
  unfold OpenGLFLSView.UpdateTransform
  by_cases h1 : r.rangeMin = v.range_.1 <;> by_cases h2 : r.rangeMax = v.range_.2 <;>
    by_cases h3 : r.gain = v.gain_ <;> by_cases h4 : v.newData_ = true <;>
    simp [h1, h2, h3, h4, hs]

theorem fls_commit_delivered {α : Type} (v : OpenGLFLSView α) (r : SonarReadings)
    (m1 m2 : Bool) (hs : v.sonar_ = true) :
    (v.UpdateTransform r m1 m2).2.delivered
      = (if v.newData_ then
          (if m1 then [(v.displayPBO_, 0)] else []) ++ (if m2 then [(v.outputPBO_, 1)] else [])
         else []) ∧
    (v.UpdateTransform r m1 m2).1.outputPBO_ = v.outputPBO_ ∧
    (v.UpdateTransform r m1 m2).1.displayPBO_ = v.displayPBO_ ∧
    (v.UpdateTransform r m1 m2).1.outputTex1 = v.outputTex1 ∧
    (v.UpdateTransform r m1 m2).1.displayTex_ = v.displayTex_ := by
  unfold OpenGLFLSView.UpdateTransform
  by_cases h1 : r.rangeMin = v.range_.1 <;> by_cases h2 : r.rangeMax = v.range_.2 <;>
    by_cases h3 : r.gain = v.gain_ <;> by_cases h4 : v.newData_ = true <;>
    simp [h1, h2, h3, h4, hs]

theorem msis_UpdateTransform_settings (s : OpenGLMSIS) (r : MSISReadings) (hs : s.sonar_ = true) :
    (s.UpdateTransform r).range_ = (r.rangeMin, r.rangeMax) ∧
    (s.UpdateTransform r).gain_ = r.gain ∧
    (s.UpdateTransform r).rotationLimits_ = (r.rotL1, r.rotL2) ∧
    (s.UpdateTransform r).settingsUpdated_
      = (s.settingsUpdated_ || decide (s.rotationLimits_.1 ≠ r.rotL1 ∨ s.rotationLimits_.2 ≠ r.rotL2)
          || decide (r.rangeMin ≠ s.range_.1) || decide (r.rangeMax ≠ s.range_.2)
          || decide (r.gain ≠ s.gain_)) ∧
    (s.UpdateTransform r).sonar_ = true ∧
    (s.UpdateTransform r).fov_ = s.fov_ := by
  unfold OpenGLMSIS.UpdateTransform
  by_cases h0 : s.rotationLimits_.1 = r.rotL1 <;> by_cases h0' : s.rotationLimits_.2 = r.rotL2 <;>
    by_cases h1 : r.rangeMin = s.range_.1 <;> by_cases h2 : r.rangeMax = s.range_.2 <;>
    by_cases h3 : r.gain = s.gain_ <;>
    simp [h0, h0', h1, h2, h3, hs, Prod.ext_iff]

theorem msis_commit_view (v : OpenGLMSISView) (r : MSISReadings) (m1 m2 : Bool)
    (hs : v.msis.sonar_ = true) :
    (v.UpdateTransform r m1 m2).1.msis = v.msis.UpdateTransform r ∧
    (v.UpdateTransform r m1 m2).1.newData_ = false ∧
    (v.UpdateTransform r m1 m2).2.projectionUpdates
      = (if r.rangeMin ≠ v.msis.range_.1 ∨ r.rangeMax ≠ v.msis.range_.2 then 1 else 0) ∧
    (v.UpdateTransform r m1 m2).2.fanUploads
      = (if r.rangeMin ≠ v.msis.range_.1 ∨ r.rangeMax ≠ v.msis.range_.2 then 1 else 0) ∧
    (r.rangeMin = v.msis.range_.1 → r.rangeMax = v.msis.range_.2 →
      (v.UpdateTransform r m1 m2).1.projection_ = v.projection_ ∧
      (v.UpdateTransform r m1 m2).1.displayVBO_ = v.displayVBO_) ∧
    (v.UpdateTransform r m1 m2).2.delivered
      = (if v.newData_ then
          (if m1 then [(SSSBuffer.displayPBO_, 0)] else [])
            ++ (if m2 then [(SSSBuffer.outputPBO_, 1)] else [])
         else []) := by
  unfold OpenGLMSISView.UpdateTransform
  by_cases h1 : r.rangeMin = v.msis.range_.1 <;> by_cases h2 : r.rangeMax = v.msis.range_.2 <;>
    by_cases h4 : v.newData_ = true <;>
    simp [h1, h2, h4, hs]

theorem sss_UpdateTransform_settings (s : OpenGLSSS) (r : SonarReadings) (m1 m2 : Bool)
    (hs : s.sonar_ = true) :
    (s.UpdateTransform r m1 m2).1.range_ = (r.rangeMin, r.rangeMax) ∧
    (s.UpdateTransform r m1 m2).1.gain_ = r.gain ∧
    (s.UpdateTransform r m1 m2).1.settingsUpdated_
      = (s.settingsUpdated_ || decide (r.rangeMin ≠ s.range_.1)
          || decide (r.rangeMax ≠ s.range_.2)) := by
  unfold OpenGLSSS.UpdateTransform
  by_cases h1 : r.rangeMin = s.range_.1 <;> by_cases h2 : r.rangeMax = s.range_.2 <;>
    by_cases h3 : r.gain = s.gain_ <;> by_cases h4 : s.newData_ = true <;>
    simp [h1, h2, h3, h4, hs, Prod.ext_iff]

theorem sss_commit_view (v : OpenGLSSSView) (r : SonarReadings) (m1 m2 : Bool) :
    (v.UpdateTransform r m1 m2).1.sss = (v.sss.UpdateTransform r m1 m2).1 := by
  unfold OpenGLSSSView.UpdateTransform
  dsimp only
  split_ifs <;> rfl

/-- C16 (as stated, refuted): a side-scan view with a sensor attached, after one
`ComputeOutput` (stored gain 1, settings flag cleared), commits a sensor gain of 2: the
gain is stored but `settingsUpdated_` stays false. -/
theorem sss_gain_change_not_marked :
    (OpenGLSSSView.ctor true ⟨0, 0, 0⟩ ⟨0, 0, -1⟩ ⟨0, 1, 0⟩ 50 1 512 30 (1, 50)
        SonarOutputFormat.U8).map
      (fun v =>
        (v.setSonar.ComputeOutput.1.sss.gain_,
          v.setSonar.ComputeOutput.1.sss.settingsUpdated_,
          (v.setSonar.ComputeOutput.1.UpdateTransform ⟨1, 50, 2⟩ true true).1.sss.gain_,
          (v.setSonar.ComputeOutput.1.UpdateTransform ⟨1, 50, 2⟩ true true).1.sss.settingsUpdated_))
      = some (1, false, 2, false) := by
  decide!

/-- C16 (amended): with a sensor attached, a commit of any variant stores the range and
the gain of the sensor. In the forward-looking and the mechanical view it sets
`settingsUpdated_` when the range minimum, the range maximum or the gain differs from the
stored value. In the side-scan view it sets `settingsUpdated_` when the range minimum or
maximum differs, and a commit with an unchanged range leaves the flag as it was, also
when the gain differs. -/
theorem commit_marks_settings :
    (∀ (α : Type) (v : OpenGLFLSView α) (r : SonarReadings) (m1 m2 : Bool),
      v.sonar_ = true →
        (v.UpdateTransform r m1 m2).1.range_ = (r.rangeMin, r.rangeMax) ∧
        (v.UpdateTransform r m1 m2).1.gain_ = r.gain ∧
        (r.rangeMin ≠ v.range_.1 ∨ r.rangeMax ≠ v.range_.2 ∨ r.gain ≠ v.gain_ →
          (v.UpdateTransform r m1 m2).1.settingsUpdated_ = true)) ∧
    (∀ (v : OpenGLMSISView) (r : MSISReadings) (m1 m2 : Bool),
      v.msis.sonar_ = true →
        (v.UpdateTransform r m1 m2).1.msis.range_ = (r.rangeMin, r.rangeMax) ∧
        (v.UpdateTransform r m1 m2).1.msis.gain_ = r.gain ∧
        (r.rangeMin ≠ v.msis.range_.1 ∨ r.rangeMax ≠ v.msis.range_.2 ∨ r.gain ≠ v.msis.gain_ →
          (v.UpdateTransform r m1 m2).1.msis.settingsUpdated_ = true)) ∧
    (∀ (v : OpenGLSSSView) (r : SonarReadings) (m1 m2 : Bool),
      v.sss.sonar_ = true →
        (v.UpdateTransform r m1 m2).1.sss.range_ = (r.rangeMin, r.rangeMax) ∧
        (v.UpdateTransform r m1 m2).1.sss.gain_ = r.gain ∧
        (r.rangeMin ≠ v.sss.range_.1 ∨ r.rangeMax ≠ v.sss.range_.2 →
          (v.UpdateTransform r m1 m2).1.sss.settingsUpdated_ = true) ∧
        (r.rangeMin = v.sss.range_.1 → r.rangeMax = v.sss.range_.2 →
          (v.UpdateTransform r m1 m2).1.sss.settingsUpdated_ = v.sss.settingsUpdated_)) := by
  refine ⟨fun α v r m1 m2 hs => ?_, fun v r m1 m2 hs => ?_, fun v r m1 m2 hs => ?_⟩
  · obtain ⟨h1, h2, h3, -, -⟩ := fls_commit_settings v r m1 m2 hs
    refine ⟨h1, h2, fun h => ?_⟩
    rw [h3]
    rcases h with h | h | h <;> simp [h]
  · obtain ⟨hm, -⟩ := msis_commit_view v r m1 m2 hs
    obtain ⟨h1, h2, -, h3, -, -⟩ := msis_UpdateTransform_settings v.msis r hs
    rw [hm]
    refine ⟨h1, h2, fun h => ?_⟩
    rw [h3]
    rcases h with h | h | h <;> simp [h]
  · obtain ⟨h1, h2, h3⟩ := sss_UpdateTransform_settings v.sss r m1 m2 hs
    rw [sss_commit_view]
    refine ⟨h1, h2, fun h => ?_, fun ha hb => ?_⟩
    · rw [h3]
      rcases h with h | h <;> simp [h]
    · rw [h3]
      simp [ha, hb]

/-- Witness of C16 (amended): a forward-looking view with stored range (1, 50) and gain
1 commits the sensor range (2, 50). -/
theorem commit_marks_settings_witness :
    ∃ v : OpenGLFLSView ℕ,
      OpenGLFLSView.ctor true ⟨0, 0, 0⟩ ⟨0, 0, -1⟩ ⟨0, 1, 0⟩ 120 10 512 512 (1, 50)
        SonarOutputFormat.U8 = some v ∧
      (v.setSonar.UpdateTransform ⟨2, 50, 1⟩ true true).1.range_ = (2, 50) ∧
      (v.setSonar.UpdateTransform ⟨2, 50, 1⟩ true true).1.settingsUpdated_ = true := by
  have hsome : (OpenGLFLSView.ctor (α := ℕ) true ⟨0, 0, 0⟩ ⟨0, 0, -1⟩ ⟨0, 1, 0⟩ 120 10 512 512
      (1, 50) SonarOutputFormat.U8).isSome = true := by decide!
  obtain ⟨v, hv⟩ := Option.isSome_iff_exists.mp hsome
  have hr : v.setSonar.range_ = (1, 50) := by
    have : (OpenGLFLSView.ctor (α := ℕ) true ⟨0, 0, 0⟩ ⟨0, 0, -1⟩ ⟨0, 1, 0⟩ 120 10 512 512
      (1, 50) SonarOutputFormat.U8).map (fun v => v.setSonar.range_) = some (1, 50) := by decide!
    rw [hv] at this
    simpa using this
  have key := (commit_marks_settings.1 ℕ v.setSonar ⟨2, 50, 1⟩ true true rfl)
  refine ⟨v, hv, key.1, key.2.2 (Or.inl ?_)⟩
  rw [hr]
  norm_num

/-- C17: in the forward-looking and the mechanical view with a sensor attached, a commit
that finds the range changed computes the projection matrix once, uploads the fan once
and stores the new range; and a commit that follows it immediately with the same range
and gain computes and uploads nothing and leaves `range_`, `gain_`, `projection_`, the
fan vertex data and `settingsUpdated_` as they are. -/
theorem range_change_recomputes_once :
    (∀ (α : Type) (v : OpenGLFLSView α) (r r' : SonarReadings) (m1 m2 m1' m2' : Bool),
      v.sonar_ = true → (r.rangeMin ≠ v.range_.1 ∨ r.rangeMax ≠ v.range_.2) →
      r'.rangeMin = r.rangeMin → r'.rangeMax = r.rangeMax → r'.gain = r.gain →
        (v.UpdateTransform r m1 m2).2.projectionUpdates = 1 ∧
        (v.UpdateTransform r m1 m2).2.fanUploads = 1 ∧
        (v.UpdateTransform r m1 m2).1.range_ = (r.rangeMin, r.rangeMax) ∧
        ((v.UpdateTransform r m1 m2).1.UpdateTransform r' m1' m2').2.projectionUpdates = 0 ∧
        ((v.UpdateTransform r m1 m2).1.UpdateTransform r' m1' m2').2.fanUploads = 0 ∧
        ((v.UpdateTransform r m1 m2).1.UpdateTransform r' m1' m2').1.range_
          = (v.UpdateTransform r m1 m2).1.range_ ∧
        ((v.UpdateTransform r m1 m2).1.UpdateTransform r' m1' m2').1.gain_
          = (v.UpdateTransform r m1 m2).1.gain_ ∧
        ((v.UpdateTransform r m1 m2).1.UpdateTransform r' m1' m2').1.projection_
          = (v.UpdateTransform r m1 m2).1.projection_ ∧
        ((v.UpdateTransform r m1 m2).1.UpdateTransform r' m1' m2').1.displayVBO_
          = (v.UpdateTransform r m1 m2).1.displayVBO_ ∧
        ((v.UpdateTransform r m1 m2).1.UpdateTransform r' m1' m2').1.settingsUpdated_
          = (v.UpdateTransform r m1 m2).1.settingsUpdated_) ∧
    (∀ (v : OpenGLMSISView) (r r' : MSISReadings) (m1 m2 m1' m2' : Bool),
      v.msis.sonar_ = true → (r.rangeMin ≠ v.msis.range_.1 ∨ r.rangeMax ≠ v.msis.range_.2) →
      r'.rangeMin = r.rangeMin → r'.rangeMax = r.rangeMax → r'.gain = r.gain →
        (v.UpdateTransform r m1 m2).2.projectionUpdates = 1 ∧
        (v.UpdateTransform r m1 m2).2.fanUploads = 1 ∧
        (v.UpdateTransform r m1 m2).1.msis.range_ = (r.rangeMin, r.rangeMax) ∧
        ((v.UpdateTransform r m1 m2).1.UpdateTransform r' m1' m2').2.projectionUpdates = 0 ∧
        ((v.UpdateTransform r m1 m2).1.UpdateTransform r' m1' m2').2.fanUploads = 0 ∧
        ((v.UpdateTransform r m1 m2).1.UpdateTransform r' m1' m2').1.msis.range_
          = (v.UpdateTransform r m1 m2).1.msis.range_ ∧
        ((v.UpdateTransform r m1 m2).1.UpdateTransform r' m1' m2').1.msis.gain_
          = (v.UpdateTransform r m1 m2).1.msis.gain_ ∧
        ((v.UpdateTransform r m1 m2).1.UpdateTransform r' m1' m2').1.projection_
          = (v.UpdateTransform r m1 m2).1.projection_ ∧
        ((v.UpdateTransform r m1 m2).1.UpdateTransform r' m1' m2').1.displayVBO_
          = (v.UpdateTransform r m1 m2).1.displayVBO_ ∧
        ((v.UpdateTransform r m1 m2).1.UpdateTransform r' m1' m2').1.msis.settingsUpdated_
          = (v.UpdateTransform r m1 m2).1.msis.settingsUpdated_) := by
  constructor
  · intro α v r r' m1 m2 m1' m2' hs hch e1 e2 e3
    obtain ⟨a1, a2, a3, -, a5⟩ := fls_commit_settings v r m1 m2 hs
    obtain ⟨p1, p2, -⟩ := fls_commit_projection v r m1 m2 hs
    obtain ⟨b1, b2, b3, -, -⟩ := fls_commit_settings (v.UpdateTransform r m1 m2).1 r' m1' m2' a5
    obtain ⟨q1, q2, q3⟩ := fls_commit_projection (v.UpdateTransform r m1 m2).1 r' m1' m2' a5
    have k1 : r'.rangeMin = (v.UpdateTransform r m1 m2).1.range_.1 := by rw [a1, e1]
    have k2 : r'.rangeMax = (v.UpdateTransform r m1 m2).1.range_.2 := by rw [a1, e2]
    have k3 : r'.gain = (v.UpdateTransform r m1 m2).1.gain_ := by rw [a2, e3]
    refine ⟨by rw [p1, if_pos hch], by rw [p2, if_pos hch], a1, ?_, ?_, ?_, ?_, (q3 k1 k2).1,
      (q3 k1 k2).2, ?_⟩
    · rw [q1, if_neg (by simp [k1, k2])]
    · rw [q2, if_neg (by simp [k1, k2])]
    · rw [b1, a1, e1, e2]
    · rw [b2, a2, e3]
    · rw [b3]
      simp [k1, k2, k3]
  · intro v r r' m1 m2 m1' m2' hs hch e1 e2 e3
    obtain ⟨hm, -, p1, p2, -, -⟩ := msis_commit_view v r m1 m2 hs
    obtain ⟨a1, a2, -, a3, a5, -⟩ := msis_UpdateTransform_settings v.msis r hs
    rw [← hm] at a1 a2 a3 a5
    obtain ⟨hm', -, q1, q2, q3, -⟩ := msis_commit_view (v.UpdateTransform r m1 m2).1 r' m1' m2' a5
    obtain ⟨b1, b2, -, b3, -, -⟩ :=
      msis_UpdateTransform_settings (v.UpdateTransform r m1 m2).1.msis r' a5
    rw [← hm'] at b1 b2 b3
    have k1 : r'.rangeMin = (v.UpdateTransform r m1 m2).1.msis.range_.1 := by rw [a1, e1]
    have k2 : r'.rangeMax = (v.UpdateTransform r m1 m2).1.msis.range_.2 := by rw [a1, e2]
    have k3 : r'.gain = (v.UpdateTransform r m1 m2).1.msis.gain_ := by rw [a2, e3]
    have hset : (v.UpdateTransform r m1 m2).1.msis.settingsUpdated_ = true := by
      rw [a3]
      rcases hch with h | h <;> simp [h]
    refine ⟨by rw [p1, if_pos hch], by rw [p2, if_pos hch], a1, ?_, ?_, ?_, ?_, (q3 k1 k2).1,
      (q3 k1 k2).2, ?_⟩
    · rw [q1, if_neg (by simp [k1, k2])]
    · rw [q2, if_neg (by simp [k1, k2])]
    · rw [b1, a1, e1, e2]
    · rw [b2, a2, e3]
    · rw [b3, hset]
      simp

/-- Witness of C17: a forward-looking view with stored range (1, 50) commits the sensor
range (2, 50) and then the same readings again. -/
theorem range_change_recomputes_once_witness :
    ∃ v : OpenGLFLSView ℕ,
      OpenGLFLSView.ctor true ⟨0, 0, 0⟩ ⟨0, 0, -1⟩ ⟨0, 1, 0⟩ 120 10 512 512 (1, 50)
        SonarOutputFormat.U8 = some v ∧
      (v.setSonar.UpdateTransform ⟨2, 50, 1⟩ true true).2.projectionUpdates = 1 ∧
      ((v.setSonar.UpdateTransform ⟨2, 50, 1⟩ true true).1.UpdateTransform ⟨2, 50, 1⟩
        true true).2.projectionUpdates = 0 := by
  have hsome : (OpenGLFLSView.ctor (α := ℕ) true ⟨0, 0, 0⟩ ⟨0, 0, -1⟩ ⟨0, 1, 0⟩ 120 10 512 512
      (1, 50) SonarOutputFormat.U8).isSome = true := by decide!
  obtain ⟨v, hv⟩ := Option.isSome_iff_exists.mp hsome
  have hr : v.setSonar.range_ = (1, 50) := by
    have : (OpenGLFLSView.ctor (α := ℕ) true ⟨0, 0, 0⟩ ⟨0, 0, -1⟩ ⟨0, 1, 0⟩ 120 10 512 512
      (1, 50) SonarOutputFormat.U8).map (fun v => v.setSonar.range_) = some (1, 50) := by decide!
    rw [hv] at this
    simpa using this
  have key := range_change_recomputes_once.1 ℕ v.setSonar ⟨2, 50, 1⟩ ⟨2, 50, 1⟩ true true true
    true rfl (Or.inl (by rw [hr]; norm_num)) rfl rfl rfl
  exact ⟨v, hv, key.1, key.2.2.2.1⟩

/-! ## Clearing of the mechanical sonar image: theorems -/

theorem msis_ComputeOutput_clearUpload (s : OpenGLMSIS) :
    s.ComputeOutput.2.clearUpload = s.settingsUpdated_ ∧
    s.ComputeOutput.1.settingsUpdated_ = false ∧
    s.ComputeOutput.1.sonar_ = s.sonar_ ∧
    s.ComputeOutput.1.rotationLimits_ = s.rotationLimits_ ∧
    s.ComputeOutput.1.range_ = s.range_ ∧
    s.ComputeOutput.1.gain_ = s.gain_ := by
  unfold OpenGLMSIS.ComputeOutput
  by_cases h : s.settingsUpdated_ = true
  · simp [h]
  · simp [h]

/-- C18 (as stated, refuted): in the view with output format `U8`, the first
`ComputeOutput` after construction clears the image although no setting changed; and
after that, a tick in which the sensor reports the stored range (1, 50) and gain 1 but
rotation limits (-90, 90) instead of (-180, 180) clears the image again. -/
theorem msis_cleared_without_range_or_gain_change :
    (OpenGLMSISView.ctor true ⟨0, 0, 0⟩ ⟨0, 0, -1⟩ ⟨0, 1, 0⟩ 1 30 400 100 (1, 50)
        SonarOutputFormat.U8).map
      (fun v =>
        ((v.setSonar.UpdateTransform ⟨1, 50, 1, -180, 180, 0⟩ true true).1.clearsImage,
          (((v.setSonar.UpdateTransform ⟨1, 50, 1, -180, 180, 0⟩ true true).1.ComputeOutput.1.UpdateTransform
            ⟨1, 50, 1, -90, 90, 1⟩ true true).1.msis.range_,
           ((v.setSonar.UpdateTransform ⟨1, 50, 1, -180, 180, 0⟩ true true).1.ComputeOutput.1.UpdateTransform
            ⟨1, 50, 1, -90, 90, 1⟩ true true).1.msis.gain_),
          ((v.setSonar.UpdateTransform ⟨1, 50, 1, -180, 180, 0⟩ true true).1.ComputeOutput.1.UpdateTransform
            ⟨1, 50, 1, -90, 90, 1⟩ true true).1.clearsImage))
      = some (true, ((1, 50), 1), true) := by
  decide!

/-- C18 (amended): `ComputeOutput` clears the image only when `settingsUpdated_` is set,
which is so after construction; in a tick that follows an earlier `ComputeOutput`, with
a sensor attached, the image is cleared only when the range minimum, the range maximum,
the gain or a rotation limit reported by the sensor differs from the stored value: when
none of them changed the image is not cleared. -/
theorem msis_clear_only_if_settings_changed (v : OpenGLMSISView) (r : MSISReadings)
    (m1 m2 : Bool) (hs : v.msis.sonar_ = true) :
    (v.clearsImage = true → v.msis.settingsUpdated_ = true) ∧
    ((v.ComputeOutput.1.UpdateTransform r m1 m2).1.clearsImage = true →
      v.msis.rotationLimits_.1 ≠ r.rotL1 ∨ v.msis.rotationLimits_.2 ≠ r.rotL2 ∨
        r.rangeMin ≠ v.msis.range_.1 ∨ r.rangeMax ≠ v.msis.range_.2 ∨ r.gain ≠ v.msis.gain_) ∧
    (v.msis.rotationLimits_ = (r.rotL1, r.rotL2) → v.msis.range_ = (r.rangeMin, r.rangeMax) →
      v.msis.gain_ = r.gain →
      (v.ComputeOutput.1.UpdateTransform r m1 m2).1.clearsImage = false) := by
  obtain ⟨c0, c1, c2, c3, c4, c5⟩ := msis_ComputeOutput_clearUpload v.msis
  have hs' : v.ComputeOutput.1.msis.sonar_ = true := by
    show v.msis.ComputeOutput.1.sonar_ = true
    rw [c2, hs]
  obtain ⟨k1, -⟩ := msis_commit_view v.ComputeOutput.1 r m1 m2 hs'
  obtain ⟨-, -, -, h4, -, -⟩ := msis_UpdateTransform_settings v.msis.ComputeOutput.1 r (by rw [c2, hs])
  have key : (v.ComputeOutput.1.UpdateTransform r m1 m2).1.ComputeOutput.2.clearUpload
      = (decide (v.msis.rotationLimits_.1 ≠ r.rotL1 ∨ v.msis.rotationLimits_.2 ≠ r.rotL2)
          || decide (r.rangeMin ≠ v.msis.range_.1) || decide (r.rangeMax ≠ v.msis.range_.2)
          || decide (r.gain ≠ v.msis.gain_)) := by
    show ((v.ComputeOutput.1.UpdateTransform r m1 m2).1.msis).ComputeOutput.2.clearUpload = _
    rw [k1]
    show (v.msis.ComputeOutput.1.UpdateTransform r).ComputeOutput.2.clearUpload = _
    rw [(msis_ComputeOutput_clearUpload _).1, h4, c1, c3, c4, c5]
    simp
  refine ⟨fun h => ?_, fun h => ?_, fun h1 h2 h3 => ?_⟩
  · unfold OpenGLMSISView.clearsImage at h
    rw [Bool.and_eq_true] at h
    rw [← c0]
    exact h.1
  · unfold OpenGLMSISView.clearsImage at h
    rw [Bool.and_eq_true, key] at h
    have := h.1
    simp only [Bool.or_eq_true, decide_eq_true_eq] at this
    tauto
  · unfold OpenGLMSISView.clearsImage
    rw [key, h1, h2, h3]
    simp

/-- Witness of C18 (amended): after a first tick, a tick with unchanged readings does
not clear the image. -/
theorem msis_clear_only_if_settings_changed_witness :
    ∃ v0, OpenGLMSISView.ctor true ⟨0, 0, 0⟩ ⟨0, 0, -1⟩ ⟨0, 1, 0⟩ 1 30 400 100 (1, 50)
        SonarOutputFormat.U8 = some v0 ∧
      ((v0.setSonar.UpdateTransform ⟨1, 50, 1, -180, 180, 0⟩ true true).1.ComputeOutput.1.UpdateTransform
        ⟨1, 50, 1, -180, 180, 1⟩ true true).1.clearsImage = false := by
  have hsome : (OpenGLMSISView.ctor true ⟨0, 0, 0⟩ ⟨0, 0, -1⟩ ⟨0, 1, 0⟩ 1 30 400 100 (1, 50)
      SonarOutputFormat.U8).isSome = true := by decide!
  obtain ⟨v0, hv⟩ := Option.isSome_iff_exists.mp hsome
  have hc := msis_commit_view v0.setSonar ⟨1, 50, 1, -180, 180, 0⟩ true true rfl
  obtain ⟨a1, a2, a3, -, a5, -⟩ :=
    msis_UpdateTransform_settings v0.setSonar.msis ⟨1, 50, 1, -180, 180, 0⟩ rfl
  refine ⟨v0, hv, (msis_clear_only_if_settings_changed
    (v0.setSonar.UpdateTransform ⟨1, 50, 1, -180, 180, 0⟩ true true).1 ⟨1, 50, 1, -180, 180, 1⟩
    true true ?_).2.2 ?_ ?_ ?_⟩
  · rw [hc.1]; exact a5
  · rw [hc.1]; exact a3
  · rw [hc.1]; exact a1
  · rw [hc.1]; exact a2

/-- In a view with output format `U32` the upload of zeros is not taken: no
`ComputeOutput` clears the image. -/
theorem msis_U32_not_cleared (v : OpenGLMSISView) (h : v.outputFormat_ = SonarOutputFormat.U32) :
    v.clearsImage = false := by
  unfold OpenGLMSISView.clearsImage
  rw [h]
  simp [acceptsRedUpload]

/-! ## Readback: theorems -/

/-- The `NewDataReady` calls that the next commit of a view will make when both buffer
mappings succeed. -/
theorem fls_tick_spec {α : Type} (v : OpenGLFLSView α) (r : SonarReadings) (output display : α)
    (hs : v.sonar_ = true) :
    (v.tick r output display).2
      = (if v.newData_ then [(v.displayPBO_, 0), (v.outputPBO_, 1)] else []) ∧
    (v.tick r output display).1.sonar_ = true ∧
    (v.tick r output display).1.newData_ = true ∧
    (v.tick r output display).1.displayPBO_ = some display ∧
    (v.tick r output display).1.outputPBO_ = some output := by
  obtain ⟨h1, -⟩ := fls_commit_delivered v r true true hs
  obtain ⟨-, -, -, -, h5⟩ := fls_commit_settings v r true true hs
  have hd : ∀ w : OpenGLFLSView α, w.sonar_ = true →
      ((w.ComputeOutput output display).DrawLDR true).sonar_ = true ∧
      ((w.ComputeOutput output display).DrawLDR true).newData_ = true ∧
      ((w.ComputeOutput output display).DrawLDR true).displayPBO_ = some display ∧
      ((w.ComputeOutput output display).DrawLDR true).outputPBO_ = some output := by
    intro w hw
    unfold OpenGLFLSView.DrawLDR OpenGLFLSView.ComputeOutput
    by_cases h : w.settingsUpdated_ = true
    · simp [h, hw]
    · simp [h, hw]
  refine ⟨?_, hd _ h5⟩
  unfold OpenGLFLSView.tick
  dsimp only
  rw [h1]
  by_cases h : v.newData_ = true
  · simp [h]
  · simp [h]

theorem fls_run_spec {α : Type} (fs : List (SonarReadings × α × α)) (v : OpenGLFLSView α)
    (hs : v.sonar_ = true) :
    v.run fs
      = ((if v.newData_ then [(v.displayPBO_, 0), (v.outputPBO_, 1)] else [])
          :: fs.map (fun f => [(some f.2.2, 0), (some f.2.1, 1)])).take fs.length := by
  induction fs generalizing v with
  | nil => simp [OpenGLFLSView.run]
  | cons f fs ih =>
    obtain ⟨h1, h2, h3, h4, h5⟩ := fls_tick_spec v f.1 f.2.1 f.2.2 hs
    simp only [OpenGLFLSView.run, List.length_cons, List.map_cons, List.take_succ_cons]
    rw [ih _ h2, h1, h3, h4, h5]
    simp

/-- C19: with a sensor attached and no delivery pending at the start, in a run of ticks
`UpdateTransform; ComputeOutput; DrawLDR(updated = true)` with successful buffer
mappings, the first commit delivers nothing and the commit of every later tick delivers
the display image (channel 0) and the output image (channel 1) that the tick before it
computed and copied out: each copy-out is delivered once, at the next commit. -/
theorem fls_readback_lags_one_tick {α : Type} (v : OpenGLFLSView α)
    (fs : List (SonarReadings × α × α)) (hs : v.sonar_ = true) (hn : v.newData_ = false) :
    v.run fs
      = ([] :: fs.map (fun f => [(some f.2.2, 0), (some f.2.1, 1)])).take fs.length := by
  rw [fls_run_spec fs v hs, hn]
  simp

/-- Witness of C19: three ticks of a constructed view with images (10, 11), (20, 21) and
(30, 31). -/
theorem fls_readback_lags_one_tick_witness :
    ∃ v : OpenGLFLSView ℕ,
      OpenGLFLSView.ctor true ⟨0, 0, 0⟩ ⟨0, 0, -1⟩ ⟨0, 1, 0⟩ 120 10 512 512 (1, 50)
        SonarOutputFormat.U8 = some v ∧
      v.setSonar.run [(⟨1, 50, 1⟩, 10, 11), (⟨1, 50, 1⟩, 20, 21), (⟨2, 50, 1⟩, 30, 31)]
        = [[], [(some 11, 0), (some 10, 1)], [(some 21, 0), (some 20, 1)]] := by
  have hsome : (OpenGLFLSView.ctor (α := ℕ) true ⟨0, 0, 0⟩ ⟨0, 0, -1⟩ ⟨0, 1, 0⟩ 120 10 512 512
      (1, 50) SonarOutputFormat.U8).isSome = true := by decide!
  obtain ⟨v, hv⟩ := Option.isSome_iff_exists.mp hsome
  have hn : v.setSonar.newData_ = false := by
    have : (OpenGLFLSView.ctor (α := ℕ) true ⟨0, 0, 0⟩ ⟨0, 0, -1⟩ ⟨0, 1, 0⟩ 120 10 512 512
      (1, 50) SonarOutputFormat.U8).map (fun v => v.setSonar.newData_) = some false := by decide!
    rw [hv] at this
    simpa using this
  exact ⟨v, hv, fls_readback_lags_one_tick v.setSonar _ rfl hn⟩

/-- C20 (as stated, refuted): after one tick a delivery is pending; a commit in which
both buffer mappings fail makes no callback and clears `newData_`, and the next commit,
with both mappings succeeding and no copy-out in between, makes no callback either. -/
theorem fls_failed_map_drops_delivery :
    (OpenGLFLSView.ctor (α := ℕ) true ⟨0, 0, 0⟩ ⟨0, 0, -1⟩ ⟨0, 1, 0⟩ 120 10 512 512 (1, 50)
        SonarOutputFormat.U8).map
      (fun v =>
        ((v.setSonar.tick ⟨1, 50, 1⟩ 10 11).1.newData_,
          ((v.setSonar.tick ⟨1, 50, 1⟩ 10 11).1.UpdateTransform ⟨1, 50, 1⟩ false false).2.delivered))
      = some (true, []) ∧
    (OpenGLFLSView.ctor (α := ℕ) true ⟨0, 0, 0⟩ ⟨0, 0, -1⟩ ⟨0, 1, 0⟩ 120 10 512 512 (1, 50)
        SonarOutputFormat.U8).map
      (fun v =>
        (((v.setSonar.tick ⟨1, 50, 1⟩ 10 11).1.UpdateTransform ⟨1, 50, 1⟩ false false).1.newData_,
          (((v.setSonar.tick ⟨1, 50, 1⟩ 10 11).1.UpdateTransform ⟨1, 50, 1⟩ false false).1.UpdateTransform
            ⟨1, 50, 1⟩ true true).2.delivered))
      = some (false, []) := by
  constructor <;> decide!

/-- C20 (amended): in the forward-looking and the mechanical view with a sensor attached
and a delivery pending, a commit makes the callback of a buffer exactly when its mapping
succeeds (display on channel 0, then output on channel 1), so none for a buffer whose
mapping fails; the commit clears `newData_` whatever the mappings did, and a commit that
follows without a new copy-out makes no callback. -/
theorem failed_map_skips_and_clears :
    (∀ (α : Type) (v : OpenGLFLSView α) (r r' : SonarReadings) (m1 m2 m1' m2' : Bool),
      v.sonar_ = true → v.newData_ = true →
        (v.UpdateTransform r m1 m2).2.delivered
          = (if m1 then [(v.displayPBO_, 0)] else []) ++ (if m2 then [(v.outputPBO_, 1)] else []) ∧
        (v.UpdateTransform r m1 m2).1.newData_ = false ∧
        ((v.UpdateTransform r m1 m2).1.UpdateTransform r' m1' m2').2.delivered = []) ∧
    (∀ (v : OpenGLMSISView) (r r' : MSISReadings) (m1 m2 m1' m2' : Bool),
      v.msis.sonar_ = true → v.newData_ = true →
        (v.UpdateTransform r m1 m2).2.delivered
          = (if m1 then [(SSSBuffer.displayPBO_, 0)] else [])
            ++ (if m2 then [(SSSBuffer.outputPBO_, 1)] else []) ∧
        (v.UpdateTransform r m1 m2).1.newData_ = false ∧
        ((v.UpdateTransform r m1 m2).1.UpdateTransform r' m1' m2').2.delivered = []) := by
  constructor
  · intro α v r r' m1 m2 m1' m2' hs hn
    obtain ⟨d1, -⟩ := fls_commit_delivered v r m1 m2 hs
    obtain ⟨-, -, -, a4, a5⟩ := fls_commit_settings v r m1 m2 hs
    obtain ⟨d2, -⟩ := fls_commit_delivered (v.UpdateTransform r m1 m2).1 r' m1' m2' a5
    refine ⟨by rw [d1, hn]; simp, a4, ?_⟩
    rw [d2, a4]
    simp
  · intro v r r' m1 m2 m1' m2' hs hn
    obtain ⟨hm, a4, -, -, -, d1⟩ := msis_commit_view v r m1 m2 hs
    have a5 : (v.UpdateTransform r m1 m2).1.msis.sonar_ = true := by
      rw [hm]
      exact (msis_UpdateTransform_settings v.msis r hs).2.2.2.2.1
    obtain ⟨-, -, -, -, -, d2⟩ := msis_commit_view (v.UpdateTransform r m1 m2).1 r' m1' m2' a5
    refine ⟨by rw [d1, hn]; simp, a4, ?_⟩
    rw [d2, a4]
    simp

/-- Witness of C20 (amended): the display mapping fails and the output mapping succeeds;
only the output image is delivered. -/
theorem failed_map_skips_and_clears_witness :
    ∃ v : OpenGLFLSView ℕ,
      OpenGLFLSView.ctor true ⟨0, 0, 0⟩ ⟨0, 0, -1⟩ ⟨0, 1, 0⟩ 120 10 512 512 (1, 50)
        SonarOutputFormat.U8 = some v ∧
      ((v.setSonar.tick ⟨1, 50, 1⟩ 10 11).1.UpdateTransform ⟨1, 50, 1⟩ false true).2.delivered
        = [(some 10, 1)] := by
  have hsome : (OpenGLFLSView.ctor (α := ℕ) true ⟨0, 0, 0⟩ ⟨0, 0, -1⟩ ⟨0, 1, 0⟩ 120 10 512 512
      (1, 50) SonarOutputFormat.U8).isSome = true := by decide!
  obtain ⟨v, hv⟩ := Option.isSome_iff_exists.mp hsome
  obtain ⟨-, t2, t3, -, t5⟩ := fls_tick_spec v.setSonar ⟨1, 50, 1⟩ 10 11 rfl
  have key := (failed_map_skips_and_clears.1 ℕ (v.setSonar.tick ⟨1, 50, 1⟩ 10 11).1 ⟨1, 50, 1⟩
    ⟨1, 50, 1⟩ false true true true t2 t3).1
  rw [t5] at key
  exact ⟨v, hv, by simpa using key⟩

/-! ## Pixel pack buffers: theorems -/

theorem displaySize_eq (w h : ℤ) (hw : 0 ≤ w) (hh : 0 ≤ h) (hlt : w * h * 3 < 2147483648) :
    (mulGLint w h).bind (fun p => mulGLint p 3) = some (w * h * 3) := by
  have h0 : 0 ≤ w * h := mul_nonneg hw hh
  unfold mulGLint
  rw [if_pos ⟨by omega, by omega⟩]
  simp only [Option.some_bind]
  rw [if_pos ⟨by omega, by omega⟩]

theorem fls_setSonar_gl {α γ : Type} (o : OpenGLFLSObject α γ) (hw : 0 ≤ o.viewportWidth)
    (hh : 0 ≤ o.viewportHeight) (hlt : o.viewportWidth * o.viewportHeight * 3 < 2147483648) :
    ∃ o', o.setSonar = some o' ∧
      o'.toOpenGLFLSView = o.toOpenGLFLSView.setSonar ∧
      o'.toOpenGLView = o.toOpenGLView ∧ o'.cMap_ = o.cMap_ ∧
      o'.gl = { bound := none
                outputPBO_ := some ((mulGLuint o.fls.nBeams_ o.fls.nBins_ * formatWidth o.outputFormat_ : ℕ) : ℤ)
                displayPBO_ := some (o.viewportWidth * o.viewportHeight * 3)
                errors := o.gl.errors + 1 } := by
  have h0 : 0 ≤ o.viewportWidth * o.viewportHeight := mul_nonneg hw hh
  unfold OpenGLFLSObject.setSonar
  rw [displaySize_eq _ _ hw hh hlt]
  have e1 : ∀ n : ℕ, ¬ ((n : ℤ) < 0) := fun n => by omega
  have e2 : ¬ (o.viewportWidth * o.viewportHeight * 3 < 0) := by omega
  have e3 : ∀ n : ℕ, ¬ ((n : ℤ) * 2 < 0) := fun n => by omega
  have e4 : ∀ n : ℕ, ¬ ((n : ℤ) * 4 < 0) := fun n => by omega
  cases hf : o.outputFormat_ <;>
    simp [PixelPackState.glGenBuffers, PixelPackState.glBindBuffer, PixelPackState.glBufferData,
      formatWidth, sizeofGLubyte, sizeofGLushort, sizeofGLuint, sizeofGLfloat, e1, e2, e3, e4]

theorem msis_setSonar_gl {γ : Type} (o : OpenGLMSISObject γ) (hw : 0 ≤ o.viewportWidth)
    (hh : 0 ≤ o.viewportHeight) (hlt : o.viewportWidth * o.viewportHeight * 3 < 2147483648) :
    ∃ o', o.setSonar = some o' ∧
      o'.toOpenGLMSISView = o.toOpenGLMSISView.setSonar ∧
      o'.toOpenGLView = o.toOpenGLView ∧ o'.cMap_ = o.cMap_ ∧
      o'.gl = { bound := none
                outputPBO_ := some ((mulGLuint o.msis.nSteps_ o.msis.nBins_ * formatWidth o.outputFormat_ : ℕ) : ℤ)
                displayPBO_ := some (o.viewportWidth * o.viewportHeight * 3)
                errors := o.gl.errors } := by
  have h0 : 0 ≤ o.viewportWidth * o.viewportHeight := mul_nonneg hw hh
  unfold OpenGLMSISObject.setSonar
  rw [displaySize_eq _ _ hw hh hlt]
  have e1 : ∀ n : ℕ, ¬ ((n : ℤ) < 0) := fun n => by omega
  have e2 : ¬ (o.viewportWidth * o.viewportHeight * 3 < 0) := by omega
  have e3 : ∀ n : ℕ, ¬ ((n : ℤ) * 2 < 0) := fun n => by omega
  have e4 : ∀ n : ℕ, ¬ ((n : ℤ) * 4 < 0) := fun n => by omega
  cases hf : o.outputFormat_ <;>
    simp [PixelPackState.glGenBuffers, PixelPackState.glBindBuffer, PixelPackState.glBufferData,
      formatWidth, sizeofGLubyte, sizeofGLushort, sizeofGLuint, sizeofGLfloat, e1, e2, e3, e4]

theorem sss_setSonar_gl {γ : Type} (o : OpenGLSSSObject γ) (hw : 0 ≤ o.viewportWidth)
    (hh : 0 ≤ o.viewportHeight) (hlt : o.viewportWidth * o.viewportHeight * 3 < 2147483648) :
    ∃ o', o.setSonar = some o' ∧
      o'.toOpenGLSSSView = o.toOpenGLSSSView.setSonar ∧
      o'.toOpenGLView = o.toOpenGLView ∧ o'.cMap_ = o.cMap_ ∧
      o'.gl = { bound := none
                outputPBO_ := some (o.viewportWidth * o.viewportHeight * (formatWidth o.sss.outputFormat_ : ℤ))
                displayPBO_ := some (o.viewportWidth * o.viewportHeight * 3)
                errors := o.gl.errors } := by
  have h0 : 0 ≤ o.viewportWidth * o.viewportHeight := mul_nonneg hw hh
  have hm : mulGLint o.viewportWidth o.viewportHeight = some (o.viewportWidth * o.viewportHeight) := by
    unfold mulGLint
    rw [if_pos ⟨by omega, by omega⟩]
  unfold OpenGLSSSObject.setSonar
  rw [displaySize_eq _ _ hw hh hlt, hm]
  have e2 : ¬ (o.viewportWidth * o.viewportHeight * 3 < 0) := by omega
  have e1 : ¬ (o.viewportWidth * o.viewportHeight < 0) := by omega
  have e3 : ¬ (o.viewportWidth * o.viewportHeight * 2 < 0) := by omega
  have e4 : ¬ (o.viewportWidth * o.viewportHeight * 4 < 0) := by omega
  cases hf : o.sss.outputFormat_ <;>
    simp [PixelPackState.glGenBuffers, PixelPackState.glBindBuffer, PixelPackState.glBufferData,
      formatWidth, sizeofGLubyte, sizeofGLushort, sizeofGLuint, sizeofGLfloat, e1, e2, e3, e4]

theorem fls_view_ctor_fields {α : Type} (en : Bool) (eye dir up : Vec3) (h v : ℚ) (n b : ℕ)
    (range : ℚ × ℚ) (fmt : SonarOutputFormat) (w : OpenGLFLSView α)
    (hw : OpenGLFLSView.ctor en eye dir up h v n b range fmt = some w) :
    OpenGLFLS.ctor h v n b = some w.fls ∧ w.fls.nBeams_ = n ∧ w.fls.nBins_ = b ∧
      w.outputFormat_ = fmt ∧ w.range_ = range ∧ w.noise_ = (0, 0) ∧ w.sonar_ = false ∧
      w.projection_ = .perspective w.fls.viewFovCorr w.fls.fov_.2 range.1 range.2 := by
  unfold OpenGLFLSView.ctor at hw
  cases hf : OpenGLFLS.ctor h v n b with
  | none => simp [hf] at hw
  | some fls =>
    cases hd : castGLuint (ceilf h) with
    | none => simp [hf, hd] at hw
    | some d =>
      simp only [hf, hd, Option.map_some', Option.bind_eq_bind, Option.some_bind,
        Option.pure_def, Option.some.injEq] at hw
      subst hw
      have e := (fls_ctor_eq_some h v n b fls).mp hf
      obtain ⟨_, _, _, _, _, _, _, _, rfl⟩ := e
      exact ⟨rfl, rfl, rfl, rfl, rfl, rfl, rfl, rfl⟩

theorem fls_object_ctor_fields {α γ : Type} (gb : γ) (sinf : ℚ → ℚ) (en : Bool)
    (eye dir up : Vec3) (h v : ℚ) (n b : ℕ) (range : ℚ × ℚ) (fmt : SonarOutputFormat)
    (o : OpenGLFLSObject α γ)
    (ho : OpenGLFLSObject.ctor gb sinf en eye dir up h v n b range fmt = some o) :
    OpenGLFLSView.ctor en eye dir up h v n b range fmt = some o.toOpenGLFLSView ∧
      castGLint (ceilf (2 * sinf (radians h / 2) * (b : ℚ))) = some o.viewportWidth ∧
      o.viewportHeight = toGLint b ∧ o.cMap_ = gb := by
  unfold OpenGLFLSObject.ctor at ho
  cases hc : castGLint (ceilf (2 * sinf (radians h / 2) * (b : ℚ))) with
  | none => simp [hc] at ho
  | some vw =>
    cases hv : OpenGLFLSView.ctor (α := α) en eye dir up h v n b range fmt with
    | none => simp [hc, hv] at ho
    | some w =>
      simp only [hc, hv, Option.bind_eq_bind, Option.some_bind, Option.pure_def,
        Option.some.injEq] at ho
      subst ho
      exact ⟨rfl, rfl, rfl, rfl⟩

theorem msis_view_ctor_fields (en : Bool) (eye dir up : Vec3) (hb vb : ℚ) (n b : ℕ)
    (range : ℚ × ℚ) (fmt : SonarOutputFormat) (w : OpenGLMSISView)
    (hw : OpenGLMSISView.ctor en eye dir up hb vb n b range fmt = some w) :
    OpenGLMSIS.ctor hb vb n b range = some w.msis ∧ w.msis.nSteps_ = n ∧ w.msis.nBins_ = b ∧
      w.outputFormat_ = fmt ∧ w.msis.range_ = range ∧ w.msis.noise_ = (0, 0) ∧
      w.msis.sonar_ = false := by
  unfold OpenGLMSISView.ctor at hw
  cases hf : OpenGLMSIS.ctor hb vb n b range with
  | none => simp [hf] at hw
  | some m =>
    simp only [hf, Option.bind_eq_bind, Option.some_bind, Option.pure_def,
      Option.some.injEq] at hw
    subst hw
    unfold OpenGLMSIS.ctor at hf
    cases h1 : castGLuint (ceilf (hb * (b : ℚ) * MSIS_RES_FACTOR)) with
    | none => simp [h1] at hf
    | some x =>
      cases h2 : castGLuint (ceilf (vb * (b : ℚ) * MSIS_RES_FACTOR)) with
      | none => simp [h1, h2] at hf
      | some y =>
        simp only [h1, h2, Option.map_some', Option.bind_eq_bind, Option.some_bind,
          Option.pure_def, Option.some.injEq] at hf
        subst hf
        exact ⟨by simp [OpenGLMSIS.ctor, h1, h2], rfl, rfl, rfl, rfl, rfl, rfl⟩

theorem msis_object_ctor_fields {γ : Type} (gb : γ) (en : Bool)
    (eye dir up : Vec3) (hb vb : ℚ) (n b : ℕ) (range : ℚ × ℚ) (fmt : SonarOutputFormat)
    (o : OpenGLMSISObject γ)
    (ho : OpenGLMSISObject.ctor gb en eye dir up hb vb n b range fmt = some o) :
    OpenGLMSISView.ctor en eye dir up hb vb n b range fmt = some o.toOpenGLMSISView ∧
      o.viewportWidth = toGLint b ∧ o.viewportHeight = toGLint b ∧ o.cMap_ = gb := by
  unfold OpenGLMSISObject.ctor at ho
  cases hv : OpenGLMSISView.ctor en eye dir up hb vb n b range fmt with
  | none => simp [hv] at ho
  | some w =>
    simp only [hv, Option.bind_eq_bind, Option.some_bind, Option.pure_def,
      Option.some.injEq] at ho
    subst ho
    exact ⟨rfl, rfl, rfl, rfl⟩

theorem sss_view_ctor_fields (en : Bool) (eye dir up : Vec3) (vb hb : ℚ) (b : ℕ) (t : ℚ)
    (range : ℚ × ℚ) (fmt : SonarOutputFormat) (w : OpenGLSSSView)
    (hw : OpenGLSSSView.ctor en eye dir up vb hb b t range fmt = some w) :
    OpenGLSSS.ctor vb hb b t range fmt = some w.sss ∧
      w.sss.outputFormat_ = fmt ∧ w.sss.range_ = range ∧ w.sss.noise_ = (0, 0) ∧
      w.sss.sonar_ = false := by
  unfold OpenGLSSSView.ctor at hw
  cases hf : OpenGLSSS.ctor vb hb b t range fmt with
  | none => simp [hf] at hw
  | some m =>
    simp only [hf, Option.bind_eq_bind, Option.some_bind, Option.pure_def,
      Option.some.injEq] at hw
    subst hw
    unfold OpenGLSSS.ctor at hf
    cases h1 : castGLuint (ceilf (vb * (b : ℚ) / 2 * SSS_VRES_FACTOR)) with
    | none => simp [h1] at hf
    | some x =>
      cases h2 : castGLuint (ceilf (hb * SSS_HRES_FACTOR)) with
      | none => simp [h1, h2] at hf
      | some y =>
        simp only [h1, h2, Option.map_some', Option.bind_eq_bind, Option.some_bind,
          Option.pure_def, Option.some.injEq] at hf
        subst hf
        exact ⟨by simp [OpenGLSSS.ctor, h1, h2], rfl, rfl, rfl, rfl⟩

theorem sss_object_ctor_fields {γ : Type} (gb : γ) (en : Bool)
    (eye dir up : Vec3) (vb hb : ℚ) (b l : ℕ) (t : ℚ) (range : ℚ × ℚ) (fmt : SonarOutputFormat)
    (o : OpenGLSSSObject γ)
    (ho : OpenGLSSSObject.ctor gb en eye dir up vb hb b l t range fmt = some o) :
    OpenGLSSSView.ctor en eye dir up vb hb b t range fmt = some o.toOpenGLSSSView ∧
      o.viewportWidth = toGLint b ∧ o.viewportHeight = toGLint l ∧ o.cMap_ = gb := by
  unfold OpenGLSSSObject.ctor at ho
  cases hv : OpenGLSSSView.ctor en eye dir up vb hb b t range fmt with
  | none => simp [hv] at ho
  | some w =>
    simp only [hv, Option.bind_eq_bind, Option.some_bind, Option.pure_def,
      Option.some.injEq] at ho
    subst ho
    exact ⟨rfl, rfl, rfl, rfl⟩

theorem toGLint_of_lt (n : ℕ) (h : n < 2147483648) : toGLint n = (n : ℤ) := by
  unfold toGLint GLuintSize
  have e : n % 4294967296 = n := Nat.mod_eq_of_lt (by omega)
  rw [e, if_pos h]

/-- C21 (defect of the code): a mechanical view with 262144 steps, 16384 bins and the
format U8 has 262144 * 16384 * 1 = 4294967296 texel bytes, while `setSonar` gives the
output buffer 0 bytes: the product `nSteps_ * nBins_` of line 327 is computed in unsigned
32-bit arithmetic and wraps before it is multiplied by the 64-bit `sizeof`. -/
theorem msis_buffer_size_wraps :
    ((OpenGLMSISObject.ctor (γ := ℕ) 3 true ⟨0, 0, 0⟩ ⟨0, 0, -1⟩ ⟨0, 1, 0⟩ 2 30 262144 16384 (1, 50)
        SonarOutputFormat.U8).bind (fun o => o.setSonar)).map
      (fun o => (o.msis.nSteps_ * o.msis.nBins_ * formatWidth o.outputFormat_, o.gl.outputPBO_))
      = some (4294967296, some 0) := by
  decide!

/-- The size of the output buffer in range: for every output format, the output buffer
that `setSonar` allocates has `(texels mod 2^32) * width(format)` bytes in the
forward-looking view (texels = beams * bins) and in the mechanical view
(texels = steps * bins), which is `texels * width(format)` whenever `texels < 2^32`, and
`bins * lines * width(format)` bytes in the side-scan view, with `width` 1, 2, 4, 4 for U8,
U16, U32, F32. `setSonar` has a defined result when the signed 32-bit product
`viewportWidth * viewportHeight * 3` of the display buffer does not overflow. -/
theorem output_buffer_size :
    (∀ (α γ : Type) (gb : γ) (sinf : ℚ → ℚ) (en : Bool) (eye dir up : Vec3) (h v : ℚ) (n b : ℕ)
        (range : ℚ × ℚ) (fmt : SonarOutputFormat) (o : OpenGLFLSObject α γ),
      OpenGLFLSObject.ctor gb sinf en eye dir up h v n b range fmt = some o →
      0 ≤ o.viewportWidth → b < 2147483648 → o.viewportWidth * (b : ℤ) * 3 < 2147483648 →
        ∃ o', o.setSonar = some o' ∧
          o'.gl.outputPBO_ = some ((n * b % 4294967296 * formatWidth fmt : ℕ) : ℤ) ∧
          (n * b < 4294967296 → o'.gl.outputPBO_ = some ((n * b * formatWidth fmt : ℕ) : ℤ))) ∧
    (∀ (γ : Type) (gb : γ) (en : Bool) (eye dir up : Vec3) (hb vb : ℚ) (n b : ℕ)
        (range : ℚ × ℚ) (fmt : SonarOutputFormat) (o : OpenGLMSISObject γ),
      OpenGLMSISObject.ctor gb en eye dir up hb vb n b range fmt = some o →
      b < 2147483648 → (b : ℤ) * (b : ℤ) * 3 < 2147483648 →
        ∃ o', o.setSonar = some o' ∧
          o'.gl.outputPBO_ = some ((n * b % 4294967296 * formatWidth fmt : ℕ) : ℤ) ∧
          (n * b < 4294967296 → o'.gl.outputPBO_ = some ((n * b * formatWidth fmt : ℕ) : ℤ))) ∧
    (∀ (γ : Type) (gb : γ) (en : Bool) (eye dir up : Vec3) (vb hb : ℚ) (b l : ℕ) (t : ℚ)
        (range : ℚ × ℚ) (fmt : SonarOutputFormat) (o : OpenGLSSSObject γ),
      OpenGLSSSObject.ctor gb en eye dir up vb hb b l t range fmt = some o →
      b < 2147483648 → l < 2147483648 → (b : ℤ) * (l : ℤ) * 3 < 2147483648 →
        ∃ o', o.setSonar = some o' ∧
          o'.gl.outputPBO_ = some ((b * l * formatWidth fmt : ℕ) : ℤ)) ∧
    formatWidth SonarOutputFormat.U8 = 1 ∧ formatWidth SonarOutputFormat.U16 = 2 ∧
    formatWidth SonarOutputFormat.U32 = 4 ∧ formatWidth SonarOutputFormat.F32 = 4 := by
  refine ⟨?_, ?_, ?_, rfl, rfl, rfl, rfl⟩
  · intro α γ gb sinf en eye dir up h v n b range fmt o ho hw hb hlt
    obtain ⟨hv, -, hh, -⟩ := fls_object_ctor_fields gb sinf en eye dir up h v n b range fmt o ho
    obtain ⟨-, e1, e2, e3, -⟩ := fls_view_ctor_fields en eye dir up h v n b range fmt _ hv
    rw [toGLint_of_lt b hb] at hh
    obtain ⟨o', h1, -, -, -, h5⟩ := fls_setSonar_gl o hw (by rw [hh]; positivity) (by rw [hh]; exact hlt)
    have key : o'.gl.outputPBO_ = some ((n * b % 4294967296 * formatWidth fmt : ℕ) : ℤ) := by
      rw [h5, e1, e2, e3]
      rfl
    refine ⟨o', h1, key, fun hnb => ?_⟩
    rw [key, Nat.mod_eq_of_lt hnb]
  · intro γ gb en eye dir up hb vb n b range fmt o ho hb' hlt
    obtain ⟨hv, hw, hh, -⟩ := msis_object_ctor_fields gb en eye dir up hb vb n b range fmt o ho
    obtain ⟨-, e1, e2, e3, -⟩ := msis_view_ctor_fields en eye dir up hb vb n b range fmt _ hv
    rw [toGLint_of_lt b hb'] at hh hw
    obtain ⟨o', h1, -, -, -, h5⟩ := msis_setSonar_gl o (by rw [hw]; positivity)
      (by rw [hh]; positivity) (by rw [hw, hh]; exact hlt)
    have key : o'.gl.outputPBO_ = some ((n * b % 4294967296 * formatWidth fmt : ℕ) : ℤ) := by
      rw [h5, e1, e2, e3]
      rfl
    refine ⟨o', h1, key, fun hnb => ?_⟩
    rw [key, Nat.mod_eq_of_lt hnb]
  · intro γ gb en eye dir up vb hb b l t range fmt o ho hb' hl hlt
    obtain ⟨hv, hw, hh, -⟩ := sss_object_ctor_fields gb en eye dir up vb hb b l t range fmt o ho
    obtain ⟨-, e1, -⟩ := sss_view_ctor_fields en eye dir up vb hb b t range fmt _ hv
    rw [toGLint_of_lt b hb'] at hw
    rw [toGLint_of_lt l hl] at hh
    obtain ⟨o', h1, -, -, -, h5⟩ := sss_setSonar_gl o (by rw [hw]; positivity)
      (by rw [hh]; positivity) (by rw [hw, hh]; exact hlt)
    refine ⟨o', h1, ?_⟩
    rw [h5, e1, hw, hh]
    push_cast
    rfl

/-- The example of the specification: the forward-looking view with 256 beams, 512 bins
and U8
(horizontal field of view 60 degrees, `sinf` of its half taken as 1/2) gets an output
buffer of 256 * 512 = 131072 bytes. -/
theorem output_buffer_size_witness :
    ∃ o o' : OpenGLFLSObject ℕ ℕ,
      OpenGLFLSObject.ctor 3 (fun _ => 1 / 2) true ⟨0, 0, 0⟩ ⟨0, 0, -1⟩ ⟨0, 1, 0⟩ 60 10 256 512
        (1, 50) SonarOutputFormat.U8 = some o ∧
      o.setSonar = some o' ∧ o'.gl.outputPBO_ = some 131072 := by
  have hsome : (OpenGLFLSObject.ctor (α := ℕ) (γ := ℕ) 3 (fun _ => 1 / 2) true ⟨0, 0, 0⟩ ⟨0, 0, -1⟩
      ⟨0, 1, 0⟩ 60 10 256 512 (1, 50) SonarOutputFormat.U8).isSome = true := by decide!
  obtain ⟨o, ho⟩ := Option.isSome_iff_exists.mp hsome
  have hw : o.viewportWidth = 512 := by
    have : (OpenGLFLSObject.ctor (α := ℕ) (γ := ℕ) 3 (fun _ => 1 / 2) true ⟨0, 0, 0⟩ ⟨0, 0, -1⟩
      ⟨0, 1, 0⟩ 60 10 256 512 (1, 50) SonarOutputFormat.U8).map (fun o => o.viewportWidth)
        = some 512 := by decide!
    rw [ho] at this
    simpa using this
  obtain ⟨o', h1, -, h3⟩ := output_buffer_size.1 ℕ ℕ 3 (fun _ => 1 / 2) true ⟨0, 0, 0⟩ ⟨0, 0, -1⟩
    ⟨0, 1, 0⟩ 60 10 256 512 (1, 50) SonarOutputFormat.U8 o ho (by rw [hw]; decide) (by decide)
    (by rw [hw]; decide)
  exact ⟨o, o', ho, h1, (h3 (by decide)).trans (by decide)⟩

/-! ## Delivery of the images: theorems -/

theorem fls_delivered_eq {α : Type} (v : OpenGLFLSView α) (r : SonarReadings) (m1 m2 : Bool) :
    (v.UpdateTransform r m1 m2).2.delivered
      = (if v.sonar_ && v.newData_ then
          (if m1 then [(v.displayPBO_, 0)] else []) ++ (if m2 then [(v.outputPBO_, 1)] else [])
         else []) := by
  by_cases hs : v.sonar_ = true
  · rw [(fls_commit_delivered v r m1 m2 hs).1, hs]
    simp
  · unfold OpenGLFLSView.UpdateTransform
    simp [hs]

theorem msis_delivered_eq (v : OpenGLMSISView) (r : MSISReadings) (m1 m2 : Bool) :
    (v.UpdateTransform r m1 m2).2.delivered
      = (if v.msis.sonar_ && v.newData_ then
          (if m1 then [(SSSBuffer.displayPBO_, 0)] else [])
            ++ (if m2 then [(SSSBuffer.outputPBO_, 1)] else [])
         else []) := by
  by_cases hs : v.msis.sonar_ = true
  · rw [(msis_commit_view v r m1 m2 hs).2.2.2.2.2, hs]
    simp
  · unfold OpenGLMSISView.UpdateTransform
    simp [hs]

theorem sss_delivered_eq (v : OpenGLSSSView) (r : SonarReadings) (m1 m2 : Bool) :
    (v.UpdateTransform r m1 m2).2.delivered
      = (if v.sss.sonar_ && v.sss.newData_ then
          (if m1 then [(SSSBuffer.displayPBO_, 0)] else [])
            ++ (if m2 then [(SSSBuffer.outputPBO_, 1)] else [])
         else []) := by
  unfold OpenGLSSSView.UpdateTransform OpenGLSSS.UpdateTransform
  by_cases hs : v.sss.sonar_ = true <;> by_cases hn : v.sss.newData_ = true <;>
    by_cases h1 : r.rangeMin = v.sss.range_.1 <;> by_cases h2 : r.rangeMax = v.sss.range_.2 <;>
    by_cases h3 : r.gain = v.sss.gain_ <;>
    simp [hs, hn, h1, h2, h3]

theorem delivered_sublist {β : Type} (c : Bool) (m1 m2 : Bool) (d o : β) :
    List.Sublist
      (if c then (if m1 then [(d, 0)] else []) ++ (if m2 then [(o, 1)] else []) else [])
      [(d, 0), (o, 1)] := by
  cases c <;> cases m1 <;> cases m2 <;> simp

/-- C22: in every commit of each of the three variants the callbacks made are a sublist of
`[(display buffer, 0), (output buffer, 1)]`: the display image goes with channel 0, the
output image with channel 1, the display image first; with a sensor attached, data pending
and both mappings succeeding both callbacks are made. A commit leaves the pixel pack
buffers as they are, and `setSonar` gives the display buffer
`viewportWidth * viewportHeight * 3` bytes. -/
theorem delivery_channels :
    (∀ (α γ : Type) (o : OpenGLFLSObject α γ) (r : SonarReadings) (m1 m2 : Bool),
      List.Sublist (o.UpdateTransform r m1 m2).2.delivered
        [(o.displayPBO_, 0), (o.outputPBO_, 1)] ∧
      (o.sonar_ = true → o.newData_ = true → m1 = true → m2 = true →
        (o.UpdateTransform r m1 m2).2.delivered = [(o.displayPBO_, 0), (o.outputPBO_, 1)]) ∧
      (o.UpdateTransform r m1 m2).1.gl = o.gl ∧
      (0 ≤ o.viewportWidth → 0 ≤ o.viewportHeight →
        o.viewportWidth * o.viewportHeight * 3 < 2147483648 →
        ∃ o', o.setSonar = some o' ∧
          o'.gl.displayPBO_ = some (o.viewportWidth * o.viewportHeight * 3))) ∧
    (∀ (γ : Type) (o : OpenGLMSISObject γ) (r : MSISReadings) (m1 m2 : Bool),
      List.Sublist (o.UpdateTransform r m1 m2).2.delivered
        [(SSSBuffer.displayPBO_, 0), (SSSBuffer.outputPBO_, 1)] ∧
      (o.msis.sonar_ = true → o.newData_ = true → m1 = true → m2 = true →
        (o.UpdateTransform r m1 m2).2.delivered
          = [(SSSBuffer.displayPBO_, 0), (SSSBuffer.outputPBO_, 1)]) ∧
      (o.UpdateTransform r m1 m2).1.gl = o.gl ∧
      (0 ≤ o.viewportWidth → 0 ≤ o.viewportHeight →
        o.viewportWidth * o.viewportHeight * 3 < 2147483648 →
        ∃ o', o.setSonar = some o' ∧
          o'.gl.displayPBO_ = some (o.viewportWidth * o.viewportHeight * 3))) ∧
    (∀ (γ : Type) (o : OpenGLSSSObject γ) (r : SonarReadings) (m1 m2 : Bool),
      List.Sublist (o.UpdateTransform r m1 m2).2.delivered
        [(SSSBuffer.displayPBO_, 0), (SSSBuffer.outputPBO_, 1)] ∧
      (o.sss.sonar_ = true → o.sss.newData_ = true → m1 = true → m2 = true →
        (o.UpdateTransform r m1 m2).2.delivered
          = [(SSSBuffer.displayPBO_, 0), (SSSBuffer.outputPBO_, 1)]) ∧
      (o.UpdateTransform r m1 m2).1.gl = o.gl ∧
      (0 ≤ o.viewportWidth → 0 ≤ o.viewportHeight →
        o.viewportWidth * o.viewportHeight * 3 < 2147483648 →
        ∃ o', o.setSonar = some o' ∧
          o'.gl.displayPBO_ = some (o.viewportWidth * o.viewportHeight * 3))) := by
  refine ⟨fun α γ o r m1 m2 => ⟨?_, ?_, rfl, ?_⟩, fun γ o r m1 m2 => ⟨?_, ?_, rfl, ?_⟩,
    fun γ o r m1 m2 => ⟨?_, ?_, rfl, ?_⟩⟩
  · show List.Sublist (o.toOpenGLFLSView.UpdateTransform r m1 m2).2.delivered _
    rw [fls_delivered_eq]
    exact delivered_sublist _ _ _ _ _
  · intro hs hn h1 h2
    show (o.toOpenGLFLSView.UpdateTransform r m1 m2).2.delivered = _
    rw [fls_delivered_eq, hs, hn, h1, h2]
    rfl
  · intro hw hh hlt
    obtain ⟨o', h1, -, -, -, h5⟩ := fls_setSonar_gl o hw hh hlt
    exact ⟨o', h1, by rw [h5]⟩
  · show List.Sublist (o.toOpenGLMSISView.UpdateTransform r m1 m2).2.delivered _
    rw [msis_delivered_eq]
    exact delivered_sublist _ _ _ _ _
  · intro hs hn h1 h2
    show (o.toOpenGLMSISView.UpdateTransform r m1 m2).2.delivered = _
    rw [msis_delivered_eq, hs, hn, h1, h2]
    rfl
  · intro hw hh hlt
    obtain ⟨o', h1, -, -, -, h5⟩ := msis_setSonar_gl o hw hh hlt
    exact ⟨o', h1, by rw [h5]⟩
  · show List.Sublist (o.toOpenGLSSSView.UpdateTransform r m1 m2).2.delivered _
    rw [sss_delivered_eq]
    exact delivered_sublist _ _ _ _ _
  · intro hs hn h1 h2
    show (o.toOpenGLSSSView.UpdateTransform r m1 m2).2.delivered = _
    rw [sss_delivered_eq, hs, hn, h1, h2]
    rfl
  · intro hw hh hlt
    obtain ⟨o', h1, -, -, -, h5⟩ := sss_setSonar_gl o hw hh hlt
    exact ⟨o', h1, by rw [h5]⟩

/-- Witness of C22: a forward-looking view with a viewport of 512 by 512 gets a display
buffer of 786432 bytes; after one tick the commit delivers the display image 11 on
channel 0 and then the output image 10 on channel 1. -/
theorem delivery_channels_witness :
    ∃ o o' : OpenGLFLSObject ℕ ℕ,
      OpenGLFLSObject.ctor 3 (fun _ => 1 / 2) true ⟨0, 0, 0⟩ ⟨0, 0, -1⟩ ⟨0, 1, 0⟩ 60 10 256 512
        (1, 50) SonarOutputFormat.U8 = some o ∧
      o.setSonar = some o' ∧ o'.gl.displayPBO_ = some 786432 ∧
      (({ o' with toOpenGLFLSView := (o'.toOpenGLFLSView.tick ⟨1, 50, 1⟩ 10 11).1 } :
          OpenGLFLSObject ℕ ℕ).UpdateTransform ⟨1, 50, 1⟩ true true).2.delivered
        = [(some 11, 0), (some 10, 1)] := by
  have hsome : (OpenGLFLSObject.ctor (α := ℕ) (γ := ℕ) 3 (fun _ => 1 / 2) true ⟨0, 0, 0⟩ ⟨0, 0, -1⟩
      ⟨0, 1, 0⟩ 60 10 256 512 (1, 50) SonarOutputFormat.U8).isSome = true := by decide!
  obtain ⟨o, ho⟩ := Option.isSome_iff_exists.mp hsome
  have hw : o.viewportWidth = 512 ∧ o.viewportHeight = 512 := by
    have : (OpenGLFLSObject.ctor (α := ℕ) (γ := ℕ) 3 (fun _ => 1 / 2) true ⟨0, 0, 0⟩ ⟨0, 0, -1⟩
      ⟨0, 1, 0⟩ 60 10 256 512 (1, 50) SonarOutputFormat.U8).map
        (fun o => (o.viewportWidth, o.viewportHeight)) = some (512, 512) := by decide!
    rw [ho] at this
    simpa [Prod.ext_iff] using this
  obtain ⟨o', h1, h2⟩ := (delivery_channels.1 ℕ ℕ o ⟨1, 50, 1⟩ true true).2.2.2
    (by rw [hw.1]; decide) (by rw [hw.2]; decide) (by rw [hw.1, hw.2]; decide)
  rw [hw.1, hw.2] at h2
  obtain ⟨o'', h1', hv, -⟩ := fls_setSonar_gl o (by rw [hw.1]; decide) (by rw [hw.2]; decide)
    (by rw [hw.1, hw.2]; decide)
  have ho' : o' = o'' := Option.some.inj (h1.symm.trans h1')
  have hs : o'.toOpenGLFLSView.sonar_ = true := by rw [ho', hv]; rfl
  obtain ⟨-, t2, t3, t4, t5⟩ := fls_tick_spec o'.toOpenGLFLSView ⟨1, 50, 1⟩ 10 11 hs
  have key := (delivery_channels.1 ℕ ℕ
    ({ o' with toOpenGLFLSView := (o'.toOpenGLFLSView.tick ⟨1, 50, 1⟩ 10 11).1 } :
      OpenGLFLSObject ℕ ℕ) ⟨1, 50, 1⟩ true true).2.1 t2 t3 rfl rfl
  refine ⟨o, o', ho, h1, h2, ?_⟩
  rw [key]
  show [((o'.toOpenGLFLSView.tick ⟨1, 50, 1⟩ 10 11).1.displayPBO_, 0),
    ((o'.toOpenGLFLSView.tick ⟨1, 50, 1⟩ 10 11).1.outputPBO_, 1)] = _
  rw [t4, t5]

/-! ## Clip planes: theorems -/

theorem fls_commit_range {α : Type} (v : OpenGLFLSView α) (r : SonarReadings) (m1 m2 : Bool) :
    (v.UpdateTransform r m1 m2).1.range_
      = if v.sonar_ then (r.rangeMin, r.rangeMax) else v.range_ := by
  by_cases hs : v.sonar_ = true
  · rw [(fls_commit_settings v r m1 m2 hs).1, hs]
    rfl
  · unfold OpenGLFLSView.UpdateTransform
    simp [hs]

theorem msis_commit_range (v : OpenGLMSISView) (r : MSISReadings) (m1 m2 : Bool) :
    (v.UpdateTransform r m1 m2).1.msis.range_
      = if v.msis.sonar_ then (r.rangeMin, r.rangeMax) else v.msis.range_ := by
  by_cases hs : v.msis.sonar_ = true
  · rw [(msis_commit_view v r m1 m2 hs).1, (msis_UpdateTransform_settings v.msis r hs).1, hs]
    rfl
  · unfold OpenGLMSISView.UpdateTransform
    simp [hs]

theorem sss_commit_range (v : OpenGLSSSView) (r : SonarReadings) (m1 m2 : Bool) :
    (v.UpdateTransform r m1 m2).1.sss.range_
      = if v.sss.sonar_ then (r.rangeMin, r.rangeMax) else v.sss.range_ := by
  rw [sss_commit_view]
  by_cases hs : v.sss.sonar_ = true
  · rw [(sss_UpdateTransform_settings v.sss r m1 m2 hs).1, hs]
    rfl
  · unfold OpenGLSSS.UpdateTransform
    simp [hs]

theorem fls_commits_clip {α : Type} (cs : List (SonarReadings × Bool × Bool))
    (v : OpenGLFLSView α) (h0 : v.GetNearClip < v.GetFarClip)
    (hc : ∀ c ∈ cs, c.1.rangeMin < c.1.rangeMax) :
    (v.commits cs).GetNearClip < (v.commits cs).GetFarClip := by
  induction cs generalizing v with
  | nil => exact h0
  | cons c cs ih =>
    refine ih _ ?_ (fun x hx => hc x (List.mem_cons_of_mem _ hx))
    unfold OpenGLFLSView.GetNearClip OpenGLFLSView.GetFarClip
    rw [fls_commit_range]
    split_ifs
    · exact hc c (List.mem_cons_self _ _)
    · exact h0

theorem msis_commits_clip (cs : List (MSISReadings × Bool × Bool))
    (v : OpenGLMSISView) (h0 : v.GetNearClip < v.GetFarClip)
    (hc : ∀ c ∈ cs, c.1.rangeMin < c.1.rangeMax) :
    (v.commits cs).GetNearClip < (v.commits cs).GetFarClip := by
  induction cs generalizing v with
  | nil => exact h0
  | cons c cs ih =>
    refine ih _ ?_ (fun x hx => hc x (List.mem_cons_of_mem _ hx))
    unfold OpenGLMSISView.GetNearClip OpenGLMSISView.GetFarClip
    rw [msis_commit_range]
    split_ifs
    · exact hc c (List.mem_cons_self _ _)
    · exact h0

theorem sss_commits_clip (cs : List (SonarReadings × Bool × Bool))
    (v : OpenGLSSSView) (h0 : v.GetNearClip < v.GetFarClip)
    (hc : ∀ c ∈ cs, c.1.rangeMin < c.1.rangeMax) :
    (v.commits cs).GetNearClip < (v.commits cs).GetFarClip := by
  induction cs generalizing v with
  | nil => exact h0
  | cons c cs ih =>
    refine ih _ ?_ (fun x hx => hc x (List.mem_cons_of_mem _ hx))
    unfold OpenGLSSSView.GetNearClip OpenGLSSSView.GetFarClip
    rw [sss_commit_range]
    split_ifs
    · exact hc c (List.mem_cons_self _ _)
    · exact h0

/-- C23 (as stated, refuted): a forward-looking view constructed with the range (1, 50)
has near clip 1 below far clip 50; after a commit in which the sensor reports the range
minimum 50 and the range maximum 1, `GetNearClip()` is 50 and `GetFarClip()` is 1. -/
theorem fls_near_clip_not_below_far :
    (OpenGLFLSView.ctor (α := ℕ) true ⟨0, 0, 0⟩ ⟨0, 0, -1⟩ ⟨0, 1, 0⟩ 120 10 512 512 (1, 50)
        SonarOutputFormat.U8).map
      (fun v => (decide (v.GetNearClip < v.GetFarClip),
        (v.setSonar.commits [(⟨50, 1, 1⟩, true, true)]).GetNearClip,
        (v.setSonar.commits [(⟨50, 1, 1⟩, true, true)]).GetFarClip))
      = some (true, 50, 1) := by
  decide!

/-- C23 (amended): in each variant the clip planes after construction are the range given
to the constructor, `setSonar` keeps them, a commit without a sensor keeps them, and a
commit with a sensor makes them the range minimum and maximum that the sensor reports,
unchecked. So after every run of commits in which each reading has its minimum below its
maximum, started with near clip < far clip, `GetNearClip() < GetFarClip()`. -/
theorem clip_planes_follow_sensor :
    (∀ (α : Type) (v : OpenGLFLSView α),
      (∀ (en : Bool) (eye dir up : Vec3) (h w : ℚ) (n b : ℕ) (range : ℚ × ℚ)
          (fmt : SonarOutputFormat),
        OpenGLFLSView.ctor en eye dir up h w n b range fmt = some v →
          v.GetNearClip = range.1 ∧ v.GetFarClip = range.2) ∧
      v.setSonar.GetNearClip = v.GetNearClip ∧ v.setSonar.GetFarClip = v.GetFarClip ∧
      (∀ (r : SonarReadings) (m1 m2 : Bool),
        ((v.UpdateTransform r m1 m2).1.GetNearClip, (v.UpdateTransform r m1 m2).1.GetFarClip)
          = if v.sonar_ then (r.rangeMin, r.rangeMax) else (v.GetNearClip, v.GetFarClip)) ∧
      (∀ cs : List (SonarReadings × Bool × Bool), v.GetNearClip < v.GetFarClip →
        (∀ c ∈ cs, c.1.rangeMin < c.1.rangeMax) →
          (v.commits cs).GetNearClip < (v.commits cs).GetFarClip)) ∧
    (∀ v : OpenGLMSISView,
      (∀ (en : Bool) (eye dir up : Vec3) (hb vb : ℚ) (n b : ℕ) (range : ℚ × ℚ)
          (fmt : SonarOutputFormat),
        OpenGLMSISView.ctor en eye dir up hb vb n b range fmt = some v →
          v.GetNearClip = range.1 ∧ v.GetFarClip = range.2) ∧
      v.setSonar.GetNearClip = v.GetNearClip ∧ v.setSonar.GetFarClip = v.GetFarClip ∧
      (∀ (r : MSISReadings) (m1 m2 : Bool),
        ((v.UpdateTransform r m1 m2).1.GetNearClip, (v.UpdateTransform r m1 m2).1.GetFarClip)
          = if v.msis.sonar_ then (r.rangeMin, r.rangeMax) else (v.GetNearClip, v.GetFarClip)) ∧
      (∀ cs : List (MSISReadings × Bool × Bool), v.GetNearClip < v.GetFarClip →
        (∀ c ∈ cs, c.1.rangeMin < c.1.rangeMax) →
          (v.commits cs).GetNearClip < (v.commits cs).GetFarClip)) ∧
    (∀ v : OpenGLSSSView,
      (∀ (en : Bool) (eye dir up : Vec3) (vb hb : ℚ) (b : ℕ) (t : ℚ) (range : ℚ × ℚ)
          (fmt : SonarOutputFormat),
        OpenGLSSSView.ctor en eye dir up vb hb b t range fmt = some v →
          v.GetNearClip = range.1 ∧ v.GetFarClip = range.2) ∧
      v.setSonar.GetNearClip = v.GetNearClip ∧ v.setSonar.GetFarClip = v.GetFarClip ∧
      (∀ (r : SonarReadings) (m1 m2 : Bool),
        ((v.UpdateTransform r m1 m2).1.GetNearClip, (v.UpdateTransform r m1 m2).1.GetFarClip)
          = if v.sss.sonar_ then (r.rangeMin, r.rangeMax) else (v.GetNearClip, v.GetFarClip)) ∧
      (∀ cs : List (SonarReadings × Bool × Bool), v.GetNearClip < v.GetFarClip →
        (∀ c ∈ cs, c.1.rangeMin < c.1.rangeMax) →
          (v.commits cs).GetNearClip < (v.commits cs).GetFarClip)) := by
  refine ⟨fun α v => ⟨?_, rfl, rfl, ?_, fun cs h0 hc => fls_commits_clip cs v h0 hc⟩,
    fun v => ⟨?_, rfl, rfl, ?_, fun cs h0 hc => msis_commits_clip cs v h0 hc⟩,
    fun v => ⟨?_, rfl, rfl, ?_, fun cs h0 hc => sss_commits_clip cs v h0 hc⟩⟩
  · intro en eye dir up h w n b range fmt hv
    obtain ⟨-, -, -, -, e, -⟩ := fls_view_ctor_fields en eye dir up h w n b range fmt v hv
    unfold OpenGLFLSView.GetNearClip OpenGLFLSView.GetFarClip
    rw [e]
    exact ⟨rfl, rfl⟩
  · intro r m1 m2
    unfold OpenGLFLSView.GetNearClip OpenGLFLSView.GetFarClip
    rw [fls_commit_range]
  · intro en eye dir up hb vb n b range fmt hv
    obtain ⟨-, -, -, -, e, -⟩ := msis_view_ctor_fields en eye dir up hb vb n b range fmt v hv
    unfold OpenGLMSISView.GetNearClip OpenGLMSISView.GetFarClip
    rw [e]
    exact ⟨rfl, rfl⟩
  · intro r m1 m2
    unfold OpenGLMSISView.GetNearClip OpenGLMSISView.GetFarClip
    rw [msis_commit_range]
  · intro en eye dir up vb hb b t range fmt hv
    obtain ⟨-, -, e, -⟩ := sss_view_ctor_fields en eye dir up vb hb b t range fmt v hv
    unfold OpenGLSSSView.GetNearClip OpenGLSSSView.GetFarClip
    rw [e]
    exact ⟨rfl, rfl⟩
  · intro r m1 m2
    unfold OpenGLSSSView.GetNearClip OpenGLSSSView.GetFarClip
    rw [sss_commit_range]

/-- Witness of C23 (amended): constructed with (1, 50), then two commits with the sensor
ranges (2, 40) and (3, 30). -/
theorem clip_planes_follow_sensor_witness :
    ∃ v : OpenGLFLSView ℕ,
      OpenGLFLSView.ctor true ⟨0, 0, 0⟩ ⟨0, 0, -1⟩ ⟨0, 1, 0⟩ 120 10 512 512 (1, 50)
        SonarOutputFormat.U8 = some v ∧
      (v.setSonar.commits [(⟨2, 40, 1⟩, true, true), (⟨3, 30, 2⟩, false, true)]).GetNearClip
        < (v.setSonar.commits [(⟨2, 40, 1⟩, true, true), (⟨3, 30, 2⟩, false, true)]).GetFarClip := by
  have hsome : (OpenGLFLSView.ctor (α := ℕ) true ⟨0, 0, 0⟩ ⟨0, 0, -1⟩ ⟨0, 1, 0⟩ 120 10 512 512
      (1, 50) SonarOutputFormat.U8).isSome = true := by decide!
  obtain ⟨v, hv⟩ := Option.isSome_iff_exists.mp hsome
  obtain ⟨hc, -, -, -, -⟩ := clip_planes_follow_sensor.1 ℕ v
  obtain ⟨e1, e2⟩ := hc _ _ _ _ _ _ _ _ _ _ hv
  refine ⟨v, hv, (clip_planes_follow_sensor.1 ℕ v.setSonar).2.2.2.2 _ ?_ ?_⟩
  · show v.GetNearClip < v.GetFarClip
    rw [e1, e2]
    norm_num
  · intro c hc
    simp only [List.mem_cons, List.mem_singleton, List.not_mem_nil, or_false] at hc
    rcases hc with rfl | rfl <;> norm_num

/-! ## Noise and colour map: theorems -/

theorem fls_commit_noise {α : Type} (v : OpenGLFLSView α) (r : SonarReadings) (m1 m2 : Bool) :
    (v.UpdateTransform r m1 m2).1.noise_ = v.noise_ := by
  unfold OpenGLFLSView.UpdateTransform
  by_cases h0 : v.sonar_ = true <;> by_cases h1 : r.rangeMin = v.range_.1 <;>
    by_cases h2 : r.rangeMax = v.range_.2 <;> by_cases h3 : r.gain = v.gain_ <;>
    by_cases h4 : v.newData_ = true <;> simp [h0, h1, h2, h3, h4]

theorem msis_UpdateTransform_noise (s : OpenGLMSIS) (r : MSISReadings) :
    (s.UpdateTransform r).noise_ = s.noise_ := by
  unfold OpenGLMSIS.UpdateTransform
  by_cases hs : s.sonar_ = true <;>
    by_cases h0 : s.rotationLimits_.1 = r.rotL1 <;> by_cases h0' : s.rotationLimits_.2 = r.rotL2 <;>
    by_cases h1 : r.rangeMin = s.range_.1 <;> by_cases h2 : r.rangeMax = s.range_.2 <;>
    by_cases h3 : r.gain = s.gain_ <;>
    simp [h0, h0', h1, h2, h3, hs]

theorem msis_commit_noise (v : OpenGLMSISView) (r : MSISReadings) (m1 m2 : Bool) :
    (v.UpdateTransform r m1 m2).1.msis.noise_ = v.msis.noise_ := by
  by_cases hs : v.msis.sonar_ = true
  · rw [(msis_commit_view v r m1 m2 hs).1, msis_UpdateTransform_noise]
  · unfold OpenGLMSISView.UpdateTransform
    simp [hs]

theorem msis_ComputeOutput_noise (s : OpenGLMSIS) :
    s.ComputeOutput.2.noiseStddev = s.noise_ := by
  unfold OpenGLMSIS.ComputeOutput
  split_ifs <;> rfl

theorem sss_commit_noise (v : OpenGLSSSView) (r : SonarReadings) (m1 m2 : Bool) :
    (v.UpdateTransform r m1 m2).1.sss.noise_ = v.sss.noise_ := by
  rw [sss_commit_view]
  unfold OpenGLSSS.UpdateTransform
  by_cases hs : v.sss.sonar_ = true <;> by_cases hn : v.sss.newData_ = true <;>
    by_cases h1 : r.rangeMin = v.sss.range_.1 <;> by_cases h2 : r.rangeMax = v.sss.range_.2 <;>
    by_cases h3 : r.gain = v.sss.gain_ <;>
    simp [hs, hn, h1, h2, h3]

/-- C24 (as stated, refuted): after a commit, `setNoise((1/40, 7/200))` and
`setColorMap(5)` are called; the `ComputeOutput` that follows, with no `UpdateTransform` in
between, passes the noise (1/40, 7/200) and the colour map 5 to the shaders, where without
the two calls it passes (0, 0) and 3. -/
theorem fls_noise_used_before_commit :
    ((OpenGLFLSObject.ctor (α := ℕ) (γ := ℕ) 3 (fun _ => 1 / 2) true ⟨0, 0, 0⟩ ⟨0, 0, -1⟩ ⟨0, 1, 0⟩
        60 10 256 512 (1, 50) SonarOutputFormat.U8).bind (fun o => o.setSonar)).map
      (fun o =>
        (((o.UpdateTransform ⟨1, 50, 1⟩ true true).1.ComputeOutput 10 11).2,
          ((((o.UpdateTransform ⟨1, 50, 1⟩ true true).1.setNoise (1 / 40, 7 / 200)).setColorMap
            5).ComputeOutput 10 11).2))
      = some ([.noiseStddev (0, 0), .gain 1, .colorMap 3],
          [.noiseStddev (1 / 40, 7 / 200), .gain 1, .colorMap 5]) := by
  decide!

/-- C24 (amended): in each variant the value given to `setNoise` is the one `noiseStddev`
that the next `ComputeOutput` passes to the shaders, and the value given to `setColorMap`
the one `colorMap`, both when `ComputeOutput` follows the setter directly and when a commit
runs in between. -/
theorem setters_take_effect_at_once :
    (∀ (α γ : Type) (o : OpenGLFLSObject α γ) (n : ℚ × ℚ) (cm : γ) (out disp : α)
        (r : SonarReadings) (m1 m2 : Bool),
      (∀ x, SonarUniform.noiseStddev x ∈ ((o.setNoise n).ComputeOutput out disp).2 ↔ x = n) ∧
      (∀ c, SonarUniform.colorMap c ∈ ((o.setColorMap cm).ComputeOutput out disp).2 ↔ c = cm) ∧
      (∀ x, SonarUniform.noiseStddev x
          ∈ (((o.setNoise n).UpdateTransform r m1 m2).1.ComputeOutput out disp).2 ↔ x = n) ∧
      (∀ c, SonarUniform.colorMap c
          ∈ (((o.setColorMap cm).UpdateTransform r m1 m2).1.ComputeOutput out disp).2 ↔ c = cm)) ∧
    (∀ (γ : Type) (o : OpenGLMSISObject γ) (n : ℚ × ℚ) (cm : γ)
        (r : MSISReadings) (m1 m2 : Bool),
      (∀ x, SonarUniform.noiseStddev x ∈ (o.setNoise n).ComputeOutput.2 ↔ x = n) ∧
      (∀ c, SonarUniform.colorMap c ∈ (o.setColorMap cm).ComputeOutput.2 ↔ c = cm) ∧
      (∀ x, SonarUniform.noiseStddev x
          ∈ ((o.setNoise n).UpdateTransform r m1 m2).1.ComputeOutput.2 ↔ x = n) ∧
      (∀ c, SonarUniform.colorMap c
          ∈ ((o.setColorMap cm).UpdateTransform r m1 m2).1.ComputeOutput.2 ↔ c = cm)) ∧
    (∀ (γ : Type) (o : OpenGLSSSObject γ) (n : ℚ × ℚ) (cm : γ)
        (r : SonarReadings) (m1 m2 : Bool),
      (∀ x, SonarUniform.noiseStddev x ∈ (o.setNoise n).ComputeOutput.2 ↔ x = n) ∧
      (∀ c, SonarUniform.colorMap c ∈ (o.setColorMap cm).ComputeOutput.2 ↔ c = cm) ∧
      (∀ x, SonarUniform.noiseStddev x
          ∈ ((o.setNoise n).UpdateTransform r m1 m2).1.ComputeOutput.2 ↔ x = n) ∧
      (∀ c, SonarUniform.colorMap c
          ∈ ((o.setColorMap cm).UpdateTransform r m1 m2).1.ComputeOutput.2 ↔ c = cm)) := by
  refine ⟨fun α γ o n cm out disp r m1 m2 => ⟨?_, ?_, ?_, ?_⟩,
    fun γ o n cm r m1 m2 => ⟨?_, ?_, ?_, ?_⟩, fun γ o n cm r m1 m2 => ⟨?_, ?_, ?_, ?_⟩⟩
  · intro x
    unfold OpenGLFLSObject.ComputeOutput OpenGLFLSObject.setNoise
    dsimp only
    split_ifs <;> simp
  · intro c
    unfold OpenGLFLSObject.ComputeOutput OpenGLFLSObject.setColorMap
    dsimp only
    split_ifs <;> simp
  · intro x
    have e : ((o.setNoise n).UpdateTransform r m1 m2).1.noise_ = n :=
      fls_commit_noise (o.setNoise n).toOpenGLFLSView r m1 m2
    unfold OpenGLFLSObject.ComputeOutput
    dsimp only
    rw [e]
    split_ifs <;> simp
  · intro c
    have e : ((o.setColorMap cm).UpdateTransform r m1 m2).1.cMap_ = cm := rfl
    unfold OpenGLFLSObject.ComputeOutput
    dsimp only
    rw [e]
    split_ifs <;> simp
  · intro x
    unfold OpenGLMSISObject.ComputeOutput
    dsimp only
    rw [msis_ComputeOutput_noise]
    simp [OpenGLMSISObject.setNoise, OpenGLMSIS.setNoise]
  · intro c
    unfold OpenGLMSISObject.ComputeOutput OpenGLMSISObject.setColorMap
    simp
  · intro x
    have e : ((o.setNoise n).UpdateTransform r m1 m2).1.msis.noise_ = n :=
      msis_commit_noise (o.setNoise n).toOpenGLMSISView r m1 m2
    unfold OpenGLMSISObject.ComputeOutput
    dsimp only
    rw [msis_ComputeOutput_noise, e]
    simp
  · intro c
    have e : ((o.setColorMap cm).UpdateTransform r m1 m2).1.cMap_ = cm := rfl
    unfold OpenGLMSISObject.ComputeOutput
    dsimp only
    rw [e]
    simp
  · intro x
    unfold OpenGLSSSObject.ComputeOutput
    simp [OpenGLSSSObject.setNoise, OpenGLSSS.setNoise]
  · intro c
    unfold OpenGLSSSObject.ComputeOutput OpenGLSSSObject.setColorMap
    simp
  · intro x
    have e : ((o.setNoise n).UpdateTransform r m1 m2).1.sss.noise_ = n :=
      sss_commit_noise (o.setNoise n).toOpenGLSSSView r m1 m2
    unfold OpenGLSSSObject.ComputeOutput
    dsimp only
    rw [e]
    simp
  · intro c
    have e : ((o.setColorMap cm).UpdateTransform r m1 m2).1.cMap_ = cm := rfl
    unfold OpenGLSSSObject.ComputeOutput
    dsimp only
    rw [e]
    simp

/-! ## Field of view of the fisheye view: theorems -/

theorem glm_clamp_bounds (x a b : ℚ) (hab : a ≤ b) :
    a ≤ glm_clamp x a b ∧ glm_clamp x a b ≤ b := by
  unfold glm_clamp
  exact ⟨le_min (le_max_right _ _) hab, min_le_right _ _⟩

theorem fisheye_ctor_eq (enabled : Bool) (deg : ℚ) (continuousUpdate : Bool)
    (hd : |deg| ≤ 2 ^ 128) :
    OpenGLFisheyeCameraLens.ctor enabled deg continuousUpdate
      = some { enabled := enabled
               _needsUpdate := false
               newData := false
               continuous := continuousUpdate
               near := nearestGLfloat (5 / 100)
               far := 200
               fov := glm_clamp (nearestGLfloat (nearestGLfloat (deg / 180) * (13176795 / 4194304)))
                 (13421773 / 134217728) (13176795 / 4194304)
               focal := nearestGLfloat (1 / (glm_clamp
                 (nearestGLfloat (nearestGLfloat (deg / 180) * (13176795 / 4194304)))
                 (13421773 / 134217728) (13176795 / 4194304) / 2)) } := by
  have hq : |deg / 180| ≤ (2 : ℚ) ^ (121 : ℤ) := by
    rw [abs_div, div_le_iff₀ (by norm_num)]
    have : (2 : ℚ) ^ (128 : ℕ) ≤ (2 : ℚ) ^ (121 : ℤ) * |(180 : ℚ)| := by norm_num [abs_of_pos]
    exact hd.trans this
  have h1 := roundGLfloat_eq_some (deg / 180) 121 (by norm_num) (by norm_num) hq
  have hq2 := abs_nearestGLfloat_le (deg / 180) 121 (by norm_num) hq
  have hx : |nearestGLfloat (deg / 180) * (13176795 / 4194304)| ≤ (2 : ℚ) ^ (123 : ℤ) := by
    rw [abs_mul, abs_of_pos (by norm_num : (0 : ℚ) < 13176795 / 4194304)]
    have : (2 : ℚ) ^ (123 : ℤ) = (2 : ℚ) ^ (121 : ℤ) * 4 := by norm_num
    rw [this]
    exact mul_le_mul hq2 (by norm_num) (by norm_num) (by positivity)
  have h2 := roundGLfloat_eq_some _ 123 (by norm_num) (by norm_num) hx
  obtain ⟨hlo, hhi⟩ := glm_clamp_bounds
    (nearestGLfloat (nearestGLfloat (deg / 180) * (13176795 / 4194304)))
    (13421773 / 134217728) (13176795 / 4194304) (by norm_num)
  have hfl : nearestGLfloat (glm_clamp
      (nearestGLfloat (nearestGLfloat (deg / 180) * (13176795 / 4194304)))
      (13421773 / 134217728) (13176795 / 4194304))
      = glm_clamp (nearestGLfloat (nearestGLfloat (deg / 180) * (13176795 / 4194304)))
      (13421773 / 134217728) (13176795 / 4194304) := by
    unfold glm_clamp
    rcases min_choice (max (nearestGLfloat (nearestGLfloat (deg / 180) * (13176795 / 4194304)))
      (13421773 / 134217728)) (13176795 / 4194304) with e | e
    · rw [e]
      rcases max_choice (nearestGLfloat (nearestGLfloat (deg / 180) * (13176795 / 4194304)))
        (13421773 / 134217728) with e2 | e2
      · rw [e2]
        exact nearestGLfloat_idem _ (abs_lt_of_le_zpow _ 123 (by norm_num) hx)
      · rw [e2, ← nearestGLfloat_one_tenth]
        exact nearestGLfloat_idem _ (abs_lt_of_le_zpow _ 0 (by norm_num)
          (by rw [abs_of_pos (by norm_num)]; norm_num))
    · rw [e, ← nearestGLfloat_M_PI]
      exact nearestGLfloat_idem _ (abs_lt_of_le_zpow _ 2 (by norm_num)
        (by rw [abs_of_pos (by norm_num [M_PI])]; norm_num [M_PI]))
  generalize hfv : glm_clamp (nearestGLfloat (nearestGLfloat (deg / 180) * (13176795 / 4194304)))
      (13421773 / 134217728) (13176795 / 4194304) = fov at hlo hhi hfl
  have hpos : 0 < fov := lt_of_lt_of_le (by norm_num) hlo
  have habs : |fov| = fov := abs_of_pos hpos
  have hhalf := nearestGLfloat_half fov hfl
    (by rw [habs]; exact le_trans (by norm_num) hlo)
    (abs_lt_of_le_zpow _ 2 (by norm_num) (by rw [habs]; exact le_trans hhi (by norm_num)))
  have h3 : roundGLfloat (1 / 2 * fov) = some (fov / 2) := by
    have e : 1 / 2 * fov = fov / 2 := by ring
    rw [e, roundGLfloat_eq_some (fov / 2) 1 (by norm_num) (by norm_num)
      (by rw [abs_div, habs, abs_of_pos (by norm_num : (0 : ℚ) < 2)]; norm_num; linarith), hhalf]
  have h4 : roundGLfloat (1 / (fov / 2)) = some (nearestGLfloat (1 / (fov / 2))) := by
    apply roundGLfloat_eq_some _ 5 (by norm_num) (by norm_num)
    have hh : 0 < fov / 2 := div_pos hpos (by norm_num)
    rw [abs_of_pos (one_div_pos.mpr hh), div_le_iff₀ hh]
    norm_num
    linarith
  have hne : fov / 2 ≠ 0 := (div_pos hpos (by norm_num)).ne' 
  unfold OpenGLFisheyeCameraLens.ctor
  simp only [divGLfloat, mulGLfloat, nearestGLfloat_M_PI, nearestGLfloat_one_tenth, h1, h2,
    Option.bind_eq_bind, Option.some_bind, Option.pure_def, if_neg (by norm_num : (180 : ℚ) ≠ 0),
    hfv, h3, h4, if_neg hne]

/-- C25 (as stated, refuted): for a request of 13 degrees the stored values are
`fov = 15226519 / 2 ^ 26` and `focal = 9242919 / 2 ^ 20`, and `focal * fov / 2` is not 1,
neither as a number nor when the product is computed in binary32 (`1 - 2 ^ -24`); for a
request of 180 degrees the stored `fov` is `(GLfloat)M_PI = 13176795 / 2 ^ 22`, which is
more than the angle of 180 degrees. -/
theorem fisheye_focal_not_exact :
    (OpenGLFisheyeCameraLens.ctor true 13 false).map
        (fun c => ((c.fov, c.focal), (decide (c.focal * c.fov / 2 = 1),
          (mulGLfloat c.focal c.fov).bind (fun p => divGLfloat p 2))))
      = some ((15226519 / 67108864, 9242919 / 1048576), (false, some (16777215 / 16777216))) ∧
    (OpenGLFisheyeCameraLens.ctor true 180 false).map (fun c => c.fov)
      = some (13176795 / 4194304) ∧
    Real.pi < ((13176795 / 4194304 : ℚ) : ℝ) := by
  refine ⟨by decide!, by decide!, ?_⟩
  have := Real.pi_lt_d20
  push_cast
  norm_num at this ⊢
  linarith

/-- C25 (amended): for every requested horizontal field of view (a finite number of
degrees) the constructor stores `fov = clamp(x, 0.1f, (GLfloat)M_PI)`, where `x` is the
requested angle converted in binary32, `deg / 180.f` rounded, times `(GLfloat)M_PI`,
rounded; `0.1f = 13421773 / 2 ^ 27`, and `(GLfloat)M_PI = 13176795 / 2 ^ 22` is above the
angle of 180 degrees by less than `10 ^ -7`. The stored `fov` lies between these two
bounds, `focal` is `1 / (fov / 2)` rounded to binary32, and `focal * fov / 2` differs
from 1 by at most `2 ^ -24`. -/
theorem fisheye_fov_clamped (enabled : Bool) (horizontalFovDeg : ℚ) (continuousUpdate : Bool)
    (hd : |horizontalFovDeg| ≤ 2 ^ 128) :
    ∃ c, OpenGLFisheyeCameraLens.ctor enabled horizontalFovDeg continuousUpdate = some c ∧
      c.fov = min (max (nearestGLfloat (nearestGLfloat (horizontalFovDeg / 180)
          * nearestGLfloat M_PI)) (nearestGLfloat (1 / 10))) (nearestGLfloat M_PI) ∧
      nearestGLfloat (1 / 10) = 13421773 / 134217728 ∧
      nearestGLfloat M_PI = 13176795 / 4194304 ∧
      Real.pi < ((nearestGLfloat M_PI : ℚ) : ℝ) ∧
      ((nearestGLfloat M_PI : ℚ) : ℝ) < Real.pi + 1 / 10 ^ 7 ∧
      nearestGLfloat (1 / 10) ≤ c.fov ∧ c.fov ≤ nearestGLfloat M_PI ∧
      c.focal = nearestGLfloat (1 / (c.fov / 2)) ∧
      |c.focal * c.fov / 2 - 1| ≤ 1 / 2 ^ 24 := by
  refine ⟨_, fisheye_ctor_eq enabled horizontalFovDeg continuousUpdate hd, ?_, ?_, ?_, ?_, ?_, ?_⟩
  · rw [nearestGLfloat_M_PI, nearestGLfloat_one_tenth]
    rfl
  · exact nearestGLfloat_one_tenth
  · exact nearestGLfloat_M_PI
  · rw [nearestGLfloat_M_PI]
    have := Real.pi_lt_d20
    push_cast
    norm_num at this ⊢
    linarith
  · rw [nearestGLfloat_M_PI]
    have := Real.pi_gt_d20
    push_cast
    norm_num at this ⊢
    linarith
  · rw [nearestGLfloat_M_PI, nearestGLfloat_one_tenth]
    obtain ⟨hlo, hhi⟩ := glm_clamp_bounds
      (nearestGLfloat (nearestGLfloat (horizontalFovDeg / 180) * (13176795 / 4194304)))
      (13421773 / 134217728) (13176795 / 4194304) (by norm_num)
    refine ⟨hlo, hhi, rfl, ?_⟩
    simp only
    generalize glm_clamp (nearestGLfloat (nearestGLfloat (horizontalFovDeg / 180)
      * (13176795 / 4194304))) (13421773 / 134217728) (13176795 / 4194304) = fov at hlo hhi ⊢
    have hpos : 0 < fov := lt_of_lt_of_le (by norm_num) hlo
    have hinv : (1 : ℚ) / 4 ≤ 1 / (fov / 2) := by
      rw [le_div_iff₀ (div_pos hpos (by norm_num))]
      linarith
    have hbig : (2 : ℚ) ^ (-126 : ℤ) ≤ |1 / (fov / 2)| := by
      rw [abs_of_pos (lt_of_lt_of_le (by norm_num) hinv)]
      exact le_trans (by norm_num) hinv
    have herr := abs_nearestGLfloat_sub_le_mul (1 / (fov / 2)) hbig
    rw [abs_of_pos (lt_of_lt_of_le (by norm_num) hinv)] at herr
    have e : nearestGLfloat (1 / (fov / 2)) * fov / 2 - 1
        = (nearestGLfloat (1 / (fov / 2)) - 1 / (fov / 2)) * (fov / 2) := by
      field_simp
    rw [e, abs_mul, abs_of_pos (div_pos hpos (by norm_num : (0 : ℚ) < 2))]
    calc |nearestGLfloat (1 / (fov / 2)) - 1 / (fov / 2)| * (fov / 2)
        ≤ 1 / (fov / 2) / 2 ^ (24 : ℕ) * (fov / 2) :=
          mul_le_mul_of_nonneg_right herr (div_pos hpos (by norm_num)).le
      _ = 1 / 2 ^ 24 := by
          field_simp
          ring

/-- Witness of C25 (amended): a request of 13 degrees. -/
theorem fisheye_fov_clamped_witness :
    ∃ c, OpenGLFisheyeCameraLens.ctor true 13 false = some c ∧
      nearestGLfloat (1 / 10) ≤ c.fov ∧ c.fov ≤ nearestGLfloat M_PI ∧
      |c.focal * c.fov / 2 - 1| ≤ 1 / 2 ^ 24 := by
  obtain ⟨c, h1, -, -, -, -, -, h6, h7, -, h9⟩ :=
    fisheye_fov_clamped true 13 false (by rw [abs_of_pos (by norm_num)]; norm_num)
  exact ⟨c, h1, h6, h7, h9⟩

/-! ## Beam split: the last view -/

/-- C26 (defect of the code): with a horizontal field of view of 120 degrees and 9 beams
the constructor makes 6 views, `beams1 = roundf(9 / 6) = 2`, and the unsigned subtraction
`9 - 2 * 5` wraps: the last view gets 4294967295 beams, more than the 9 beams of the
sonar. -/
theorem fls_last_view_wraps_120_9 :
    (OpenGLFLS.ctor 120 10 9 512).map (fun s => s.views_.map SonarView.nBeams)
      = some [2, 2, 2, 2, 2, 4294967295] := by
  decide!

/-! ## Mechanical sonar: range of the column index -/

/-- C27: for the mechanical sonar with a sensor attached, `stepCount ≥ 1` and a signed
32-bit current step `s` reported by the sensor, the column index
`(GLuint)(s + (GLint)(stepCount / 2))` that `ComputeOutput` computes after the commit is
below `stepCount` if and only if `-(stepCount / 2) ≤ s < stepCount - stepCount / 2`; a step
below `-(stepCount / 2)` gives an index of at least `stepCount`. -/
theorem msis_rotation_index_lt_iff (s : OpenGLMSIS) (r : MSISReadings)
    (hs : s.sonar_ = true) (h1 : 1 ≤ s.nSteps_) (hn : s.nSteps_ < 4294967296)
    (hlo : -2147483648 ≤ r.currentRotationStep) (hhi : r.currentRotationStep < 2147483648) :
    ((s.UpdateTransform r).ComputeOutput.2.rotationStep < s.nSteps_ ↔
      -((s.nSteps_ / 2 : ℕ) : ℤ) ≤ r.currentRotationStep ∧
        r.currentRotationStep < (s.nSteps_ : ℤ) - ((s.nSteps_ / 2 : ℕ) : ℤ)) ∧
    (r.currentRotationStep < -((s.nSteps_ / 2 : ℕ) : ℤ) →
      s.nSteps_ ≤ (s.UpdateTransform r).ComputeOutput.2.rotationStep) := by
  have hN : (s.UpdateTransform r).nSteps_ = s.nSteps_ := msis_UpdateTransform_nSteps s r
  have hC : (s.UpdateTransform r).currentStep_ = r.currentRotationStep :=
    msis_UpdateTransform_currentStep s r hs
  have key := msis_rotationStep_eq (s.UpdateTransform r) (by rw [hN]; exact hn)
  rw [hN, hC] at key
  generalize (s.UpdateTransform r).ComputeOutput.2.rotationStep = k at key ⊢
  generalize r.currentRotationStep = c at key hlo hhi ⊢
  generalize s.nSteps_ = n at key h1 hn ⊢
  constructor
  · constructor
    · intro h
      omega
    · intro h
      omega
  · intro h
    omega

/-- Witness of C27: 400 steps and the current step -201, one below `-(400 / 2)`; the index
is not below 400. -/
theorem msis_rotation_index_lt_iff_witness :
    ∃ s0, OpenGLMSIS.ctor 1 30 400 100 (1, 50) = some s0 ∧
      400 ≤ (s0.setSonar.UpdateTransform ⟨1, 50, 1, -180, 180, -201⟩).ComputeOutput.2.rotationStep := by
  obtain ⟨s0, h0⟩ := msis_ctor_isSome 1 30 400 100 (1, 50) (by norm_num) (by norm_num)
    (by norm_num) (by norm_num)
  obtain ⟨-, -, -, -, hn⟩ := msis_ctor_fields _ _ _ _ _ s0 h0
  have hn' : s0.setSonar.nSteps_ = 400 := hn
  have key := (msis_rotation_index_lt_iff s0.setSonar ⟨1, 50, 1, -180, 180, -201⟩ rfl
    (by rw [hn']; decide) (by rw [hn']; decide) (by decide) (by decide)).2
    (by rw [hn']; decide)
  rw [hn'] at key
  exact ⟨s0, h0, key⟩

/-! ## Update flag of a disabled view -/

/-- C28: `needsUpdate()` leaves the flag cleared in every state; after `Update()`, a call
of `needsUpdate()` on the disabled view returns false, a call after enabling the view
returns false as well, and a call after another `Update()` returns true; for the sonar
views and for the fisheye view. -/
theorem needsUpdate_clears_when_disabled :
    (∀ s : OpenGLSonar,
      s.needsUpdate.2.needsUpdate_ = false ∧
      ({ s.Update with enabled := false } : OpenGLSonar).needsUpdate.1 = false ∧
      ({ ({ s.Update with enabled := false } : OpenGLSonar).needsUpdate.2 with
          enabled := true } : OpenGLSonar).needsUpdate.1 = false ∧
      ({ ({ s.Update with enabled := false } : OpenGLSonar).needsUpdate.2 with
          enabled := true } : OpenGLSonar).Update.needsUpdate.1 = true) ∧
    (∀ s : OpenGLFisheyeCamera,
      s.needsUpdate.2._needsUpdate = false ∧
      ({ s.Update with enabled := false } : OpenGLFisheyeCamera).needsUpdate.1 = false ∧
      ({ ({ s.Update with enabled := false } : OpenGLFisheyeCamera).needsUpdate.2 with
          enabled := true } : OpenGLFisheyeCamera).needsUpdate.1 = false ∧
      ({ ({ s.Update with enabled := false } : OpenGLFisheyeCamera).needsUpdate.2 with
          enabled := true } : OpenGLFisheyeCamera).Update.needsUpdate.1 = true) := by
  constructor
  · intro s
    refine ⟨sonar_needsUpdate_clears s, ?_, ?_, ?_⟩ <;>
      simp [OpenGLSonar.needsUpdate, OpenGLSonar.Update]
  · intro s
    refine ⟨fisheye_needsUpdate_clears s, ?_, ?_, ?_⟩ <;>
      simp [OpenGLFisheyeCamera.needsUpdate, OpenGLFisheyeCamera.Update]

/-! ## Projection matrices: theorems -/

theorem frustum_eq_perspective {K : Type} [Field K] [CharZero K] (cosf tanf : ℚ → K)
    (fovx fovy near far : ℚ) (hn : near ≠ 0) (ht : tanf (fovy / 2) ≠ 0) :
    (Projection.frustum fovx fovy (near / 2) far).toMat4 cosf tanf
      = glm_perspective (tanf (fovy / 2)) (tanf (fovx / 2) / tanf (fovy / 2))
          ((near : K) / 2) (far : K) := by
  have hn' : (near : K) ≠ 0 := by exact_mod_cast hn
  have h2 : ((near / 2 : ℚ) : K) = (near : K) / 2 := by push_cast; rfl
  have h3 : (near : K) / 2 ≠ 0 := div_ne_zero hn' two_ne_zero
  simp only [Projection.toMat4, glm_perspective]
  rw [h2]
  have e0 : (near : K) / 2 / ((near : K) / 2 * tanf (fovx / 2))
      = 1 / (tanf (fovx / 2) / tanf (fovy / 2) * tanf (fovy / 2)) := by
    rw [div_mul_cancel₀ _ ht, div_mul_eq_div_div, div_self h3]
  have e1 : (near : K) / 2 / ((near : K) / 2 * tanf (fovy / 2)) = 1 / tanf (fovy / 2) := by
    rw [div_mul_eq_div_div, div_self h3]
  have e3 : -2 * (far : K) * ((near : K) / 2) / ((far : K) - (near : K) / 2)
      = -(2 * (far : K) * ((near : K) / 2)) / ((far : K) - (near : K) / 2) := by
    ring
  rw [e0, e1, e3]

theorem fls_commit_frustum {α : Type} (v : OpenGLFLSView α) (r : SonarReadings)
    (m1 m2 : Bool) (hs : v.sonar_ = true)
    (hr : r.rangeMin ≠ v.range_.1 ∨ r.rangeMax ≠ v.range_.2) :
    (v.UpdateTransform r m1 m2).1.projection_
      = .frustum v.fls.viewFovCorr v.fls.fov_.2 (r.rangeMin / 2) r.rangeMax ∧
    (v.UpdateTransform r m1 m2).1.fls = v.fls := by
  unfold OpenGLFLSView.UpdateTransform
  by_cases h1 : r.rangeMin = v.range_.1 <;> by_cases h2 : r.rangeMax = v.range_.2 <;>
    by_cases h3 : r.gain = v.gain_ <;> by_cases h4 : v.newData_ = true <;>
    simp [h1, h2, h3, h4, hs] <;> simp [h1, h2] at hr

theorem cos_gt_half (a : ℚ) (h0 : 0 ≤ a) (h1 : a ≤ 1) : (1 : ℝ) / 2 < Real.cos (a : ℝ) := by
  have ha0 : (0 : ℝ) ≤ (a : ℝ) := by exact_mod_cast h0
  have ha1 : (a : ℝ) ≤ 1 := by exact_mod_cast h1
  have hpi := Real.pi_gt_three
  rw [← Real.cos_pi_div_three]
  exact Real.cos_lt_cos_of_nonneg_of_le_pi ha0 (by linarith) (by linarith)

/-- C29 (defect of the code): for 120 degrees, 512 beams and the range (1, 50) the
constructor builds its matrix with the near plane `1 * cos(max(viewFovCorr / 2, fov_.y / 2))`,
and a commit that changes the range to (1, 50) builds its matrix with the near plane 1/2;
with the cosine and tangent of the real numbers the two matrices differ (the cosine of an
angle below 1 radian is above 1/2). -/
theorem fls_projection_near_plane_differs :
    (OpenGLFLSView.ctor (α := ℕ) true ⟨0, 0, 0⟩ ⟨0, 0, -1⟩ ⟨0, 1, 0⟩ 120 10 512 512 (1, 50)
        SonarOutputFormat.U8).map (fun v => v.projection_)
      = some (.perspective (viewFovCorrOf 87 512 (radians 120)) (radians 10) 1 50) ∧
    (OpenGLFLSView.ctor (α := ℕ) true ⟨0, 0, 0⟩ ⟨0, 0, -1⟩ ⟨0, 1, 0⟩ 120 10 512 512 (2, 50)
        SonarOutputFormat.U8).map
        (fun v => (v.setSonar.UpdateTransform ⟨1, 50, 1⟩ true true).1.projection_)
      = some (.frustum (viewFovCorrOf 87 512 (radians 120)) (radians 10) (1 / 2) 50) ∧
    (Projection.perspective (viewFovCorrOf 87 512 (radians 120)) (radians 10) 1 50).toMat4
        (fun x => Real.cos (x : ℝ)) (fun x => Real.tan (x : ℝ))
      ≠ (Projection.frustum (viewFovCorrOf 87 512 (radians 120)) (radians 10) (1 / 2) 50).toMat4
        (fun x => Real.cos (x : ℝ)) (fun x => Real.tan (x : ℝ)) := by
  refine ⟨by decide!, by decide!, fun h => ?_⟩
  have hz := congrArg (fun m => m.c2.z) h
  simp only [Projection.toMat4, glm_perspective] at hz
  have hc := cos_gt_half (max (viewFovCorrOf 87 512 (radians 120) / 2) (radians 10 / 2))
    (by decide!) (by decide!)
  generalize Real.cos ((max (viewFovCorrOf 87 512 (radians 120) / 2) (radians 10 / 2) : ℚ) : ℝ)
    = c at hz hc
  push_cast at hz
  have h1 : (50 : ℝ) - 1 * c ≠ 0 := by
    intro h0
    rw [h0] at hz
    norm_num at hz
  have h2 : (50 : ℝ) - 1 / 2 ≠ 0 := by norm_num
  rw [div_eq_div_iff h1 h2] at hz
  nlinarith

theorem fls_view_ctor_fov {α : Type} (en : Bool) (eye dir up : Vec3) (h v : ℚ) (n b : ℕ)
    (range : ℚ × ℚ) (fmt : SonarOutputFormat) (w : OpenGLFLSView α)
    (hw : OpenGLFLSView.ctor en eye dir up h v n b range fmt = some w) :
    w.fls.fov_ = (radians h, radians v) := by
  obtain ⟨hf, -⟩ := fls_view_ctor_fields en eye dir up h v n b range fmt w hw
  obtain ⟨_, _, _, _, _, _, _, _, e⟩ := (fls_ctor_eq_some h v n b w.fls).mp hf
  rw [e]

/-- The two matrices in general: the matrix of the constructor is `glm::perspective`
with the far plane
`far`, the focal terms of `tan(viewFovCorr / 2)` and `tan(fov_.y / 2)`, and the near plane
`near * cos(max(viewFovCorr / 2, fov_.y / 2))`; the matrix that `UpdateTransform` recomputes
when the range changes to `(near, far)`, with `near` and `tan(fov_.y / 2)` not zero, is
`glm::perspective` with the same far plane and focal terms and the near plane `near / 2`. -/
theorem projection_near_plane :
    ∀ (K : Type) [Field K] [CharZero K] (cosf tanf : ℚ → K) (α : Type) (v : OpenGLFLSView α),
      (∀ (en : Bool) (eye dir up : Vec3) (h w : ℚ) (n b : ℕ) (range : ℚ × ℚ)
          (fmt : SonarOutputFormat),
        OpenGLFLSView.ctor en eye dir up h w n b range fmt = some v →
          v.projection_.toMat4 cosf tanf
            = glm_perspective (tanf (v.fls.fov_.2 / 2))
                (tanf (v.fls.viewFovCorr / 2) / tanf (v.fls.fov_.2 / 2))
                ((range.1 : K) * cosf (max (v.fls.viewFovCorr / 2) (v.fls.fov_.2 / 2)))
                (range.2 : K)) ∧
      (∀ (r : SonarReadings) (m1 m2 : Bool), v.sonar_ = true →
        (r.rangeMin ≠ v.range_.1 ∨ r.rangeMax ≠ v.range_.2) → r.rangeMin ≠ 0 →
        tanf (v.fls.fov_.2 / 2) ≠ 0 →
          (v.UpdateTransform r m1 m2).1.projection_.toMat4 cosf tanf
            = glm_perspective (tanf (v.fls.fov_.2 / 2))
                (tanf (v.fls.viewFovCorr / 2) / tanf (v.fls.fov_.2 / 2))
                ((r.rangeMin : K) / 2) (r.rangeMax : K)) := by
  intro K _ _ cosf tanf α v
  constructor
  · intro en eye dir up h w n b range fmt hv
    obtain ⟨-, -, -, -, -, -, -, e⟩ := fls_view_ctor_fields en eye dir up h w n b range fmt v hv
    rw [e]
    rfl
  · intro r m1 m2 hs hr hn ht
    rw [(fls_commit_frustum v r m1 m2 hs hr).1]
    exact frustum_eq_perspective cosf tanf _ _ _ _ hn ht

/-- An instance of the matrix of a commit: a view constructed with (2, 50) commits the
sensor range
(1, 50); with the cosine and tangent of the real numbers its matrix is `glm::perspective`
with the near plane 1/2. -/
theorem projection_near_plane_witness :
    ∃ v : OpenGLFLSView ℕ,
      OpenGLFLSView.ctor true ⟨0, 0, 0⟩ ⟨0, 0, -1⟩ ⟨0, 1, 0⟩ 120 10 512 512 (2, 50)
        SonarOutputFormat.U8 = some v ∧
      (v.setSonar.UpdateTransform ⟨1, 50, 1⟩ true true).1.projection_.toMat4
          (fun x => Real.cos (x : ℝ)) (fun x => Real.tan (x : ℝ))
        = glm_perspective (Real.tan ((v.fls.fov_.2 / 2 : ℚ) : ℝ))
            (Real.tan ((v.fls.viewFovCorr / 2 : ℚ) : ℝ) / Real.tan ((v.fls.fov_.2 / 2 : ℚ) : ℝ))
            (((1 : ℚ) : ℝ) / 2) ((50 : ℚ) : ℝ) := by
  have hsome : (OpenGLFLSView.ctor (α := ℕ) true ⟨0, 0, 0⟩ ⟨0, 0, -1⟩ ⟨0, 1, 0⟩ 120 10 512 512
      (2, 50) SonarOutputFormat.U8).isSome = true := by decide!
  obtain ⟨v, hv⟩ := Option.isSome_iff_exists.mp hsome
  obtain ⟨-, -, -, -, hr, -⟩ := fls_view_ctor_fields _ _ _ _ _ _ _ _ _ _ v hv
  have hf := fls_view_ctor_fov _ _ _ _ _ _ _ _ _ _ v hv
  have hpi := Real.pi_gt_three
  have ht : Real.tan ((v.fls.fov_.2 / 2 : ℚ) : ℝ) ≠ 0 := by
    rw [hf]
    have h0 : (0 : ℚ) < radians 10 / 2 := by decide!
    have h1 : radians 10 / 2 < (1 : ℚ) := by decide!
    have h0' : (0 : ℝ) < ((radians 10 / 2 : ℚ) : ℝ) := by exact_mod_cast h0
    have h1' : ((radians 10 / 2 : ℚ) : ℝ) < 1 := by exact_mod_cast h1
    exact (Real.tan_pos_of_pos_of_lt_pi_div_two h0' (by linarith)).ne'
  refine ⟨v, hv, (projection_near_plane ℝ (fun x => Real.cos (x : ℝ)) (fun x => Real.tan (x : ℝ)) ℕ
    v.setSonar).2 ⟨1, 50, 1⟩ true true rfl (Or.inl ?_) (by norm_num) ht⟩
  show (1 : ℚ) ≠ v.range_.1
  rw [hr]
  norm_num

/-! ## New data of the fisheye camera: theorems -/

/-- C30: with a handler installed, `NewDataReady(data)` calls the handler exactly once,
with `getImageDataPointer()` returning `data` during the call; the program state after
the call is the one the handler leaves, and `getImageDataPointer()` returns null again.
With no handler installed `NewDataReady` calls nothing and changes neither the camera nor
the program state, so a null `getImageDataPointer()` stays null. After construction the
pointer is null and no handler is installed. -/
theorem NewDataReady_calls_handler_once :
    (∀ (δ σ : Type) (c : FisheyeCamera δ σ) (h : FisheyeCameraData δ → σ → σ) (data : Option δ)
        (index i : ℕ) (w : σ),
      c.newDataCallback = some h →
        (c.NewDataReady data index w).2.2.length = 1 ∧
        (∀ d ∈ (c.NewDataReady data index w).2.2, d.getImageDataPointer i = data) ∧
        (c.NewDataReady data index w).2.2 = [{ imageData := data, exposure := c.exposure }] ∧
        (c.NewDataReady data index w).2.1 = h { imageData := data, exposure := c.exposure } w ∧
        (c.NewDataReady data index w).1.getImageDataPointer i = none ∧
        (c.NewDataReady data index w).1.newDataCallback = some h) ∧
    (∀ (δ σ : Type) (c : FisheyeCamera δ σ) (data : Option δ) (index i : ℕ) (w : σ),
      c.newDataCallback = none →
        c.NewDataReady data index w = (c, w, []) ∧
        (c.getImageDataPointer i = none →
          (c.NewDataReady data index w).1.getImageDataPointer i = none)) ∧
    (∀ (δ σ : Type) (i : ℕ),
      (FisheyeCamera.ctor : FisheyeCamera δ σ).getImageDataPointer i = none ∧
      (FisheyeCamera.ctor : FisheyeCamera δ σ).newDataCallback = none) := by
  refine ⟨?_, ?_, fun δ σ i => ⟨rfl, rfl⟩⟩
  · intro δ σ c h data index i w hc
    unfold FisheyeCamera.NewDataReady
    rw [hc]
    refine ⟨rfl, ?_, rfl, rfl, rfl, rfl⟩
    intro d hd
    simp only [List.mem_singleton] at hd
    rw [hd]
    rfl
  · intro δ σ c data index i w hc
    have e : c.NewDataReady data index w = (c, w, []) := by
      unfold FisheyeCamera.NewDataReady
      rw [hc]
    refine ⟨e, fun h0 => ?_⟩
    rw [e]
    exact h0

/-- Witness of C30: a handler that records the pointer it reads; `NewDataReady(7)`
records 7 once and leaves the pointer null; without a handler nothing is recorded. -/
theorem NewDataReady_calls_handler_once_witness :
    (((FisheyeCamera.ctor : FisheyeCamera ℕ (List (Option ℕ))).InstallNewDataHandler
        (some (fun d w => w ++ [d.getImageDataPointer 0]))).NewDataReady (some 7) 0 []).2.1
      = [some 7] ∧
    (((FisheyeCamera.ctor : FisheyeCamera ℕ (List (Option ℕ))).InstallNewDataHandler
        (some (fun d w => w ++ [d.getImageDataPointer 0]))).NewDataReady (some 7) 0
          []).1.getImageDataPointer 0 = none ∧
    ((FisheyeCamera.ctor : FisheyeCamera ℕ (List (Option ℕ))).NewDataReady (some 7) 0 []).2.1 = [] :=
  ⟨((NewDataReady_calls_handler_once.1 ℕ (List (Option ℕ))
      ((FisheyeCamera.ctor : FisheyeCamera ℕ (List (Option ℕ))).InstallNewDataHandler
        (some (fun d w => w ++ [d.getImageDataPointer 0])))
      (fun d w => w ++ [d.getImageDataPointer 0]) (some 7) 0 0 [] rfl).2.2.2.1).trans rfl,
    (NewDataReady_calls_handler_once.1 ℕ (List (Option ℕ))
      ((FisheyeCamera.ctor : FisheyeCamera ℕ (List (Option ℕ))).InstallNewDataHandler
        (some (fun d w => w ++ [d.getImageDataPointer 0])))
      (fun d w => w ++ [d.getImageDataPointer 0]) (some 7) 0 0 [] rfl).2.2.2.2.1,
    by rw [(NewDataReady_calls_handler_once.2.1 ℕ (List (Option ℕ)) FisheyeCamera.ctor (some 7) 0 0 []
      rfl).1]⟩

end sf
